import Mathlib

/-!
Declarative map generation (`src/mapgen.cpp`) and spell casting
(`src/magic.cpp`): a shallow embedding.

The definitions below transcribe the parts of `mapgen.cpp` and `magic.cpp` that
the verified properties talk about.  C++ `int` is rendered as `Int`; signed
overflow is undefined behaviour in C++ and is not modelled, except for the
running total of `calculate_mapgen_weights`, which wraps around as `to_int`
says.  `std::vector` is rendered as `List`, `std::map` as an association list
kept in ascending key order, and a thrown `JsonError` as `Except.error`.
-/

set_option autoImplicit false

namespace Mapgen

/-! ## 1. Mapgen registry and weighted selection -/

/-- The `std::map<int, int>` stored per key in `oter_mapgen_weights`:
cumulative weight to variant index, ascending by cumulative weight. -/
abbrev weight_index := List (Int × Nat)

/-- The assignment `m[k] = v` of a `std::map<K, V>` kept as an association list
in ascending key order: overwrite the entry with key `k` when there is one,
otherwise insert it at its place in key order. -/
def std_map_assign {K V : Type} [LinearOrder K] : List (K × V) → K → V → List (K × V)
  | [], k, v => [(k, v)]
  | (k', v') :: rest, k, v =>
    if k < k' then (k, v) :: (k', v') :: rest
    else if k = k' then (k, v) :: rest
    else (k', v') :: std_map_assign rest k v

/-- The member `lower_bound( roll )` of `std::map<int, int>`: the first entry
whose key is not less than `roll`, if any. -/
def lower_bound (m : weight_index) (roll : Int) : Option (Int × Nat) :=
  m.find? (fun e => decide (roll ≤ e.1))

/-- The entry `*m.rbegin()` of `std::map<int, int>`: the one with the greatest key. -/
def rbegin (m : weight_index) : Option (Int × Nat) :=
  m.getLast?

/-- The value a 32-bit `int` holds after an arithmetic result `v`: `v` itself
when it lies in `INT_MIN .. INT_MAX`, and otherwise the two's complement
wrap-around that the usual targets give (the C++ standard leaves the overflow
undefined). -/
def to_int (v : Int) : Int :=
  (v + 2 ^ 31) % 2 ^ 32 - 2 ^ 31

/-- The inner loop of `calculate_mapgen_weights` over the variants of one key
(`omw.second`), each variant given by its `weight`; the state is
`funcnum`, the `int wtotal` and the index `oter_mapgen_weights[ omw.first ]`. -/
def wcalc : List Int → Nat → Int → weight_index → weight_index
  | [], _, _, m => m
  | weight :: fit, funcnum, wtotal, m =>
    if weight < 1 then
      wcalc fit (funcnum + 1) wtotal m
    else
      wcalc fit (funcnum + 1) (to_int (wtotal + weight))
        (std_map_assign m (to_int (wtotal + weight)) funcnum)

/-- The function `calculate_mapgen_weights`: `oter_mapgen_weights` is cleared and
then, for every key of `oter_mapgen`, rebuilt from an empty index with
`funcnum = 0` and `wtotal = 0`. -/
def calculate_mapgen_weights (oter_mapgen : List (String × List Int)) :
    List (String × weight_index) :=
  oter_mapgen.map (fun omw => (omw.1, wcalc omw.2 0 0 []))

/-- The value `rlast` of `run_mapgen_func`: the greatest cumulative weight of the
key, the upper end of the interval `rng( 1, rlast )` draws the roll from. -/
def run_mapgen_func_rlast (oter_mapgen_weights : List (String × weight_index))
    (mapgen_id : String) : Option Int :=
  match oter_mapgen_weights.lookup mapgen_id with
  | some wm => (rbegin wm).map Prod.fst
  | none => none

/-- The lookup of `run_mapgen_func` for a given `roll`: `none` when the key has no
variant (the function returns `false`), otherwise the index `fidx` of the
variant whose `generate` is called. -/
def run_mapgen_func (oter_mapgen : List (String × List Int))
    (oter_mapgen_weights : List (String × weight_index))
    (mapgen_id : String) (roll : Int) : Option Nat :=
  match oter_mapgen.lookup mapgen_id with
  | some (_ :: _) =>
    match oter_mapgen_weights.lookup mapgen_id with
    | some wm => (lower_bound wm roll).map Prod.snd
    | none => none
  | _ => none

/-- Total weight of the enabled variants (those with `weight ≥ 1`) of one key. -/
def total_weight (ws : List Int) : Int :=
  (ws.filter (fun w => decide (1 ≤ w))).sum

/-- The cumulative index written out directly: one entry per enabled variant. -/
def cumulative : List Int → Nat → Int → weight_index
  | [], _, _ => []
  | w :: rest, f, t =>
    if w < 1 then cumulative rest (f + 1) t
    else (t + w, f) :: cumulative rest (f + 1) (t + w)

/-! ## 2. Values drawn at random, and the tile surface -/

/-- The struct `jmapgen_int`: an inclusive range `val .. valmax`. -/
structure jmapgen_int where
  val : Int
  valmax : Int
  deriving DecidableEq, Repr

/-- What `mapgen.cpp` reads of an overmap terrain type (`oter_t`): whether it is
rotatable and its direction as an integer number of quarter turns. -/
structure oter_t where
  is_rotatable : Bool
  get_dir : Int
  deriving DecidableEq, Repr

/-- The collaborators of `mapgen.cpp` that are defined in other translation units,
over a tile surface `M` (class `map`), a random generator state `R` and the
type `D` of the density scalar: `rng` and `one_in` (rng.cpp), the setters and
draw primitives of `map` (map.cpp), `place_stairs` and `mapgen_rotate`
(mapgen_functions.cpp), and the virtual call into the generator chosen for a
predecessor key. -/
structure Env (M R D : Type) where
  rng : Int → Int → R → Int × R
  one_in : Int → R → Bool × R
  t_null : Int
  f_null : Int
  zero_density : D
  ter_set : Int → Int → Int → M → M
  furn_set : Int → Int → Int → M → M
  set : Int → Int → Int → Int → M → M
  mtrap_set : Int → Int → Int → M → M
  set_radiation : Int → Int → Int → M → M
  bash : Int → Int → M × R → M × R
  draw_line_ter : Int → Int → Int → Int → Int → M → M
  draw_line_furn : Int → Int → Int → Int → Int → M → M
  draw_square_ter : Int → Int → Int → Int → Int → M → M
  draw_square_furn : Int → Int → Int → Int → Int → M → M
  line_to : Int → Int → Int → Int → List (Int × Int)
  draw_fill_background : Int → M → M
  points_in_rectangle : Int × Int → Int × Int → List (Int × Int)
  veh_at : M → Int × Int → Bool
  rotate : Int → M → M
  place_stairs : oter_t → M × R → M × R
  mapgen_rotate : oter_t → Bool → M → M
  run_mapgen_func : String → D → M × R → M × R

section Surface

variable {M R D : Type}

/-- The method `jmapgen_int::get`: `val` when the range is a single value,
otherwise a draw `rng( val, valmax )`. -/
def jmapgen_int.get (E : Env M R D) (v : jmapgen_int) (r : R) : Int × R :=
  if v.val = v.valmax then (v.val, r) else E.rng v.val v.valmax r

/-- The integers `a, a + 1, .., b` in order, as visited by
`for( int t = a; t <= b; t++ )`. -/
def int_range (a b : Int) : List Int :=
  (List.range (b + 1 - a).toNat).map (fun i => a + (i : Int))

/-! ## 3. Setmap operations -/

/-- The enum `jmapgen_setmap_op` as far as `mapgen.cpp` names its values;
`JMAPGEN_SETMAP_OTHER` stands for every value the switches send to `default`. -/
inductive jmapgen_setmap_op where
  | JMAPGEN_SETMAP_TER
  | JMAPGEN_SETMAP_FURN
  | JMAPGEN_SETMAP_TRAP
  | JMAPGEN_SETMAP_RADIATION
  | JMAPGEN_SETMAP_BASH
  | JMAPGEN_SETMAP_LINE_TER
  | JMAPGEN_SETMAP_LINE_FURN
  | JMAPGEN_SETMAP_LINE_TRAP
  | JMAPGEN_SETMAP_LINE_RADIATION
  | JMAPGEN_SETMAP_SQUARE_TER
  | JMAPGEN_SETMAP_SQUARE_FURN
  | JMAPGEN_SETMAP_SQUARE_TRAP
  | JMAPGEN_SETMAP_SQUARE_RADIATION
  | JMAPGEN_SETMAP_OTHER
  deriving DecidableEq, Repr

open jmapgen_setmap_op

/-- The struct `jmapgen_setmap`. -/
structure jmapgen_setmap where
  x : jmapgen_int
  y : jmapgen_int
  x2 : jmapgen_int
  y2 : jmapgen_int
  op : jmapgen_setmap_op
  val : jmapgen_int
  chance : Int
  «repeat» : jmapgen_int
  rotation : Int
  fuel : Int
  status : Int
  deriving DecidableEq, Repr

/-- The lambda `get` of `jmapgen_setmap::apply` bound to a coordinate and an
offset: `v.get() + offset`. -/
def jmapgen_setmap.get_off (E : Env M R D) (v : jmapgen_int) (offset : Int) (r : R) : Int × R :=
  ((v.get E r).1 + offset, (v.get E r).2)

/-- One pass of the `switch( op )` in the loop of `jmapgen_setmap::apply`.
Arguments of a call are evaluated left to right. -/
def jmapgen_setmap.apply_op (E : Env M R D) (s : jmapgen_setmap) (offset_x offset_y : Int)
    (st : M × R) : M × R :=
  let x_get := jmapgen_setmap.get_off E s.x offset_x
  let y_get := jmapgen_setmap.get_off E s.y offset_y
  let x2_get := jmapgen_setmap.get_off E s.x2 offset_x
  let y2_get := jmapgen_setmap.get_off E s.y2 offset_y
  let m := st.1
  let r0 := st.2
  match s.op with
  | JMAPGEN_SETMAP_TER =>
    let a := x_get r0; let b := y_get a.2; let v := s.val.get E b.2
    (E.ter_set a.1 b.1 v.1 m, v.2)
  | JMAPGEN_SETMAP_FURN =>
    let a := x_get r0; let b := y_get a.2; let v := s.val.get E b.2
    (E.furn_set a.1 b.1 v.1 m, v.2)
  | JMAPGEN_SETMAP_TRAP =>
    let a := x_get r0; let b := y_get a.2; let v := s.val.get E b.2
    (E.mtrap_set a.1 b.1 v.1 m, v.2)
  | JMAPGEN_SETMAP_RADIATION =>
    let a := x_get r0; let b := y_get a.2; let v := s.val.get E b.2
    (E.set_radiation a.1 b.1 v.1 m, v.2)
  | JMAPGEN_SETMAP_BASH =>
    let a := x_get r0; let b := y_get a.2
    E.bash a.1 b.1 (m, b.2)
  | JMAPGEN_SETMAP_LINE_TER =>
    let v := s.val.get E r0
    let a := x_get v.2; let b := y_get a.2; let c := x2_get b.2; let d := y2_get c.2
    (E.draw_line_ter v.1 a.1 b.1 c.1 d.1 m, d.2)
  | JMAPGEN_SETMAP_LINE_FURN =>
    let v := s.val.get E r0
    let a := x_get v.2; let b := y_get a.2; let c := x2_get b.2; let d := y2_get c.2
    (E.draw_line_furn v.1 a.1 b.1 c.1 d.1 m, d.2)
  | JMAPGEN_SETMAP_LINE_TRAP =>
    let a := x_get r0; let b := y_get a.2; let c := x2_get b.2; let d := y2_get c.2
    (E.line_to a.1 b.1 c.1 d.1).foldl
      (fun acc i => (E.mtrap_set i.1 i.2 (s.val.get E acc.2).1 acc.1, (s.val.get E acc.2).2))
      (m, d.2)
  | JMAPGEN_SETMAP_LINE_RADIATION =>
    let a := x_get r0; let b := y_get a.2; let c := x2_get b.2; let d := y2_get c.2
    (E.line_to a.1 b.1 c.1 d.1).foldl
      (fun acc i => (E.set_radiation i.1 i.2 (s.val.get E acc.2).1 acc.1, (s.val.get E acc.2).2))
      (m, d.2)
  | JMAPGEN_SETMAP_SQUARE_TER =>
    let v := s.val.get E r0
    let a := x_get v.2; let b := y_get a.2; let c := x2_get b.2; let d := y2_get c.2
    (E.draw_square_ter v.1 a.1 b.1 c.1 d.1 m, d.2)
  | JMAPGEN_SETMAP_SQUARE_FURN =>
    let v := s.val.get E r0
    let a := x_get v.2; let b := y_get a.2; let c := x2_get b.2; let d := y2_get c.2
    (E.draw_square_furn v.1 a.1 b.1 c.1 d.1 m, d.2)
  | JMAPGEN_SETMAP_SQUARE_TRAP =>
    let a := x_get r0; let b := y_get a.2; let c := x2_get b.2; let d := y2_get c.2
    (int_range a.1 c.1).foldl
      (fun acc tx => (int_range b.1 d.1).foldl
        (fun acc2 ty =>
          (E.mtrap_set tx ty (s.val.get E acc2.2).1 acc2.1, (s.val.get E acc2.2).2)) acc)
      (m, d.2)
  | JMAPGEN_SETMAP_SQUARE_RADIATION =>
    let a := x_get r0; let b := y_get a.2; let c := x2_get b.2; let d := y2_get c.2
    (int_range a.1 c.1).foldl
      (fun acc tx => (int_range b.1 d.1).foldl
        (fun acc2 ty =>
          (E.set_radiation tx ty (s.val.get E acc2.2).1 acc2.1, (s.val.get E acc2.2).2)) acc)
      (m, d.2)
  | JMAPGEN_SETMAP_OTHER => st

/-- The method `jmapgen_setmap::apply`: nothing when the `chance` roll fails,
otherwise `repeat.get()` passes of the switch. -/
def jmapgen_setmap.apply (E : Env M R D) (s : jmapgen_setmap) (offset_x offset_y : Int)
    (st : M × R) : M × R :=
  if s.chance ≠ 1 ∧ (E.one_in s.chance st.2).1 = false then
    (st.1, (E.one_in s.chance st.2).2)
  else
    let r1 := if s.chance ≠ 1 then (E.one_in s.chance st.2).2 else st.2
    let trepeat := s.repeat.get E r1
    Nat.iterate (jmapgen_setmap.apply_op E s offset_x offset_y) trepeat.1.toNat (st.1, trepeat.2)

/-- The method `jmapgen_setmap::has_vehicle_collision`: the answer and the
generator state after the coordinate draws. -/
def jmapgen_setmap.has_vehicle_collision (E : Env M R D) (s : jmapgen_setmap)
    (offset_x offset_y : Int) (st : M × R) : Bool × R :=
  let a := jmapgen_setmap.get_off E s.x offset_x st.2
  let b := jmapgen_setmap.get_off E s.y offset_y a.2
  let start : Int × Int := (a.1, b.1)
  match s.op with
  | JMAPGEN_SETMAP_TER | JMAPGEN_SETMAP_FURN | JMAPGEN_SETMAP_TRAP =>
    ((E.points_in_rectangle start start).any (fun p => E.veh_at st.1 p), b.2)
  | JMAPGEN_SETMAP_LINE_TER | JMAPGEN_SETMAP_LINE_FURN | JMAPGEN_SETMAP_LINE_TRAP
  | JMAPGEN_SETMAP_SQUARE_TER | JMAPGEN_SETMAP_SQUARE_FURN | JMAPGEN_SETMAP_SQUARE_TRAP =>
    let c := jmapgen_setmap.get_off E s.x2 offset_x b.2
    let d := jmapgen_setmap.get_off E s.y2 offset_y c.2
    ((E.points_in_rectangle start (c.1, d.1)).any (fun p => E.veh_at st.1 p), d.2)
  | _ => (false, b.2)

end Surface

section Chunks

variable {M R D : Type}

/-! ## 4. Placement descriptors, pieces and the objects collection -/

/-- The class `jmapgen_piece` seen through its virtual interface: the `repeat`
member, `apply( dat, x, y, mon_density, miss )` and
`has_vehicle_collision( dat, x, y )`. -/
structure jmapgen_piece (M R D : Type) where
  «repeat» : jmapgen_int
  apply : jmapgen_int → jmapgen_int → D → Option Nat → M × R → M × R
  has_vehicle_collision : M → Int → Int → Bool

/-- The class `jmapgen_place`: where to put a piece and how often. -/
structure jmapgen_place where
  x : jmapgen_int
  y : jmapgen_int
  «repeat» : jmapgen_int
  deriving DecidableEq, Repr

/-- The method `jmapgen_place::offset`: the offset is subtracted. -/
def jmapgen_place.offset (p : jmapgen_place) (x_offset y_offset : Int) : jmapgen_place :=
  { p with
    x := ⟨p.x.val - x_offset, p.x.valmax - x_offset⟩
    y := ⟨p.y.val - y_offset, p.y.valmax - y_offset⟩ }

/-- The class `jmapgen_objects`. -/
structure jmapgen_objects (M R D : Type) where
  offset_x : Int
  offset_y : Int
  mapgensize_x : Nat
  mapgensize_y : Nat
  objects : List (jmapgen_place × jmapgen_piece M R D)

/-- The body of the `for( auto &obj : objects )` loop shared by both overloads of
`jmapgen_objects::apply`, for the descriptor `where_` (already translated). -/
def jmapgen_objects.apply_obj (E : Env M R D) (where_ : jmapgen_place)
    (what : jmapgen_piece M R D) (density : D) (miss : Option Nat) (st : M × R) : M × R :=
  let a := where_.repeat.get E st.2
  let b := what.repeat.get E a.2
  Nat.iterate (what.apply where_.x where_.y density miss) (max a.1 b.1).toNat (st.1, b.2)

/-- The overload `jmapgen_objects::apply( dat, density, miss )`. -/
def jmapgen_objects.apply (E : Env M R D) (o : jmapgen_objects M R D) (density : D)
    (miss : Option Nat) (st : M × R) : M × R :=
  o.objects.foldl (fun acc obj => jmapgen_objects.apply_obj E obj.1 obj.2 density miss acc) st

/-- The overload `jmapgen_objects::apply( dat, offset_x, offset_y, density, miss )`. -/
def jmapgen_objects.apply_offset (E : Env M R D) (o : jmapgen_objects M R D)
    (offset_x offset_y : Int) (density : D) (miss : Option Nat) (st : M × R) : M × R :=
  if offset_x = 0 ∧ offset_y = 0 then
    o.apply E density miss st
  else
    o.objects.foldl
      (fun acc obj =>
        jmapgen_objects.apply_obj E (obj.1.offset (-offset_x) (-offset_y)) obj.2 density miss acc)
      st

/-- The loop of `jmapgen_objects::has_vehicle_collision` over the objects. -/
def jmapgen_objects.collision_loop (E : Env M R D) (offset_x offset_y : Int) (m : M) :
    List (jmapgen_place × jmapgen_piece M R D) → R → Bool × R
  | [], r => (false, r)
  | obj :: rest, r =>
    let where_ := obj.1.offset (-offset_x) (-offset_y)
    let a := where_.x.get E r
    let b := where_.y.get E a.2
    if obj.2.has_vehicle_collision m a.1 b.1 then (true, b.2)
    else jmapgen_objects.collision_loop E offset_x offset_y m rest b.2

/-- The method `jmapgen_objects::has_vehicle_collision`. -/
def jmapgen_objects.has_vehicle_collision (E : Env M R D) (o : jmapgen_objects M R D)
    (offset_x offset_y : Int) (st : M × R) : Bool × R :=
  jmapgen_objects.collision_loop E offset_x offset_y st.1 o.objects st.2

/-! ## 5. Chunk definitions -/

/-- The struct `ter_furn_id`. -/
structure ter_furn_id where
  ter : Int
  furn : Int
  deriving DecidableEq, Repr

/-- The members of `mapgen_function_json_base` that generation reads. -/
structure mapgen_function_json_base (M R D : Type) where
  do_format : Bool
  format : List ter_furn_id
  mapgensize_x : Nat
  mapgensize_y : Nat
  setmap_points : List jmapgen_setmap
  objects : jmapgen_objects M R D

/-- The method `mapgen_function_json_base::calc_index` (its diagnostics left out). -/
def mapgen_function_json_base.calc_index (f : mapgen_function_json_base M R D) (x y : Nat) : Nat :=
  y * f.mapgensize_y + x

/-- The body of the inner loop of `formatted_set_incredibly_simple` for the grid
cell `(x, y)`; a slot beyond the end of `format` reads as the null pair. -/
def mapgen_function_json_base.formatted_set_cell (E : Env M R D)
    (f : mapgen_function_json_base M R D) (offset_x offset_y : Int) (y x : Nat) (m : M) : M :=
  let tdata := f.format.getD (f.calc_index x y) ⟨E.t_null, E.f_null⟩
  let map_x := (x : Int) + offset_x
  let map_y := (y : Int) + offset_y
  if tdata.furn ≠ E.f_null then
    if tdata.ter ≠ E.t_null then E.set map_x map_y tdata.ter tdata.furn m
    else E.furn_set map_x map_y tdata.furn m
  else if tdata.ter ≠ E.t_null then E.ter_set map_x map_y tdata.ter m
  else m

/-- The method `mapgen_function_json_base::formatted_set_incredibly_simple`. -/
def mapgen_function_json_base.formatted_set_incredibly_simple (E : Env M R D)
    (f : mapgen_function_json_base M R D) (m : M) (offset_x offset_y : Int) : M :=
  (List.range f.mapgensize_y).foldl
    (fun acc y => (List.range f.mapgensize_x).foldl
      (fun acc2 x => f.formatted_set_cell E offset_x offset_y y x acc2) acc) m

/-- The loop `for( auto &elem : setmap_points ) elem.apply( dat, offset_x, offset_y )`
of `generate` and `nest`. -/
def apply_setmap_points (E : Env M R D) (pts : List jmapgen_setmap) (offset_x offset_y : Int)
    (st : M × R) : M × R :=
  pts.foldl (fun acc elem => elem.apply E offset_x offset_y acc) st

/-- The class `mapgen_function_json`; `predecessor_mapgen` is `none` for
`oter_str_id::NULL_ID()`. -/
structure mapgen_function_json (M R D : Type) extends mapgen_function_json_base M R D where
  weight : Int
  fill_ter : Int
  predecessor_mapgen : Option String
  rotation : jmapgen_int

/-- The expression `( -turns + 4 ) % 4` of `generate`, with the truncating `%`
of C++. -/
def inverse_turns (turns : Int) : Int :=
  Int.tmod (-turns + 4) 4

/-- The method `mapgen_function_json::generate( m, terrain_type, md, turn, d )`. -/
def mapgen_function_json.generate (E : Env M R D) (f : mapgen_function_json M R D)
    (terrain_type : oter_t) (d : D) (st : M × R) : M × R :=
  let st1 : M × R :=
    if f.fill_ter ≠ E.t_null then (E.draw_fill_background f.fill_ter st.1, st.2) else st
  let st2 : M × R :=
    match f.predecessor_mapgen with
    | some predecessor =>
      let p := E.run_mapgen_func predecessor d st1
      let rot := f.rotation.get E p.2
      let m1 := E.rotate (inverse_turns rot.1) p.1
      if terrain_type.is_rotatable then
        (E.rotate (inverse_turns terrain_type.get_dir) m1, rot.2)
      else (m1, rot.2)
    | none => st1
  let st3 : M × R :=
    if f.do_format then
      (f.tomapgen_function_json_base.formatted_set_incredibly_simple E st2.1 0 0, st2.2)
    else st2
  let st4 := apply_setmap_points E f.setmap_points 0 0 st3
  let st5 := E.place_stairs terrain_type st4
  let st6 := f.objects.apply_offset E 0 0 d none st5
  let rot := f.rotation.get E st6.2
  let m7 := E.rotate rot.1 st6.1
  if terrain_type.is_rotatable then (E.mapgen_rotate terrain_type false m7, rot.2)
  else (m7, rot.2)

/-- The method `mapgen_function_json_nested::nest( dat, offset_x, offset_y, density )`. -/
def mapgen_function_json_nested.nest (E : Env M R D) (f : mapgen_function_json_base M R D)
    (offset_x offset_y : Int) (density : D) (st : M × R) : M × R :=
  let st1 : M × R :=
    if f.do_format then (f.formatted_set_incredibly_simple E st.1 offset_x offset_y, st.2)
    else st
  let st2 := apply_setmap_points E f.setmap_points offset_x offset_y st1
  f.objects.apply_offset E offset_x offset_y density none st2

/-! ## 6. Update chunks -/

/-- The loop over `setmap_points` in `update_mapgen_function_json::update_map`:
`false` as soon as a checked operation reports a vehicle collision. -/
def update_map_setmaps (E : Env M R D) (offset_x offset_y : Int) (verify : Bool) :
    List jmapgen_setmap → M × R → Bool × (M × R)
  | [], st => (true, st)
  | elem :: rest, st =>
    if verify then
      let c := elem.has_vehicle_collision E offset_x offset_y st
      if c.1 then (false, (st.1, c.2))
      else update_map_setmaps E offset_x offset_y verify rest
        (elem.apply E offset_x offset_y (st.1, c.2))
    else update_map_setmaps E offset_x offset_y verify rest (elem.apply E offset_x offset_y st)

/-- The overload `update_mapgen_function_json::update_map( md, offset_x, offset_y,
miss, verify, rotation )`: the returned flag and the surface `md.m` afterwards. -/
def update_mapgen_function_json.update_map (E : Env M R D) (f : mapgen_function_json_base M R D)
    (st : M × R) (offset_x offset_y : Int) (miss : Option Nat) (verify : Bool)
    (rotation : Int) : Bool × (M × R) :=
  let s1 := update_map_setmaps E offset_x offset_y verify f.setmap_points st
  if s1.1 = false then (false, s1.2)
  else
    let c : Bool × R :=
      if verify then f.objects.has_vehicle_collision E offset_x offset_y s1.2
      else (false, s1.2.2)
    if c.1 then (false, (s1.2.1, c.2))
    else
      let s2 := f.objects.apply_offset E offset_x offset_y E.zero_density miss (s1.2.1, c.2)
      if rotation ≠ 0 then (true, (E.rotate (4 - rotation) s2.1, s2.2))
      else (true, s2)

/-- The rotation `update_map( omt_pos, .. )` derives from the suffix of the
overmap terrain id. -/
def update_rotation (map_id : String) : Int :=
  if map_id.length > 7 then
    if map_id.drop (map_id.length - 6) = "_south" then 2
    else if map_id.drop (map_id.length - 5) = "_east" then 1
    else if map_id.drop (map_id.length - 5) = "_west" then 3
    else 0
  else 0

/-- The overload `update_mapgen_function_json::update_map( omt_pos, offset_x,
offset_y, miss, verify )`.  `stored` is the persisted tile that
`update_tmap.load` reads; the result is the returned flag, the persisted tile
afterwards (`md.m.save()` runs only when the update went through) and the
generator state. -/
def update_mapgen_function_json.update_map_omt (E : Env M R D)
    (f : mapgen_function_json_base M R D) (stored : M) (r : R) (map_id : String)
    (offset_x offset_y : Int) (miss : Option Nat) (verify : Bool) : Bool × M × R :=
  let rotation := update_rotation map_id
  let m0 := if rotation ≠ 0 then E.rotate rotation stored else stored
  let res := update_mapgen_function_json.update_map E f (m0, r) offset_x offset_y miss verify
    rotation
  if res.1 then (true, res.2.1, res.2.2) else (false, stored, res.2.2)

end Chunks

/-! ## 7. A recording surface

A concrete surface for evaluating the definitions above: the tile is the list
of mutating calls made on it, vehicles occupy a fixed set of cells, and the
random generator is the deterministic one that always returns the lower bound
and lets every `one_in` succeed. -/

/-- A mutating call on the recording surface. -/
inductive map_event where
  | ter_set (x y id : Int)
  | furn_set (x y id : Int)
  | set (x y ter furn : Int)
  | trap_set (x y id : Int)
  | radiation (x y amount : Int)
  | bash (x y : Int)
  | line_ter (id x1 y1 x2 y2 : Int)
  | line_furn (id x1 y1 x2 y2 : Int)
  | square_ter (id x1 y1 x2 y2 : Int)
  | square_furn (id x1 y1 x2 y2 : Int)
  | fill (id : Int)
  | rotate (turns : Int)
  | stairs
  | mapgen_rotate (dir : Int)
  | predecessor (id : String)
  | piece (tag : Nat) (x y : jmapgen_int)
  | spawn_item (x y : Int) (type : String) (amount : Int)
  | add_spawn (name : String) (pack_size x y : Int) (friendly : Bool)
  | put_items (loc : String) (x y : Int)
  deriving DecidableEq, Repr

/-- The recording surface with vehicles on the cells `vehicles`. -/
def recording_env (vehicles : List (Int × Int)) : Env (List map_event) Unit Unit where
  rng := fun lo _ r => (lo, r)
  one_in := fun _ r => (true, r)
  t_null := 0
  f_null := 0
  zero_density := ()
  ter_set := fun x y id m => m ++ [map_event.ter_set x y id]
  furn_set := fun x y id m => m ++ [map_event.furn_set x y id]
  set := fun x y t f m => m ++ [map_event.set x y t f]
  mtrap_set := fun x y id m => m ++ [map_event.trap_set x y id]
  set_radiation := fun x y a m => m ++ [map_event.radiation x y a]
  bash := fun x y st => (st.1 ++ [map_event.bash x y], st.2)
  draw_line_ter := fun id x1 y1 x2 y2 m => m ++ [map_event.line_ter id x1 y1 x2 y2]
  draw_line_furn := fun id x1 y1 x2 y2 m => m ++ [map_event.line_furn id x1 y1 x2 y2]
  draw_square_ter := fun id x1 y1 x2 y2 m => m ++ [map_event.square_ter id x1 y1 x2 y2]
  draw_square_furn := fun id x1 y1 x2 y2 m => m ++ [map_event.square_furn id x1 y1 x2 y2]
  line_to := fun x1 y1 x2 y2 => [(x1, y1), (x2, y2)]
  draw_fill_background := fun id m => m ++ [map_event.fill id]
  points_in_rectangle := fun a b =>
    (int_range (min a.1 b.1) (max a.1 b.1)).flatMap
      (fun x => (int_range (min a.2 b.2) (max a.2 b.2)).map (fun y => (x, y)))
  veh_at := fun _ p => decide (p ∈ vehicles)
  rotate := fun turns m => m ++ [map_event.rotate turns]
  place_stairs := fun _ st => (st.1 ++ [map_event.stairs], st.2)
  mapgen_rotate := fun t _ m => m ++ [map_event.mapgen_rotate t.get_dir]
  run_mapgen_func := fun id _ st => (st.1 ++ [map_event.predecessor id], st.2)

/-- A piece of the recording surface: `apply` records its tag and the ranges it
was given; it reports a collision on the cells of `vehicles` when `solid`. -/
def recording_piece (vehicles : List (Int × Int)) (tag : Nat) (solid : Bool)
    (rep : jmapgen_int) : jmapgen_piece (List map_event) Unit Unit where
  «repeat» := rep
  apply := fun x y _ _ st => (st.1 ++ [map_event.piece tag x y], st.2)
  has_vehicle_collision := fun _ x y => solid && decide ((x, y) ∈ vehicles)

/-- A point setmap operation `op` at the fixed cell `(x, y)` with value `v`,
`chance` 1 and `repeat` 1, as `setup_setmap` builds it. -/
def point_setmap (op : jmapgen_setmap_op) (x y v : Int) : jmapgen_setmap :=
  { x := ⟨x, x⟩, y := ⟨y, y⟩, x2 := ⟨0, 0⟩, y2 := ⟨0, 0⟩, op := op, val := ⟨v, v⟩,
    chance := 1, «repeat» := ⟨1, 1⟩, rotation := 0, fuel := -1, status := -1 }

/-- An update chunk on the recording surface with the given setmap operations
and objects, of the canonical size 24 by 24. -/
def recording_chunk (pts : List jmapgen_setmap)
    (objs : List (jmapgen_place × jmapgen_piece (List map_event) Unit Unit)) :
    mapgen_function_json_base (List map_event) Unit Unit :=
  { do_format := false, format := [], mapgensize_x := 24, mapgensize_y := 24,
    setmap_points := pts,
    objects := { offset_x := 0, offset_y := 0, mapgensize_x := 24, mapgensize_y := 24,
                 objects := objs } }

/-! ## 8. Notions used to state the properties -/

section Notions

variable {M R D : Type}

/-- The rectangle a setmap operation with fixed coordinates is checked on by
`has_vehicle_collision`: the cell itself for a point operation, the corners
for a line or square; `none` for the operations that cannot collide. -/
def jmapgen_setmap.target (s : jmapgen_setmap) (offset_x offset_y : Int) :
    Option ((Int × Int) × (Int × Int)) :=
  match s.op with
  | .JMAPGEN_SETMAP_TER | .JMAPGEN_SETMAP_FURN | .JMAPGEN_SETMAP_TRAP =>
    some ((s.x.val + offset_x, s.y.val + offset_y), (s.x.val + offset_x, s.y.val + offset_y))
  | .JMAPGEN_SETMAP_LINE_TER | .JMAPGEN_SETMAP_LINE_FURN | .JMAPGEN_SETMAP_LINE_TRAP
  | .JMAPGEN_SETMAP_SQUARE_TER | .JMAPGEN_SETMAP_SQUARE_FURN | .JMAPGEN_SETMAP_SQUARE_TRAP =>
    some ((s.x.val + offset_x, s.y.val + offset_y), (s.x2.val + offset_x, s.y2.val + offset_y))
  | _ => none

/-- All four coordinates of a setmap operation are single values. -/
def jmapgen_setmap.fixed (s : jmapgen_setmap) : Prop :=
  s.x.val = s.x.valmax ∧ s.y.val = s.y.valmax ∧ s.x2.val = s.x2.valmax ∧ s.y2.val = s.y2.valmax

/-- The setters and draw primitives that setmap operations call do not move,
add or remove vehicles. -/
def Env.keeps_vehicles (E : Env M R D) : Prop :=
  (∀ x y v m p, E.veh_at (E.ter_set x y v m) p = E.veh_at m p) ∧
  (∀ x y v m p, E.veh_at (E.furn_set x y v m) p = E.veh_at m p) ∧
  (∀ x y v m p, E.veh_at (E.mtrap_set x y v m) p = E.veh_at m p) ∧
  (∀ x y v m p, E.veh_at (E.set_radiation x y v m) p = E.veh_at m p) ∧
  (∀ x y st p, E.veh_at (E.bash x y st).1 p = E.veh_at st.1 p) ∧
  (∀ v a b c d m p, E.veh_at (E.draw_line_ter v a b c d m) p = E.veh_at m p) ∧
  (∀ v a b c d m p, E.veh_at (E.draw_line_furn v a b c d m) p = E.veh_at m p) ∧
  (∀ v a b c d m p, E.veh_at (E.draw_square_ter v a b c d m) p = E.veh_at m p) ∧
  (∀ v a b c d m p, E.veh_at (E.draw_square_furn v a b c d m) p = E.veh_at m p)

end Notions

/-! ## 9. Loading placement descriptors -/

section Loading

variable {M R D : Type}

/-- The function `common_check_bounds`; `jso.throw_error` is `Except.error`. -/
def common_check_bounds (x y : jmapgen_int) (mapgensize_x mapgensize_y : Int) :
    Except String Bool :=
  if x.val < 0 ∨ x.val > mapgensize_x - 1 ∨ y.val < 0 ∨ y.val > mapgensize_y - 1 then
    .ok false
  else if x.valmax > mapgensize_x - 1 then
    .error "coordinate range cannot cross grid boundaries: x"
  else if y.valmax > mapgensize_y - 1 then
    .error "coordinate range cannot cross grid boundaries: y"
  else
    .ok true

/-- The method `jmapgen_objects::check_bounds`. -/
def jmapgen_objects.check_bounds (o : jmapgen_objects M R D) (place : jmapgen_place) :
    Except String Bool :=
  common_check_bounds place.x place.y (o.mapgensize_x : Int) (o.mapgensize_y : Int)

/-- The method `jmapgen_objects::add`. -/
def jmapgen_objects.add (o : jmapgen_objects M R D) (place : jmapgen_place)
    (piece : jmapgen_piece M R D) : jmapgen_objects M R D :=
  { o with objects := o.objects ++ [(place, piece)] }

/-- The template `jmapgen_objects::load_objects<PieceType>( JsonArray )`.  An entry
of the array is the descriptor read by `jmapgen_place( jsi )` together with
the outcome of the piece constructor `PieceType( jsi )`, which runs only for
an entry that passed the bounds check. -/
def jmapgen_objects.load_objects (o : jmapgen_objects M R D) :
    List (jmapgen_place × Except String (jmapgen_piece M R D)) →
      Except String (jmapgen_objects M R D)
  | [] => .ok o
  | jsi :: parray =>
    let where_ := jsi.1.offset o.offset_x o.offset_y
    match o.check_bounds where_ with
    | .error e => .error e
    | .ok true =>
      match jsi.2 with
      | .error e => .error e
      | .ok piece => jmapgen_objects.load_objects (o.add where_ piece) parray
    | .ok false => jmapgen_objects.load_objects o parray

/-- The descriptors of a loaded collection, `none` when loading threw. -/
def loaded_places (res : Except String (jmapgen_objects M R D)) : Option (List jmapgen_place) :=
  match res with
  | .ok o => some (o.objects.map Prod.fst)
  | .error _ => none

/-- The bounds that `common_check_bounds` enforces on an accepted range. -/
def checked_range (v : jmapgen_int) (size : Int) : Prop :=
  0 ≤ v.val ∧ v.val ≤ size - 1 ∧ v.valmax ≤ size - 1

end Loading

/-- The empty objects collection of a top-level chunk of canonical size
(`SEEX * 2` by `SEEY * 2`, twenty-four cells each way) at grid offset zero. -/
def recording_objects : jmapgen_objects (List map_event) Unit Unit :=
  { offset_x := 0, offset_y := 0, mapgensize_x := 24, mapgensize_y := 24, objects := [] }

/-! ## 10. The stages of `generate` -/

section Stages

variable {M R D : Type}

/-- Stage: `fill_ter` over every cell. -/
def generate_fill (E : Env M R D) (f : mapgen_function_json M R D) (st : M × R) : M × R :=
  if f.fill_ter ≠ E.t_null then (E.draw_fill_background f.fill_ter st.1, st.2) else st

/-- Stage: the predecessor chunk followed by the two inverse rotations. -/
def generate_predecessor (E : Env M R D) (f : mapgen_function_json M R D)
    (terrain_type : oter_t) (d : D) (st : M × R) : M × R :=
  match f.predecessor_mapgen with
  | some predecessor =>
    let p := E.run_mapgen_func predecessor d st
    let rot := f.rotation.get E p.2
    let m1 := E.rotate (inverse_turns rot.1) p.1
    if terrain_type.is_rotatable then (E.rotate (inverse_turns terrain_type.get_dir) m1, rot.2)
    else (m1, rot.2)
  | none => st

/-- Stage: the grid format. -/
def generate_format (E : Env M R D) (f : mapgen_function_json M R D) (st : M × R) : M × R :=
  if f.do_format then
    (f.tomapgen_function_json_base.formatted_set_incredibly_simple E st.1 0 0, st.2)
  else st

/-- Stage: every setmap operation in declaration order. -/
def generate_setmaps (E : Env M R D) (f : mapgen_function_json M R D) (st : M × R) : M × R :=
  apply_setmap_points E f.setmap_points 0 0 st

/-- Stage: the objects collection. -/
def generate_objects (E : Env M R D) (f : mapgen_function_json M R D) (d : D) (st : M × R) :
    M × R :=
  f.objects.apply_offset E 0 0 d none st

/-- Stage: the final rotation. -/
def generate_rotate (E : Env M R D) (f : mapgen_function_json M R D) (terrain_type : oter_t)
    (st : M × R) : M × R :=
  if terrain_type.is_rotatable then
    (E.mapgen_rotate terrain_type false (E.rotate (f.rotation.get E st.2).1 st.1),
      (f.rotation.get E st.2).2)
  else (E.rotate (f.rotation.get E st.2).1 st.1, (f.rotation.get E st.2).2)

/-- The stages in the order of the specification: predecessor, fill, grid
format, setmap operations, stairs, objects, rotation. -/
def generate_predecessor_first (E : Env M R D) (f : mapgen_function_json M R D)
    (terrain_type : oter_t) (d : D) (st : M × R) : M × R :=
  generate_rotate E f terrain_type (generate_objects E f d (E.place_stairs terrain_type
    (generate_setmaps E f (generate_format E f (generate_fill E f
      (generate_predecessor E f terrain_type d st))))))

/-- The stages with the fill ahead of the predecessor. -/
def generate_fill_first (E : Env M R D) (f : mapgen_function_json M R D)
    (terrain_type : oter_t) (d : D) (st : M × R) : M × R :=
  generate_rotate E f terrain_type (generate_objects E f d (E.place_stairs terrain_type
    (generate_setmaps E f (generate_format E f (generate_predecessor E f terrain_type d
      (generate_fill E f st))))))

end Stages

/-- A top-level chunk on the recording surface with the given fill terrain,
predecessor and fixed rotation, and nothing else. -/
def recording_mapgen (fill_ter : Int) (predecessor : Option String) (rotation : Int) :
    mapgen_function_json (List map_event) Unit Unit :=
  { recording_chunk [] [] with
    weight := 1000, fill_ter := fill_ter, predecessor_mapgen := predecessor,
    rotation := ⟨rotation, rotation⟩ }

/-! ## 11. Rotating a tile -/

section Rotate

variable {S : Type}

/-- The struct `point`. -/
structure point where
  x : Int
  y : Int
  deriving DecidableEq, Repr

/-- The operator `point - point`. -/
def point.sub (a b : point) : point :=
  ⟨a.x - b.x, a.y - b.y⟩

/-- The four submaps of a tile, named by their grid position `x y`. -/
structure submap_grid (S : Type) where
  sm00 : S
  sm10 : S
  sm01 : S
  sm11 : S
  deriving DecidableEq, Repr

/-- The submap `*get_submap_at_grid( p )`; outside the grid there is none. -/
def submap_grid.get (g : submap_grid S) (p : point) : Option S :=
  if p = ⟨0, 0⟩ then some g.sm00
  else if p = ⟨1, 0⟩ then some g.sm10
  else if p = ⟨0, 1⟩ then some g.sm01
  else if p = ⟨1, 1⟩ then some g.sm11
  else none

/-- Assignment to `*get_submap_at_grid( p )`. -/
def submap_grid.put (g : submap_grid S) (p : point) (s : S) : submap_grid S :=
  if p = ⟨0, 0⟩ then { g with sm00 := s }
  else if p = ⟨1, 0⟩ then { g with sm10 := s }
  else if p = ⟨0, 1⟩ then { g with sm01 := s }
  else if p = ⟨1, 1⟩ then { g with sm11 := s }
  else g

/-- The call `std::swap( *get_submap_at_grid( p ), tmp )` on the pair of the grid
and `tmp`. -/
def swap_with_tmp (p : point) (st : submap_grid S × S) : submap_grid S × S :=
  match st.1.get p with
  | some s => (st.1.put p st.2, s)
  | none => st

/-- One pass of the loop `for( int k = 0; k < 4; ++k )` of `map::rotate` on the
triple of `p`, the grid and `tmp`. -/
def rotate_step (point_rotate : Int → point → point → point) (turns : Int)
    (acc : point × (submap_grid S × S)) : point × (submap_grid S × S) :=
  (point_rotate turns acc.1 ⟨2, 2⟩,
    swap_with_tmp (point.sub ⟨1, 1⟩ (point_rotate turns acc.1 ⟨2, 2⟩)) acc.2)

/-- The method `map::rotate( turns )` on the submaps of the tile.  The methods
`point::rotate( turns, dim )` and `submap::rotate( turns )` and the
default-constructed `submap tmp` are defined elsewhere and come in as
`point_rotate`, `submap_rotate` and `empty`.  The relocation of NPCs, the
position bookkeeping of vehicles and the rotation of zones are left out. -/
def map_rotate (point_rotate : Int → point → point → point)
    (submap_rotate : Int → S → S) (empty : S) (turns : Int) (g : submap_grid S) :
    submap_grid S :=
  if Int.tmod turns 4 = 0 then g
  else
    let moved : submap_grid S :=
      if Int.tmod turns 4 = 2 then
        { sm00 := g.sm11, sm11 := g.sm00, sm10 := g.sm01, sm01 := g.sm10 }
      else
        (Nat.iterate (rotate_step point_rotate (Int.tmod turns 4)) 4
          (⟨0, 0⟩, swap_with_tmp (point.sub ⟨1, 1⟩ ⟨0, 0⟩) (g, empty))).2.1
    { sm00 := submap_rotate (Int.tmod turns 4) moved.sm00,
      sm10 := submap_rotate (Int.tmod turns 4) moved.sm10,
      sm01 := submap_rotate (Int.tmod turns 4) moved.sm01,
      sm11 := submap_rotate (Int.tmod turns 4) moved.sm11 }

/-- A quarter turn of the cell `p` inside a grid of dimensions `dim`, repeated
`turns` times; an instance of `point::rotate` for evaluating `map_rotate`. -/
def quarter_turns (turns : Int) (p dim : point) : point :=
  if turns = 1 then ⟨dim.y - p.y - 1, p.x⟩
  else if turns = 2 then ⟨dim.x - p.x - 1, dim.y - p.y - 1⟩
  else if turns = 3 then ⟨p.y, dim.x - p.x - 1⟩
  else p

/-- A quarter turn of a vector about the origin for `turns = 1`; an instance of
`submap::rotate` on a submap reduced to one vector. -/
def vector_turn (turns : Int) (v : Int × Int) : Int × Int :=
  if turns = 1 then (-v.2, v.1) else v

/-- The cells of the two by two grid of submaps. -/
def grid_cells : List point :=
  [⟨0, 0⟩, ⟨1, 0⟩, ⟨0, 1⟩, ⟨1, 1⟩]

end Rotate

/-! ## 12. Palettes -/

section Palettes

variable {K V P : Type}

/-- The member `find` of a `std::map<K, V>`. -/
def std_map_find [LinearOrder K] (m : List (K × V)) (k : K) : Option V :=
  (m.find? (fun e => decide (e.1 = k))).map Prod.snd

/-- The loop `for( auto &placing : rh ) lhs[ placing.first ] = placing.second`. -/
def std_map_merge [LinearOrder K] (lhs rh : List (K × V)) : List (K × V) :=
  rh.foldl (fun acc placing => std_map_assign acc placing.1 placing.2) lhs

/-- The three maps of the class `mapgen_palette`, keyed by character; `P` is the
type of the piece pointers. -/
structure mapgen_palette (P : Type) where
  format_terrain : List (Char × Int)
  format_furniture : List (Char × Int)
  format_placings : List (Char × List P)

/-- The method `mapgen_palette::add( const mapgen_palette &rh )`. -/
def mapgen_palette.add (self rh : mapgen_palette P) : mapgen_palette P :=
  { format_placings := std_map_merge self.format_placings rh.format_placings
    format_terrain := std_map_merge self.format_terrain rh.format_terrain
    format_furniture := std_map_merge self.format_furniture rh.format_furniture }

/-- The keys of a `std::map` are strictly ascending. -/
def std_map_ok [LinearOrder K] (m : List (K × V)) : Prop :=
  (m.map Prod.fst).Pairwise (fun a b => a < b)

/-- All three maps of a palette are well-formed `std::map`s. -/
def mapgen_palette.ok (p : mapgen_palette P) : Prop :=
  std_map_ok p.format_terrain ∧ std_map_ok p.format_furniture ∧ std_map_ok p.format_placings

/-- The entry of `rh` for a key when it has one, otherwise the one of `lhs`. -/
def override_entry (lhs rh : Option V) : Option V :=
  match rh with
  | some v => some v
  | none => lhs

end Palettes

/-- A palette defining `a` and `b`, with one placing on `a`. -/
def palette_included : mapgen_palette Nat :=
  { format_terrain := [('a', 1), ('b', 2)], format_furniture := [('a', 3)],
    format_placings := [('a', [7])] }

/-- A palette redefining `b` only. -/
def palette_overriding : mapgen_palette Nat :=
  { format_terrain := [('b', 5)], format_furniture := [], format_placings := [('b', [8, 9])] }


/-! ## 13. A nested chunk as a translation -/

section Nested

variable {M R D : Type}

/-- The range `[min + o, max + o]`. -/
def jmapgen_int.translate (v : jmapgen_int) (o : Int) : jmapgen_int :=
  ⟨v.val + o, v.valmax + o⟩

/-- The grid cells `(x, y)` of a chunk, row by row. -/
def grid_cells_of (width height : Nat) : List (Nat × Nat) :=
  (List.range height).flatMap (fun y => (List.range width).map (fun x => (x, y)))

/-- Write the grid pair `tdata` at the map cell `(map_x, map_y)`: terrain and
furniture, furniture only, terrain only, or nothing. -/
def write_ter_furn (E : Env M R D) (tdata : ter_furn_id) (map_x map_y : Int) (m : M) : M :=
  if tdata.furn ≠ E.f_null then
    if tdata.ter ≠ E.t_null then E.set map_x map_y tdata.ter tdata.furn m
    else E.furn_set map_x map_y tdata.furn m
  else if tdata.ter ≠ E.t_null then E.ter_set map_x map_y tdata.ter m
  else m

/-- What a setmap operation writes on a cell: terrain, furniture, a trap or
radiation. -/
inductive setmap_layer where
  | terrain
  | furniture
  | trap
  | radiation
  deriving DecidableEq, Repr

/-- The setter of the tile for a layer. -/
def put_cell (E : Env M R D) : setmap_layer → Int → Int → Int → M → M
  | .terrain => E.ter_set
  | .furniture => E.furn_set
  | .trap => E.mtrap_set
  | .radiation => E.set_radiation

/-- The cell of a translated setmap operation: the values drawn from the ranges
`x` and `y`, in this order, each plus the offset of its axis. -/
def cell_translated (E : Env M R D) (s : jmapgen_setmap) (ox oy : Int) (r : R) :
    (Int × Int) × R :=
  let x := s.x.get E r
  let y := s.y.get E x.2
  ((x.1 + ox, y.1 + oy), y.2)

/-- The two corners of a translated line or square: the values drawn from the
ranges `x`, `y`, `x2`, `y2`, in this order, each plus the offset of its axis. -/
def corners_translated (E : Env M R D) (s : jmapgen_setmap) (ox oy : Int) (r : R) :
    ((Int × Int) × (Int × Int)) × R :=
  let a := cell_translated E s ox oy r
  let x2 := s.x2.get E a.2
  let y2 := s.y2.get E x2.2
  ((a.1, (x2.1 + ox, y2.1 + oy)), y2.2)

/-- A translated point operation: the value, drawn after the coordinates, is
written on the translated cell. -/
def point_translated (E : Env M R D) (s : jmapgen_setmap) (ox oy : Int) (layer : setmap_layer)
    (st : M × R) : M × R :=
  let a := cell_translated E s ox oy st.2
  let v := s.val.get E a.2
  (put_cell E layer a.1.1 a.1.2 v.1 st.1, v.2)

/-- Writing a layer cell by cell, a value drawn for each cell. -/
def cells_written (E : Env M R D) (s : jmapgen_setmap) (layer : setmap_layer)
    (cells : List (Int × Int)) (st : M × R) : M × R :=
  cells.foldl
    (fun acc c => (put_cell E layer c.1 c.2 (s.val.get E acc.2).1 acc.1, (s.val.get E acc.2).2))
    st

/-- The cells of the rectangle between two corners, column by column. -/
def rectangle_cells (a b : Int × Int) : List (Int × Int) :=
  (int_range a.1 b.1).flatMap (fun tx => (int_range a.2 b.2).map (fun ty => (tx, ty)))

/-- One pass of a setmap operation of a chunk translated by `(ox, oy)`, written
from the specification: every coordinate is its drawn value plus the offset.
Terrain and furniture lines and squares draw their value before the corners
and go to the draw primitive of the tile; trap and radiation lines and squares
are written cell by cell. -/
def setmap_pass_translated (E : Env M R D) (s : jmapgen_setmap) (ox oy : Int) (st : M × R) :
    M × R :=
  match s.op with
  | .JMAPGEN_SETMAP_TER => point_translated E s ox oy .terrain st
  | .JMAPGEN_SETMAP_FURN => point_translated E s ox oy .furniture st
  | .JMAPGEN_SETMAP_TRAP => point_translated E s ox oy .trap st
  | .JMAPGEN_SETMAP_RADIATION => point_translated E s ox oy .radiation st
  | .JMAPGEN_SETMAP_BASH =>
    E.bash (cell_translated E s ox oy st.2).1.1 (cell_translated E s ox oy st.2).1.2
      (st.1, (cell_translated E s ox oy st.2).2)
  | .JMAPGEN_SETMAP_LINE_TER =>
    let c := corners_translated E s ox oy (s.val.get E st.2).2
    (E.draw_line_ter (s.val.get E st.2).1 c.1.1.1 c.1.1.2 c.1.2.1 c.1.2.2 st.1, c.2)
  | .JMAPGEN_SETMAP_LINE_FURN =>
    let c := corners_translated E s ox oy (s.val.get E st.2).2
    (E.draw_line_furn (s.val.get E st.2).1 c.1.1.1 c.1.1.2 c.1.2.1 c.1.2.2 st.1, c.2)
  | .JMAPGEN_SETMAP_LINE_TRAP =>
    let c := corners_translated E s ox oy st.2
    cells_written E s .trap (E.line_to c.1.1.1 c.1.1.2 c.1.2.1 c.1.2.2) (st.1, c.2)
  | .JMAPGEN_SETMAP_LINE_RADIATION =>
    let c := corners_translated E s ox oy st.2
    cells_written E s .radiation (E.line_to c.1.1.1 c.1.1.2 c.1.2.1 c.1.2.2) (st.1, c.2)
  | .JMAPGEN_SETMAP_SQUARE_TER =>
    let c := corners_translated E s ox oy (s.val.get E st.2).2
    (E.draw_square_ter (s.val.get E st.2).1 c.1.1.1 c.1.1.2 c.1.2.1 c.1.2.2 st.1, c.2)
  | .JMAPGEN_SETMAP_SQUARE_FURN =>
    let c := corners_translated E s ox oy (s.val.get E st.2).2
    (E.draw_square_furn (s.val.get E st.2).1 c.1.1.1 c.1.1.2 c.1.2.1 c.1.2.2 st.1, c.2)
  | .JMAPGEN_SETMAP_SQUARE_TRAP =>
    let c := corners_translated E s ox oy st.2
    cells_written E s .trap (rectangle_cells c.1.1 c.1.2) (st.1, c.2)
  | .JMAPGEN_SETMAP_SQUARE_RADIATION =>
    let c := corners_translated E s ox oy st.2
    cells_written E s .radiation (rectangle_cells c.1.1 c.1.2) (st.1, c.2)
  | .JMAPGEN_SETMAP_OTHER => st

/-- A setmap operation of a chunk translated by `(ox, oy)`, written from the
specification: a chance other than 1 is rolled first and a failed roll leaves
the tile alone; otherwise the pass is made `repeat` times. -/
def setmap_translated (E : Env M R D) (s : jmapgen_setmap) (ox oy : Int) (st : M × R) : M × R :=
  let roll : Bool × R := if s.chance = 1 then (true, st.2) else E.one_in s.chance st.2
  if roll.1 then
    Nat.iterate (setmap_pass_translated E s ox oy) (s.repeat.get E roll.2).1.toNat
      (st.1, (s.repeat.get E roll.2).2)
  else (st.1, roll.2)

/-- An object of a chunk translated by `(ox, oy)`, written from the
specification: the piece is applied with the ranges `[min + ox, max + ox]` and
`[min + oy, max + oy]`, as often as the greater of the two `repeat` draws says,
the draw of the descriptor first; the `repeat` range itself is not changed. -/
def object_translated (E : Env M R D) (where_ : jmapgen_place) (what : jmapgen_piece M R D)
    (ox oy : Int) (density : D) (st : M × R) : M × R :=
  let n := where_.repeat.get E st.2
  let k := what.repeat.get E n.2
  Nat.iterate (what.apply (where_.x.translate ox) (where_.y.translate oy) density none)
    (max n.1 k.1).toNat (st.1, k.2)

/-- A nested chunk applied as a pure translation by `(ox, oy)`, written from the
specification: every grid cell `(x, y)` is written at `(x + ox, y + oy)`, every
setmap operation is made with each drawn coordinate plus the offset, and every
object is applied with its ranges translated to `[min + ox, max + ox]` and
`[min + oy, max + oy]` and its `repeat` unchanged. -/
def nest_translated (E : Env M R D) (f : mapgen_function_json_base M R D) (ox oy : Int)
    (density : D) (st : M × R) : M × R :=
  let st1 : M × R :=
    if f.do_format then
      ((grid_cells_of f.mapgensize_x f.mapgensize_y).foldl
        (fun m c => write_ter_furn E (f.format.getD (c.2 * f.mapgensize_y + c.1)
          ⟨E.t_null, E.f_null⟩) ((c.1 : Int) + ox) ((c.2 : Int) + oy) m) st.1, st.2)
    else st
  let st2 := f.setmap_points.foldl (fun acc elem => setmap_translated E elem ox oy acc) st1
  f.objects.objects.foldl
    (fun acc obj => object_translated E obj.1 obj.2 ox oy density acc) st2

end Nested

/-! ## 14. Setting up a chunk from its document -/

section Setup

variable {M R D : Type}

/-- What `setup_common` reads of the JSON object of a chunk.  `fill_ter` is the
terrain id of the `fill_ter` string when the member is there, `rows` the
`rows` array, `palette` the outcome of `mapgen_palette::load_temp( jo )`
(an exception, or the three maps), and `remainder` the part of the body after
the grid: `setup_setmap` and the `load_objects` calls, whose deferred
reference is thrown at the end of setup. -/
structure mapgen_document (M R D : Type) where
  mapgensize : Option (List Int)
  fill_ter : Option Int
  rotation : Option jmapgen_int
  predecessor_mapgen : Option String
  rows : Option (List (List Char))
  palette : Except String (mapgen_palette (jmapgen_piece M R D))
  remainder : mapgen_function_json_base M R D → Except String (mapgen_function_json_base M R D)

/-- The method `mapgen_function_json::setup_internal`: the flag it returns and
the chunk with `fill_ter`, `rotation` and `predecessor_mapgen` assigned. -/
def mapgen_function_json.setup_internal (t_null : Int) (jo : mapgen_document M R D)
    (f : mapgen_function_json M R D) : Except String (Bool × mapgen_function_json M R D) :=
  if jo.mapgensize.isSome then
    .error "mapgensize only allowed for nested mapgen"
  else
    let fill_ter := match jo.fill_ter with
      | some t => t
      | none => f.fill_ter
    let rotation := match jo.rotation with
      | some r => r
      | none => f.rotation
    .ok (decide (fill_ter ≠ t_null) || jo.predecessor_mapgen.isSome,
      { f with fill_ter := fill_ter, rotation := rotation,
               predecessor_mapgen := jo.predecessor_mapgen })

/-- The call `format.resize( n )`: cut to `n` entries or padded with the
default-constructed entry. -/
def vector_resize {α : Type} (v : List α) (n : Nat) (dflt : α) : List α :=
  (v ++ List.replicate (n - v.length) dflt).take n

/-- The constructor `jmapgen_place( x, y )` used for the cells of the grid: a
single cell, applied once. -/
def jmapgen_place.at_cell (x y : Int) : jmapgen_place :=
  ⟨⟨x, x⟩, ⟨y, y⟩, ⟨1, 1⟩⟩

/-- The assignment `format[ index ].ter = t`. -/
def format_set_ter (t_null f_null : Int) (format : List ter_furn_id) (index : Nat) (t : Int) :
    List ter_furn_id :=
  format.set index ⟨t, (format.getD index ⟨t_null, f_null⟩).furn⟩

/-- The assignment `format[ index ].furn = fu`. -/
def format_set_furn (t_null f_null : Int) (format : List ter_furn_id) (index : Nat) (fu : Int) :
    List ter_furn_id :=
  format.set index ⟨(format.getD index ⟨t_null, f_null⟩).ter, fu⟩

/-- The loop `for( auto &what : fpi->second ) objects.add( where, what )` for the
cell at column `i` of row `c`. -/
def add_placings (o : jmapgen_objects M R D) (whats : List (jmapgen_piece M R D))
    (x_offset y_offset c i : Nat) : jmapgen_objects M R D :=
  whats.foldl
    (fun acc what =>
      acc.add (jmapgen_place.at_cell ((i : Int) - x_offset) ((c : Int) - y_offset)) what) o

/-- The body of the inner loop of `setup_common` over the columns, for the
character `tmpkey` found at column `i` of row `c`. -/
def setup_rows_cell (qualifies : Bool) (palette : mapgen_palette (jmapgen_piece M R D))
    (t_null f_null : Int) (x_offset y_offset c i : Nat) (tmpkey : Char)
    (f : mapgen_function_json_base M R D) : Except String (mapgen_function_json_base M R D) :=
  let index := f.calc_index (i - x_offset) (c - y_offset)
  let with_ter : Except String (mapgen_function_json_base M R D) :=
    match std_map_find palette.format_terrain tmpkey with
    | some t =>
      .ok { f with format := format_set_ter t_null f_null f.format index t }
    | none =>
      if !qualifies then .error "format: rows: character is not in 'terrain', and no 'fill_ter' is set!"
      else .ok f
  match with_ter with
  | .error e => .error e
  | .ok f1 =>
    let f2 : mapgen_function_json_base M R D :=
      match std_map_find palette.format_furniture tmpkey with
      | some fu =>
        { f1 with format := format_set_furn t_null f_null f1.format index fu }
      | none => f1
    match std_map_find palette.format_placings tmpkey with
    | some whats =>
      .ok { f2 with objects := add_placings f2.objects whats x_offset y_offset c i }
    | none => .ok f2

/-- The loop of `setup_common` over the columns `is` of the row `tmpval`. -/
def setup_rows_columns (qualifies : Bool) (palette : mapgen_palette (jmapgen_piece M R D))
    (t_null f_null : Int) (x_offset y_offset c : Nat) (tmpval : List Char) :
    List Nat → mapgen_function_json_base M R D →
      Except String (mapgen_function_json_base M R D)
  | [], f => .ok f
  | i :: rest, f =>
    match setup_rows_cell qualifies palette t_null f_null x_offset y_offset c i
        (tmpval.getD i ' ') f with
    | .error e => .error e
    | .ok f1 =>
      setup_rows_columns qualifies palette t_null f_null x_offset y_offset c tmpval rest f1

/-- The loop of `setup_common` over the rows `cs` of `parray`. -/
def setup_rows_lines (qualifies : Bool) (palette : mapgen_palette (jmapgen_piece M R D))
    (t_null f_null : Int) (x_offset y_offset : Nat) (parray : List (List Char)) :
    List Nat → mapgen_function_json_base M R D →
      Except String (mapgen_function_json_base M R D)
  | [], f => .ok f
  | c :: rest, f =>
    if (parray.getD c []).length < f.mapgensize_x + x_offset then
      .error "format: row must have at least mapgensize_x + x_offset columns"
    else
      match setup_rows_columns qualifies palette t_null f_null x_offset y_offset c
          (parray.getD c []) (List.range' x_offset f.mapgensize_x) f with
      | .error e => .error e
      | .ok f1 => setup_rows_lines qualifies palette t_null f_null x_offset y_offset parray rest f1

/-- The body of `mapgen_function_json_base::setup_common( JsonObject jo )` after
the call of `setup_internal`, whose flag is `qualifies`: the value returned
and the chunk. -/
def mapgen_function_json_base.setup_common_body (t_null f_null : Int) (x_offset y_offset : Nat)
    (qualifies : Bool) (jo : mapgen_document M R D) (f : mapgen_function_json_base M R D) :
    Except String (Bool × mapgen_function_json_base M R D) :=
  let f0 : mapgen_function_json_base M R D :=
    { f with format := vector_resize f.format (f.mapgensize_x * f.mapgensize_y) ⟨t_null, f_null⟩ }
  let after_rows : Except String (Option (Bool × mapgen_function_json_base M R D)) :=
    match jo.rows with
    | some parray =>
      match jo.palette with
      | .error e => .error e
      | .ok palette =>
        if palette.format_terrain.isEmpty then .ok none
        else if parray.length < f0.mapgensize_y + y_offset then
          .error "format: rows: must have at least mapgensize_y + y_offset rows"
        else
          match setup_rows_lines qualifies palette t_null f_null x_offset y_offset parray
              (List.range' y_offset f0.mapgensize_y) f0 with
          | .error e => .error e
          | .ok f1 => .ok (some (true, { f1 with do_format := true }))
    | none => .ok (some (qualifies, f0))
  match after_rows with
  | .error e => .error e
  | .ok none => .ok (false, f0)
  | .ok (some (q, f1)) =>
    if !q then .error "Need one of 'fill_terrain' or 'predecessor_mapgen' or 'rows' + 'terrain'"
    else
      match jo.remainder f1 with
      | .error e => .error e
      | .ok f2 => .ok (true, f2)

/-- The methods `mapgen_function_json::setup` and `setup_common()` for a chunk
that is not ready yet: `setup_internal`, the body above, and the error
`format: no terrain map` when the body returns false. -/
def mapgen_function_json.setup (t_null f_null : Int) (x_offset y_offset : Nat)
    (jo : mapgen_document M R D) (f : mapgen_function_json M R D) :
    Except String (mapgen_function_json M R D) :=
  match f.setup_internal t_null jo with
  | .error e => .error e
  | .ok (qualifies, f1) =>
    match f1.tomapgen_function_json_base.setup_common_body t_null f_null x_offset y_offset
        qualifies jo with
    | .error e => .error e
    | .ok (false, _) => .error "format: no terrain map"
    | .ok (true, b) => .ok { f1 with tomapgen_function_json_base := b }

/-- The conversion of an `int` to the `size_t` members `mapgensize_x` and
`mapgensize_y`, sixty-four bits wide. -/
def to_size_t (v : Int) : Nat :=
  (v % 2 ^ 64).toNat

/-- The method `mapgen_function_json_nested::setup_internal` on the `mapgensize`
member of the document (`jarr.get_int` throws on a missing element): the flag
it returns and the two sizes it assigns. -/
def mapgen_function_json_nested.setup_internal (mapgensize : Option (List Int)) :
    Except String (Bool × Nat × Nat) :=
  match mapgensize with
  | some jarr =>
    match jarr.get? 0, jarr.get? 1 with
    | some a, some b =>
      if to_size_t a = 0 ∨ to_size_t a ≠ to_size_t b then
        .error "mapgensize must be an array of two identical, positive numbers"
      else .ok (true, to_size_t a, to_size_t b)
    | _, _ => .error "mapgensize: bad index"
  | none => .error "Nested mapgen must have mapgensize set"

/-- The outcome of a load as a flag: did it throw. -/
def threw {ε α : Type} (r : Except ε α) : Bool :=
  match r with
  | .error _ => true
  | .ok _ => false

/-- The message of the exception a load threw, if it threw. -/
def thrown_message {ε α : Type} (r : Except ε α) : Option ε :=
  match r with
  | .error e => some e
  | .ok _ => none

end Setup

/-- A grid of twenty-four rows of twenty-four characters, all `a` but the first
character of the first row. -/
def recording_rows (first : Char) : List (List Char) :=
  (first :: List.replicate 23 'a') :: List.replicate 23 (List.replicate 24 'a')

/-- The document of a top-level chunk on the recording surface: a fill terrain,
a grid, a palette with the given terrain map only, and nothing after the
grid that could fail. -/
def recording_document (fill_ter : Option Int) (rows : Option (List (List Char)))
    (terrain : List (Char × Int)) : mapgen_document (List map_event) Unit Unit :=
  { mapgensize := none, fill_ter := fill_ter, rotation := none, predecessor_mapgen := none,
    rows := rows,
    palette := .ok { format_terrain := terrain, format_furniture := [], format_placings := [] },
    remainder := fun b => .ok b }


/-! ## 15. Registering chunks -/

/-- How a registered generator produces its tile: a built-in function found by
name, or a JSON chunk kept as its text and grid offsets. -/
inductive mapgen_method where
  | builtin (name : String)
  | json (jstr : String) (x_offset y_offset : Int)
  deriving DecidableEq, Repr

/-- An object of the class `mapgen_function` as the registry sees it. -/
structure mapgen_function where
  weight : Int
  method : mapgen_method
  deriving DecidableEq, Repr

/-- The registry `oter_mapgen`.  Its vectors hold `shared_ptr`s: `functions` are
the objects they point to and a pointer is a position in `functions`, so
that one object may sit in several vectors. -/
structure mapgen_registry where
  functions : List mapgen_function
  oter_mapgen : List (String × List Nat)
  deriving DecidableEq, Repr

/-- The vector registered for a key, empty when the key is absent. -/
def mapgen_registry.variants (reg : mapgen_registry) (key : String) : List Nat :=
  (std_map_find reg.oter_mapgen key).getD []

/-- The registry after the lookup `oter_mapgen[ key ]`, which creates an empty
vector for an absent key. -/
def mapgen_registry.at_key (reg : mapgen_registry) (key : String) : mapgen_registry :=
  if (std_map_find reg.oter_mapgen key).isSome then reg
  else { reg with oter_mapgen := std_map_assign reg.oter_mapgen key [] }

/-- The statement `oter_mapgen[ key ][ idx ]->weight = 0`.  An index outside the
vector is undefined behaviour in C++; here it leaves the objects alone. -/
def mapgen_registry.zero_weight (reg : mapgen_registry) (key : String) (idx : Int) :
    mapgen_registry :=
  if idx < 0 then reg.at_key key
  else
    match (reg.variants key).get? idx.toNat with
    | none => reg.at_key key
    | some ptr =>
      match reg.functions.get? ptr with
      | none => reg.at_key key
      | some fn =>
        { (reg.at_key key) with functions := reg.functions.set ptr { fn with weight := 0 } }

/-- The statements `ret = std::make_shared<..>( .. )` and
`oter_mapgen[ key ].push_back( ret )`. -/
def mapgen_registry.make_and_push (reg : mapgen_registry) (key : String) (fn : mapgen_function) :
    Option Nat × mapgen_registry :=
  (some reg.functions.length,
    { functions := reg.functions ++ [fn],
      oter_mapgen := std_map_assign reg.oter_mapgen key
        (reg.variants key ++ [reg.functions.length]) })

/-- What `load_mapgen_function` reads of the JSON object `jio`; a member is
`none` when it is absent or of another type. -/
structure mapgen_entry where
  weight : Option Int
  disabled : Option Bool
  method : Option String
  name : Option String
  object : Option String
  deriving DecidableEq, Repr

/-- The function `load_mapgen_function( jio, id_base, default_idx, x_offset,
y_offset )`: the pointer it returns (`none` for `nullptr`) and the registry
afterwards.  `cfunctions` tells whether `get_mapgen_cfunction` knows a name;
the mandatory `jio.get_string( "method" )` of the disabled branch throws when
the member is missing. -/
def load_mapgen_function (cfunctions : String → Bool) (reg : mapgen_registry)
    (jio : mapgen_entry) (id_base : String) (default_idx : Int) (x_offset y_offset : Int) :
    Except String (Option Nat × mapgen_registry) :=
  let mgweight := jio.weight.getD 1000
  if mgweight ≤ 0 ∨ jio.disabled.getD false = true then
    match jio.method with
    | none => .error "member method not found"
    | some mgtype =>
      if default_idx ≠ -1 ∧ mgtype = "builtin" then
        match jio.name with
        | some mgname =>
          if mgname = id_base then .ok (none, reg.zero_weight id_base default_idx)
          else .ok (none, reg)
        | none => .ok (none, reg)
      else .ok (none, reg)
  else
    match jio.method with
    | some mgtype =>
      if mgtype = "builtin" then
        match jio.name with
        | some mgname =>
          if cfunctions mgname then
            .ok (reg.make_and_push id_base ⟨mgweight, .builtin mgname⟩)
          else .ok (none, reg)
        | none => .ok (none, reg)
      else if mgtype = "json" then
        match jio.object with
        | some jstr => .ok (reg.make_and_push id_base ⟨mgweight, .json jstr x_offset y_offset⟩)
        | none => .ok (none, reg)
      else .ok (none, reg)
    | none => .ok (none, reg)

/-- The process-wide tables of `mapgen.cpp`: the three registries of chunks,
the index `oter_mapgen_weights` and the table `palettes`. -/
structure mapgen_globals (F N U P : Type) where
  oter_mapgen : List (String × List F)
  nested_mapgen : List (String × List N)
  update_mapgen : List (String × List U)
  oter_mapgen_weights : List (String × weight_index)
  palettes : List (String × P)

/-- The function `reset_mapgens`. -/
def reset_mapgens {F N U P : Type} (g : mapgen_globals F N U P) : mapgen_globals F N U P :=
  { g with oter_mapgen := [], nested_mapgen := [], update_mapgen := [] }

/-- Tables after a load of one key with one variant of weight 3 and one named
palette. -/
def loaded_globals : mapgen_globals Nat Nat Nat (mapgen_palette Nat) :=
  { oter_mapgen := [("house", [0])], nested_mapgen := [("room", [1])],
    update_mapgen := [("repair", [2])],
    oter_mapgen_weights := [("house", [(3, 0)])],
    palettes := [("standard", palette_included)] }

/-! ## 16. Running the generator of a key -/

section Running

variable {M R D : Type}

/-- A registered generator through the virtual interface of `mapgen_function`:
its `weight` and its `generate`. -/
structure mapgen_variant (M R D : Type) where
  weight : Int
  generate : oter_t → D → M × R → M × R

/-- The function `run_mapgen_func( mapgen_id, m, terrain_type, dat, turn, density )`
with its effect on the tile: the flag it returns and the tile and generator
state afterwards.  The result is `none` where the C++ code dereferences an
end iterator or indexes past the vector. -/
def run_mapgen_func_generate (E : Env M R D)
    (oter_mapgen : List (String × List (mapgen_variant M R D)))
    (oter_mapgen_weights : List (String × weight_index))
    (mapgen_id : String) (terrain_type : oter_t) (density : D) (st : M × R) :
    Option (Bool × (M × R)) :=
  match oter_mapgen.lookup mapgen_id with
  | some (v :: vs) =>
    match oter_mapgen_weights.lookup mapgen_id with
    | none => none
    | some wm =>
      match rbegin wm with
      | none => none
      | some rlast =>
        match lower_bound wm (E.rng 1 rlast.1 st.2).1 with
        | none => none
        | some entry =>
          match (v :: vs).get? entry.2 with
          | none => none
          | some fn => some (true, fn.generate terrain_type density (st.1, (E.rng 1 rlast.1 st.2).2))
  | _ => some (false, st)

end Running

/-- A generator on the recording surface that records the key it was registered
under. -/
def recording_variant (weight : Int) (id : String) : mapgen_variant (List map_event) Unit Unit :=
  { weight := weight, generate := fun _ _ st => (st.1 ++ [map_event.predecessor id], st.2) }

/-! ## 17. Counting the calls made by the objects collection -/

section Calls

variable {R D : Type}

/-- A piece that does nothing but record each call of its `apply` with its tag
and the two ranges it was given. -/
def logging_piece (tag : Nat) (rep : jmapgen_int) : jmapgen_piece (List map_event) R D where
  «repeat» := rep
  apply := fun x y _ _ st => (st.1 ++ [map_event.piece tag x y], st.2)
  has_vehicle_collision := fun _ _ _ => false

/-- The objects of a collection of logging pieces, one per entry: descriptor,
tag and the `repeat` of the piece. -/
def logging_objects (entries : List (jmapgen_place × Nat × jmapgen_int)) :
    List (jmapgen_place × jmapgen_piece (List map_event) R D) :=
  entries.map (fun e => (e.1, logging_piece e.2.1 e.2.2))

/-- The calls the entries are expected to make, in declaration order: for each
entry `max( descriptor.repeat.get(), piece.repeat.get() )` calls with the
descriptor's ranges, the two draws taken from the generator state the entry
finds. -/
def expected_calls (E : Env (List map_event) R D) :
    List (jmapgen_place × Nat × jmapgen_int) → R → List map_event
  | [], _ => []
  | e :: rest, r =>
    List.replicate
        (max (e.1.repeat.get E r).1 (e.2.2.get E (e.1.repeat.get E r).2).1).toNat
        (map_event.piece e.2.1 e.1.x e.1.y)
      ++ expected_calls E rest (e.2.2.get E (e.1.repeat.get E r).2).2

/-- The entries with the ranges of every descriptor translated by `(ox, oy)`. -/
def translated_entries (ox oy : Int) (entries : List (jmapgen_place × Nat × jmapgen_int)) :
    List (jmapgen_place × Nat × jmapgen_int) :=
  entries.map (fun e => (⟨e.1.x.translate ox, e.1.y.translate oy, e.1.repeat⟩, e.2))

end Calls

/-! ## 18. Spawning items and monsters -/

section Spawning

variable {M R D : Type}

/-- The collaborators of the spawn code that live outside `mapgen.cpp`.
`roll_remainder_scaled c` stands for `roll_remainder( c * spawn_rate / 100.0f )`
with the option `ITEM_SPAWNRATE`, `roll_spawn_num` for the number
`roll_remainder( thenum )` of `place_spawns` (density options and
`rng_float` included), `GetResultFromGroup` returns the monster name, the
pack size and the decremented `num`; items are named by numbers. -/
structure spawn_env (M R D : Type) where
  spawn_item : Int → Int → String → Int → M × R → M × R
  roll_remainder_scaled : Int → R → Int × R
  group_is_valid : String → Bool
  roll_spawn_num : String → D → Bool → R → Int × R
  impassable : M → Int → Int → Bool
  GetResultFromGroup : String → Int → R → (String × Int × Int) × R
  add_spawn : String → Int → Int → Int → Bool → M → M
  group_is_defined : String → Bool
  is_valid_terrain : M → Bool → Int → Int → Bool
  put_items_from_loc : String → Int → Int → Int → M × R → List Nat × (M × R)
  is_tool_gun_or_magazine : M → Nat → Bool
  lacks_magazine : M → Nat → Bool
  add_default_magazine : Nat → M → M
  ammo_is_empty : M → Nat → Bool
  ammo_set_default : Nat → M → M

/-- The class `jmapgen_spawn_item`. -/
structure jmapgen_spawn_item where
  type : String
  amount : jmapgen_int
  chance : jmapgen_int
  «repeat» : jmapgen_int
  deriving DecidableEq, Repr

/-- What the constructors read of one entry of `place_item`; an optional member
is `none` when the entry does not have it. -/
structure spawn_item_entry where
  x : jmapgen_int
  y : jmapgen_int
  «repeat» : Option jmapgen_int
  item : String
  amount : Option jmapgen_int
  chance : Option jmapgen_int
  deriving DecidableEq, Repr

/-- The constructor `jmapgen_place( jsi )`; `repeat` defaults to `(1, 1)`. -/
def jmapgen_place.load (jsi : spawn_item_entry) : jmapgen_place :=
  ⟨jsi.x, jsi.y, jsi.repeat.getD ⟨1, 1⟩⟩

/-- The constructor `jmapgen_spawn_item( jsi )`: `amount` defaults to `(1, 1)`,
`chance` to `(100, 100)` and `repeat` to `(1, 1)`. -/
def jmapgen_spawn_item.load (jsi : spawn_item_entry) : jmapgen_spawn_item :=
  ⟨jsi.item, jsi.amount.getD ⟨1, 1⟩, jsi.chance.getD ⟨100, 100⟩, jsi.repeat.getD ⟨1, 1⟩⟩

/-- The body of the loop of `jmapgen_spawn_item::apply`: one call of
`spawn_item( x.get(), y.get(), type, amount.get() )`. -/
def jmapgen_spawn_item.spawn_once (E : Env M R D) (S : spawn_env M R D) (p : jmapgen_spawn_item)
    (x y : jmapgen_int) (st : M × R) : M × R :=
  let a := x.get E st.2
  let b := y.get E a.2
  let n := p.amount.get E b.2
  S.spawn_item a.1 b.1 p.type n.1 (st.1, n.2)

/-- The method `jmapgen_spawn_item::apply`. -/
def jmapgen_spawn_item.apply (E : Env M R D) (S : spawn_env M R D) (p : jmapgen_spawn_item)
    (x y : jmapgen_int) (st : M × R) : M × R :=
  let c := p.chance.get E st.2
  let spawn_count : Int × R :=
    if c.1 = 100 then (1, c.2) else S.roll_remainder_scaled c.1 c.2
  Nat.iterate (p.spawn_once E S x y) spawn_count.1.toNat (st.1, spawn_count.2)

/-- The piece of class `jmapgen_spawn_item` behind the interface of
`jmapgen_piece`; it never reports a vehicle collision. -/
def jmapgen_spawn_item.to_piece (E : Env M R D) (S : spawn_env M R D) (p : jmapgen_spawn_item) :
    jmapgen_piece M R D where
  «repeat» := p.repeat
  apply := fun x y _ _ st => p.apply E S x y st
  has_vehicle_collision := fun _ _ _ => false

/-- The loop `do .. while( impassable( x, y ) && tries > 0 )` of `place_spawns`
with `tries` still to go before the decrement. -/
def place_spawns_spot (E : Env M R D) (S : spawn_env M R D) (x1 y1 x2 y2 : Int) (m : M) :
    Nat → R → (Int × Int) × R
  | 0, r => ((0, 0), r)
  | tries + 1, r =>
    let x := E.rng x1 x2 r
    let y := E.rng y1 y2 x.2
    if S.impassable m x.1 y.1 ∧ tries > 0 then place_spawns_spot E S x1 y1 x2 y2 m tries y.2
    else ((x.1, y.1), y.2)

/-- The loop `while( num > 0 )` of `place_spawns`, run for at most `fuel` rounds;
`none` when the rounds do not suffice. -/
def place_spawns_loop (E : Env M R D) (S : spawn_env M R D) (group : String)
    (x1 y1 x2 y2 : Int) (friendly : Bool) : Nat → Int → M × R → Option (M × R)
  | 0, num, st => if num > 0 then none else some st
  | fuel + 1, num, st =>
    if num > 0 then
      let spot := place_spawns_spot E S x1 y1 x2 y2 st.1 10 st.2
      let spawn_details := S.GetResultFromGroup group num spot.2
      place_spawns_loop E S group x1 y1 x2 y2 friendly fuel spawn_details.1.2.2
        (S.add_spawn spawn_details.1.1 spawn_details.1.2.1 spot.1.1 spot.1.2 friendly st.1,
          spawn_details.2)
    else some st

/-- The method `map::place_spawns` (its diagnostic message left out). -/
def place_spawns (E : Env M R D) (S : spawn_env M R D) (fuel : Nat) (group : String)
    (chance x1 y1 x2 y2 : Int) (density : D) (individual friendly : Bool) (st : M × R) :
    Option (M × R) :=
  if S.group_is_valid group = false then some st
  else if (E.one_in chance st.2).1 = false then some (st.1, (E.one_in chance st.2).2)
  else
    let num := S.roll_spawn_num group density individual (E.one_in chance st.2).2
    place_spawns_loop E S group x1 y1 x2 y2 friendly fuel num.1 (st.1, num.2)

/-- The loop `do .. while( is_valid_terrain( px, py ) && tries < 20 )` of
`place_items` with `left` rounds to go: the spot and the final `tries`. -/
def place_items_spot (E : Env M R D) (S : spawn_env M R D) (x1 y1 x2 y2 : Int) (ongrass : Bool)
    (m : M) : Nat → R → (Int × Int × Int) × R
  | 0, r => ((0, 0, 20), r)
  | left + 1, r =>
    let px := E.rng x1 x2 r
    let py := E.rng y1 y2 px.2
    if S.is_valid_terrain m ongrass px.1 py.1 ∧ left > 0 then
      place_items_spot E S x1 y1 x2 y2 ongrass m left py.2
    else ((px.1, py.1, 20 - (left : Int)), py.2)

/-- One round of the loop `for( int i = 0; i < spawn_count; i++ )` of
`place_items` on the pair of `res` and the state. -/
def place_items_round (E : Env M R D) (S : spawn_env M R D) (loc : String)
    (x1 y1 x2 y2 : Int) (ongrass : Bool) (turn : Int) (acc : List Nat × (M × R)) :
    List Nat × (M × R) :=
  let spot := place_items_spot E S x1 y1 x2 y2 ongrass acc.2.1 20 acc.2.2
  if spot.1.2.2 < 20 then
    let put := S.put_items_from_loc loc spot.1.1 spot.1.2.1 turn (acc.2.1, spot.2)
    (acc.1 ++ put.1, put.2)
  else (acc.1, (acc.2.1, spot.2))

/-- The body of the loop `for( auto e : res )` of `place_items`. -/
def place_items_fit (E : Env M R D) (S : spawn_env M R D) (magazine ammo : Int) (st : M × R)
    (e : Nat) : M × R :=
  if S.is_tool_gun_or_magazine st.1 e then
    let r1 := E.rng 0 99 st.2
    let m1 := if r1.1 < magazine ∧ S.lacks_magazine st.1 e then S.add_default_magazine e st.1
      else st.1
    let r2 := E.rng 0 99 r1.2
    let m2 := if r2.1 < ammo ∧ S.ammo_is_empty m1 e then S.ammo_set_default e m1 else m1
    (m2, r2.2)
  else st

/-- The method `map::place_items` (its diagnostic messages left out): the items
placed and the state afterwards. -/
def place_items (E : Env M R D) (S : spawn_env M R D) (loc : String) (chance x1 y1 x2 y2 : Int)
    (ongrass : Bool) (turn magazine ammo : Int) (st : M × R) : List Nat × (M × R) :=
  if chance > 100 ∨ chance ≤ 0 then ([], st)
  else if S.group_is_defined loc = false then ([], st)
  else
    let spawn_count := S.roll_remainder_scaled chance st.2
    let placed := Nat.iterate (place_items_round E S loc x1 y1 x2 y2 ongrass turn)
      spawn_count.1.toNat ([], (st.1, spawn_count.2))
    (placed.1, placed.1.foldl (place_items_fit E S magazine ammo) placed.2)

end Spawning

/-- The spawn collaborators of the recording surface: every call is recorded,
`rock` and `forest` are the only item type and monster group there are, each
monster drawn uses up one of `num`, and `put_items_from_loc` places item 0. -/
def recording_spawn_env : spawn_env (List map_event) Unit Unit where
  spawn_item := fun x y type amount st => (st.1 ++ [map_event.spawn_item x y type amount], st.2)
  roll_remainder_scaled := fun c r => (c / 50, r)
  group_is_valid := fun g => g == "forest"
  roll_spawn_num := fun _ _ individual r => (if individual then 1 else 2, r)
  impassable := fun _ _ _ => false
  GetResultFromGroup := fun g num r => ((g, 1, num - 1), r)
  add_spawn := fun name pack x y friendly m => m ++ [map_event.add_spawn name pack x y friendly]
  group_is_defined := fun loc => loc == "rock"
  is_valid_terrain := fun _ _ _ _ => false
  put_items_from_loc := fun loc x y _ st => ([0], (st.1 ++ [map_event.put_items loc x y], st.2))
  is_tool_gun_or_magazine := fun _ _ => false
  lacks_magazine := fun _ _ => false
  add_default_magazine := fun _ m => m
  ammo_is_empty := fun _ _ => false
  ammo_set_default := fun _ m => m

/-! ## 19. The neighbourhood test of a nested chunk -/

/-- The class `jmapgen_nested::neighborhood_check`: `neighbors` holds the allowed
types of each direction of `om_direction::all`, at the position of the
direction. -/
structure neighborhood_check where
  has_any : Bool
  neighbors : List (List String)
  above : List String
  deriving DecidableEq, Repr

/-- One pass of the loop of the constructor of `neighborhood_check` for the
direction at position `index`; `tags` are the tags `jsi.get_tags` returns for
that direction and `above_tags` the ones it returns for `above`. -/
def neighborhood_check.load_direction (above_tags : List String) (c : neighborhood_check)
    (dir : Nat × List String) : neighborhood_check :=
  { has_any := (c.has_any || !dir.2.isEmpty) || !above_tags.isEmpty
    neighbors := c.neighbors.set dir.1 dir.2
    above := above_tags }

/-- The constructor `neighborhood_check( jsi )`: `tags` lists, in the order of
`om_direction::all`, the tags of each direction. -/
def neighborhood_check.load (tags : List (List String)) (above_tags : List String) :
    neighborhood_check :=
  tags.enum.foldl (neighborhood_check.load_direction above_tags)
    { has_any := false, neighbors := List.replicate tags.length [], above := [] }

/-- The loop `for( .. : allowed ) matches |= is_ot_subtype( allowed_neighbor, id )`. -/
def any_subtype (is_ot_subtype : String → String → Bool) (allowed : List String) (id : String) :
    Bool :=
  allowed.foldl (fun acc allowed_neighbor => acc || is_ot_subtype allowed_neighbor id) false

/-- The method `neighborhood_check::test( dat )`; `neighbor_at` gives the type of
the neighbour in the direction at a position and `above_id` the type of the
tile above. -/
def neighborhood_check.test (is_ot_subtype : String → String → Bool) (c : neighborhood_check)
    (neighbor_at : Nat → String) (above_id : String) : Bool :=
  if !c.has_any then true
  else
    let all_directions_match := c.neighbors.enum.foldl
      (fun acc dir =>
        if dir.2.isEmpty then acc
        else acc && any_subtype is_ot_subtype dir.2 (neighbor_at dir.1))
      true
    if !c.above.isEmpty then
      all_directions_match && any_subtype is_ot_subtype c.above above_id
    else all_directions_match

/-- The subtype test of the witness: the pattern is a prefix of the type. -/
def prefix_subtype (pattern id : String) : Bool :=
  pattern.toList.isPrefixOf id.toList

/-! ## 20. Reading terrain and furniture back -/

section Reading

variable {M R D : Type}

/-- The setters `ter_set`, `furn_set` and `set` of the surface behave as cell
assignments with respect to the readers `ter` and `furn` (the methods
`map::ter` and `map::furn`, defined outside `mapgen.cpp`): each writes its own
layer at its own cell and nothing else. -/
def Env.cell_setters (E : Env M R D) (ter furn : M → Int → Int → Int) : Prop :=
  (∀ x y t m X Y, ter (E.ter_set x y t m) X Y = if X = x ∧ Y = y then t else ter m X Y) ∧
  (∀ x y t m X Y, furn (E.ter_set x y t m) X Y = furn m X Y) ∧
  (∀ x y fu m X Y, furn (E.furn_set x y fu m) X Y = if X = x ∧ Y = y then fu else furn m X Y) ∧
  (∀ x y fu m X Y, ter (E.furn_set x y fu m) X Y = ter m X Y) ∧
  (∀ x y t fu m X Y, ter (E.set x y t fu m) X Y = if X = x ∧ Y = y then t else ter m X Y) ∧
  (∀ x y t fu m X Y, furn (E.set x y t fu m) X Y = if X = x ∧ Y = y then fu else furn m X Y)

/-- The grid pair of the cell `(x, y)`: `format[ calc_index( x, y ) ]`. -/
def mapgen_function_json_base.grid_at (E : Env M R D) (f : mapgen_function_json_base M R D)
    (x y : Nat) : ter_furn_id :=
  f.format.getD (f.calc_index x y) ⟨E.t_null, E.f_null⟩

end Reading

/-- The terrain of a cell of the recording surface: the one written last by
`ter_set` or `set`, 0 when none was. -/
def recorded_ter (m : List map_event) (X Y : Int) : Int :=
  m.foldl
    (fun acc e =>
      match e with
      | map_event.ter_set x y t => if X = x ∧ Y = y then t else acc
      | map_event.set x y t _ => if X = x ∧ Y = y then t else acc
      | _ => acc)
    0

/-- The furniture of a cell of the recording surface: the one written last by
`furn_set` or `set`, 0 when none was. -/
def recorded_furn (m : List map_event) (X Y : Int) : Int :=
  m.foldl
    (fun acc e =>
      match e with
      | map_event.furn_set x y fu => if X = x ∧ Y = y then fu else acc
      | map_event.set x y _ fu => if X = x ∧ Y = y then fu else acc
      | _ => acc)
    0

/-- A nested chunk of size two by two on the recording surface whose grid holds
terrain 3, furniture 4, both 5 and 6, and nothing. -/
def recording_grid_chunk : mapgen_function_json_base (List map_event) Unit Unit :=
  { recording_chunk [] [] with
    do_format := true, format := [⟨3, 0⟩, ⟨0, 4⟩, ⟨5, 6⟩, ⟨0, 0⟩],
    mapgensize_x := 2, mapgensize_y := 2 }

/-! ## 21. The single-monster piece -/

section Monster

variable {M R D : Type}

/-- The collaborators of `jmapgen_monster::apply` that live outside `mapgen.cpp`:
`density_odds raw_odds` is the product `raw_odds * get_option<float>(
"SPAWN_DENSITY" )` converted to `int`, `x_in_y` comes from rng.cpp,
`roll_remainder num den` is `roll_remainder( 1.0f * num / den )` (and
`roll_remainder 1 1` for the multiplier 1), `pick` is `*( ids.pick() )`, and
`add_spawn` is the method of `map` with the arguments type, count, x, y,
friendly, faction id, mission id and name. -/
structure monster_env (M R D : Type) where
  density_odds : Int → Int
  x_in_y : Int → Int → R → Bool × R
  roll_remainder : Int → Int → R → Int × R
  pick : List (String × Int) → R → String × R
  add_spawn : String → Int → Int → Int → Bool → Int → Int → String → M → M

/-- The class `jmapgen_monster`. -/
structure jmapgen_monster where
  ids : List (String × Int)
  chance : jmapgen_int
  pack_size : jmapgen_int
  one_or_none : Bool
  friendly : Bool
  name : String
  target : Bool
  deriving DecidableEq, Repr

/-- The method `jmapgen_monster::apply`; the arguments of `add_spawn` are
evaluated from left to right, and `miss` is the id of the mission if there is
one. -/
def jmapgen_monster.apply (E : Env M R D) (S : monster_env M R D) (p : jmapgen_monster)
    (x y : jmapgen_int) (miss : Option Nat) (st : M × R) : M × R :=
  let raw_odds := p.chance.get E st.2
  let scaled := S.density_odds raw_odds.1
  let max_odds := 100 - Int.tdiv (100 - raw_odds.1) 2
  let density_multiplier : Int × Int := if scaled > max_odds then (scaled, max_odds) else (1, 1)
  let odds_after_density := if scaled > max_odds then max_odds else scaled
  let pass := S.x_in_y odds_after_density 100 raw_odds.2
  if pass.1 = false then (st.1, pass.2)
  else
    let rolled := S.roll_remainder density_multiplier.1 density_multiplier.2 pass.2
    let limited := if p.one_or_none then min rolled.1 1 else rolled.1
    let spawn_count := if raw_odds.1 = 100 then max limited 1 else limited
    let mission_id : Int :=
      match miss with
      | some id => if p.target then (id : Int) else -1
      | none => -1
    let id := S.pick p.ids rolled.2
    let pack := p.pack_size.get E id.2
    let a := x.get E pack.2
    let b := y.get E a.2
    (S.add_spawn id.1 (spawn_count * pack.1) a.1 b.1 p.friendly (-1) mission_id p.name st.1, b.2)

end Monster

/-- The monster collaborators of the recording surface for a spawn density of
`density_percent / 100` and a draw `rng_float( 0.0, 1.0 ) = roll_percent / 100`
inside `x_in_y( x, y )`, which succeeds when that draw is at most `x / y`;
`roll_remainder` returns the integral part and `pick` the first id. -/
def recording_monster_env (density_percent roll_percent : Int) :
    monster_env (List map_event) Unit Unit where
  density_odds := fun raw_odds => Int.tdiv (raw_odds * density_percent) 100
  x_in_y := fun x y r => (decide (roll_percent * y ≤ 100 * x), r)
  roll_remainder := fun num den r => (Int.tdiv num den, r)
  pick := fun ids r => ((ids.head?.map Prod.fst).getD "", r)
  add_spawn := fun type count x y friendly _ _ _ m =>
    m ++ [map_event.add_spawn type count x y friendly]

/-- A single-monster piece as the constructor builds it from `"monster":
"mon_zombie"` alone: chance 100, pack size 1, `one_or_none` set. -/
def recording_monster : jmapgen_monster :=
  { ids := [("mon_zombie", 100)], chance := ⟨100, 100⟩, pack_size := ⟨1, 1⟩,
    one_or_none := true, friendly := false, name := "NONE", target := false }

/-! ## 22. The registry as the selection sees it -/

/-- The weights `( *fit )->weight` that `calculate_mapgen_weights` reads, vector
by vector, through the pointers of the registry. -/
def mapgen_registry.weights (reg : mapgen_registry) : List (String × List Int) :=
  reg.oter_mapgen.map (fun omw =>
    (omw.1, omw.2.filterMap (fun ptr => (reg.functions.get? ptr).map mapgen_function.weight)))

/-- The vectors of the registry as `run_mapgen_func` calls into them, `generate`
giving the virtual method of an object by the way it produces its tile. -/
def mapgen_registry.generators {M R D : Type} (reg : mapgen_registry)
    (generate : mapgen_method → oter_t → D → M × R → M × R) :
    List (String × List (mapgen_variant M R D)) :=
  reg.oter_mapgen.map (fun omw =>
    (omw.1, omw.2.filterMap (fun ptr =>
      (reg.functions.get? ptr).map (fun fn => ⟨fn.weight, generate fn.method⟩))))

/-- A registry in which the key `house` has its built-in generator, of weight
1000, as its only variant. -/
def house_registry : mapgen_registry :=
  { functions := [⟨1000, .builtin "house"⟩], oter_mapgen := [("house", [0])] }

/-- The document `{ "method": "builtin", "name": "house", "weight": 0 }`. -/
def disabling_entry : mapgen_entry :=
  { weight := some 0, disabled := none, method := some "builtin", name := some "house",
    object := none }

/-- The `generate` of the recording surface: it records the name of the built-in
function, or the text of the chunk. -/
def recording_generate (method : mapgen_method) (_ : oter_t) (_ : Unit)
    (st : List map_event × Unit) : List map_event × Unit :=
  match method with
  | .builtin name => (st.1 ++ [map_event.predecessor name], st.2)
  | .json jstr _ _ => (st.1 ++ [map_event.predecessor jstr], st.2)

/-! ## 23. Loading a standalone mapgen document -/

/-- The member `om_terrain` of a standalone document: rows of keys (an array
whose first element is an array), a flat list of keys, or one key. -/
inductive om_terrain_member where
  | rows (ja : List (List String))
  | list (ja : List String)
  | string (id : String)
  deriving DecidableEq, Repr

/-- What `load_mapgen` reads of the document `jo` besides the members that
`load_mapgen_function` reads. -/
structure mapgen_jo where
  om_terrain : Option om_terrain_member
  nested_mapgen_id : Option String
  update_mapgen_id : Option String
  entry : mapgen_entry
  deriving DecidableEq, Repr

/-- The three registries that `load_mapgen` writes; a nested or update chunk is
kept as the text of its object. -/
structure mapgen_tables where
  reg : mapgen_registry
  nested_mapgen : List (String × List String)
  update_mapgen : List (String × List String)
  deriving DecidableEq, Repr

/-- The statement `oter_mapgen[ key ].push_back( mgfunc )` for a pointer that
exists already. -/
def mapgen_registry.push_back (reg : mapgen_registry) (key : String) (mgfunc : Nat) :
    mapgen_registry :=
  { reg with oter_mapgen := std_map_assign reg.oter_mapgen key (reg.variants key ++ [mgfunc]) }

/-- The inner loop `while( row_items.has_more() )` of `load_mapgen`. -/
def load_mapgen_row (cfunctions : String → Bool) (jo : mapgen_entry) (y_offset : Int) :
    List String → Int → mapgen_registry → Except String mapgen_registry
  | [], _, reg => .ok reg
  | mapgenid :: row_items, x_offset, reg =>
    match load_mapgen_function cfunctions reg jo mapgenid (-1) x_offset y_offset with
    | .error e => .error e
    | .ok (some mgfunc, reg1) =>
      load_mapgen_row cfunctions jo y_offset row_items (x_offset + 1)
        (reg1.push_back mapgenid mgfunc)
    | .ok (none, reg1) => load_mapgen_row cfunctions jo y_offset row_items (x_offset + 1) reg1

/-- The outer loop `while( ja.has_more() )` of `load_mapgen` over the rows. -/
def load_mapgen_rows (cfunctions : String → Bool) (jo : mapgen_entry) :
    List (List String) → Int → mapgen_registry → Except String mapgen_registry
  | [], _, reg => .ok reg
  | row_items :: ja, y_offset, reg =>
    match load_mapgen_row cfunctions jo y_offset row_items 0 reg with
    | .error e => .error e
    | .ok reg1 => load_mapgen_rows cfunctions jo ja (y_offset + 1) reg1

/-- The functions `load_nested_mapgen` and `load_update_mapgen` on the vectors of
their registry; `jio.get_string( "method" )` throws when the member is missing. -/
def load_chunk_text (table : List (String × List String)) (jio : mapgen_entry)
    (id_base : String) : Except String (List (String × List String)) :=
  match jio.method with
  | none => .error "member method not found"
  | some mgtype =>
    if mgtype = "json" then
      match jio.object with
      | some jstr =>
        .ok (std_map_assign table id_base ((std_map_find table id_base).getD [] ++ [jstr]))
      | none => .ok table
    else .ok table

/-- The function `load_mapgen`; the grid offsets that `load_mapgen_function`
takes by default are 0. -/
def load_mapgen (cfunctions : String → Bool) (t : mapgen_tables) (jo : mapgen_jo) :
    Except String mapgen_tables :=
  match jo.om_terrain with
  | some (.rows ja) =>
    match load_mapgen_rows cfunctions jo.entry ja 0 t.reg with
    | .error e => .error e
    | .ok reg => .ok { t with reg := reg }
  | some (.list mapgenid_list) =>
    match mapgenid_list with
    | [] => .ok t
    | mapgenid :: _ =>
      match load_mapgen_function cfunctions t.reg jo.entry mapgenid (-1) 0 0 with
      | .error e => .error e
      | .ok (some mgfunc, reg) =>
        .ok { t with reg := mapgenid_list.foldl (fun r i => r.push_back i mgfunc) reg }
      | .ok (none, reg) => .ok { t with reg := reg }
  | some (.string id) =>
    match load_mapgen_function cfunctions t.reg jo.entry id (-1) 0 0 with
    | .error e => .error e
    | .ok (_, reg) => .ok { t with reg := reg }
  | none =>
    match jo.nested_mapgen_id with
    | some id =>
      match load_chunk_text t.nested_mapgen jo.entry id with
      | .error e => .error e
      | .ok table => .ok { t with nested_mapgen := table }
    | none =>
      match jo.update_mapgen_id with
      | some id =>
        match load_chunk_text t.update_mapgen jo.entry id with
        | .error e => .error e
        | .ok table => .ok { t with update_mapgen := table }
      | none => .ok t

/-- The tables before anything is loaded. -/
def empty_tables : mapgen_tables :=
  { reg := { functions := [], oter_mapgen := [] }, nested_mapgen := [], update_mapgen := [] }

/-- The document `{ "om_terrain": .., "method": "json", "object": {}, "weight":
100 }` for a given member `om_terrain`. -/
def chunk_document (om_terrain : om_terrain_member) : mapgen_jo :=
  { om_terrain := some om_terrain, nested_mapgen_id := none, update_mapgen_id := none,
    entry := { weight := some 100, disabled := none, method := some "json", name := none,
               object := some "{}" } }

/-- The weights of the variants of a key after a load, `none` when the load
threw. -/
def loaded_weights (res : Except String mapgen_tables) (key : String) : Option (List Int) :=
  match res with
  | .ok t => some ((std_map_find t.reg.weights key).getD [])
  | .error _ => none

/-! ## 24. A surface with a scripted random generator

The recording surface of section 7 with a random generator that hands out
the values of a script in turn, for evaluating code that draws more than
once. -/

/-- The scripted surface with vehicles on the cells `vehicles`: `rng( lo, hi )`
returns the next value of the script when it lies in `lo .. hi`, and `lo` when
it does not or when the script is used up. -/
def scripted_env (vehicles : List (Int × Int)) : Env (List map_event) (List Int) Unit where
  rng := fun lo hi r =>
    match r with
    | v :: rest => (if lo ≤ v ∧ v ≤ hi then v else lo, rest)
    | [] => (lo, [])
  one_in := fun _ r => (true, r)
  t_null := 0
  f_null := 0
  zero_density := ()
  ter_set := fun x y id m => m ++ [map_event.ter_set x y id]
  furn_set := fun x y id m => m ++ [map_event.furn_set x y id]
  set := fun x y t f m => m ++ [map_event.set x y t f]
  mtrap_set := fun x y id m => m ++ [map_event.trap_set x y id]
  set_radiation := fun x y a m => m ++ [map_event.radiation x y a]
  bash := fun x y st => (st.1 ++ [map_event.bash x y], st.2)
  draw_line_ter := fun id x1 y1 x2 y2 m => m ++ [map_event.line_ter id x1 y1 x2 y2]
  draw_line_furn := fun id x1 y1 x2 y2 m => m ++ [map_event.line_furn id x1 y1 x2 y2]
  draw_square_ter := fun id x1 y1 x2 y2 m => m ++ [map_event.square_ter id x1 y1 x2 y2]
  draw_square_furn := fun id x1 y1 x2 y2 m => m ++ [map_event.square_furn id x1 y1 x2 y2]
  line_to := fun x1 y1 x2 y2 => [(x1, y1), (x2, y2)]
  draw_fill_background := fun id m => m ++ [map_event.fill id]
  points_in_rectangle := fun a b =>
    (int_range (min a.1 b.1) (max a.1 b.1)).flatMap
      (fun x => (int_range (min a.2 b.2) (max a.2 b.2)).map (fun y => (x, y)))
  veh_at := fun _ p => decide (p ∈ vehicles)
  rotate := fun turns m => m ++ [map_event.rotate turns]
  place_stairs := fun _ st => (st.1 ++ [map_event.stairs], st.2)
  mapgen_rotate := fun t _ m => m ++ [map_event.mapgen_rotate t.get_dir]
  run_mapgen_func := fun id _ st => (st.1 ++ [map_event.predecessor id], st.2)

section Furniture

variable {M R D : Type}

/-- The class `jmapgen_furniture` behind the interface of `jmapgen_piece`:
`apply` is `furn_set( x.get(), y.get(), id )`, with `x.get()` evaluated first,
and `has_vehicle_collision( dat, x, y )` is `veh_at` of the cell. -/
def jmapgen_furniture (E : Env M R D) (id : Int) : jmapgen_piece M R D where
  «repeat» := ⟨1, 1⟩
  apply := fun x y _ _ st =>
    let a := x.get E st.2
    let b := y.get E a.2
    (E.furn_set a.1 b.1 id st.1, b.2)
  has_vehicle_collision := fun m x y => E.veh_at m (x, y)

end Furniture

/-- A top-level chunk on the scripted surface with a predecessor and a rotation
range, and nothing else. -/
def scripted_mapgen (predecessor : Option String) (rotation : jmapgen_int) :
    mapgen_function_json (List map_event) (List Int) Unit :=
  { do_format := false, format := [], mapgensize_x := 24, mapgensize_y := 24,
    setmap_points := [],
    objects := { offset_x := 0, offset_y := 0, mapgensize_x := 24, mapgensize_y := 24,
                 objects := [] },
    weight := 1000, fill_ter := 0, predecessor_mapgen := predecessor, rotation := rotation }

/-- An update chunk on the scripted surface that places the furniture `id` with
the descriptor `place`, vehicles standing on the cells `vehicles`. -/
def scripted_update (vehicles : List (Int × Int)) (place : jmapgen_place) (id : Int) :
    mapgen_function_json_base (List map_event) (List Int) Unit :=
  { do_format := false, format := [], mapgensize_x := 24, mapgensize_y := 24,
    setmap_points := [],
    objects := { offset_x := 0, offset_y := 0, mapgensize_x := 24, mapgensize_y := 24,
                 objects := [(place, jmapgen_furniture (scripted_env vehicles) id)] } }

/-! ## 25. Reading a range from a document -/

/-- The value of a member of a JSON object as the constructors of `jmapgen_int`
see it: a number, an array (an element that is not a number is `none`), or a
value of another type. -/
inductive json_value where
  | number (n : Int)
  | array (items : List (Option Int))
  | other
  deriving DecidableEq, Repr

/-- The call `sparray.get_int( i )`: it throws when the index is outside the
array or the element is not a number. -/
def json_array_get_int (sparray : List (Option Int)) (i : Nat) : Except String Int :=
  match sparray.get? i with
  | some (some n) => .ok n
  | some none => .error "expected number"
  | none => .error "bad index value"

/-- The call `jo.get_int( tag )` on the member found under `tag` (`none` when the
object has no such member). -/
def json_get_int (member : Option json_value) : Except String Int :=
  match member with
  | some (.number n) => .ok n
  | some _ => .error "expected number"
  | none => .error "member not found"

/-- The constructor `jmapgen_int::jmapgen_int( JsonObject &jo, const std::string
&tag )` on the member found under `tag`. -/
def jmapgen_int.from_json (member : Option json_value) : Except String jmapgen_int :=
  match member with
  | some (.array sparray) =>
    if sparray.length < 1 ∨ sparray.length > 2 then
      .error "invalid data: must be an array of 1 or 2 values"
    else
      match json_array_get_int sparray 0 with
      | .error e => .error e
      | .ok val =>
        if sparray.length = 2 then
          match json_array_get_int sparray 1 with
          | .error e => .error e
          | .ok valmax => .ok ⟨val, valmax⟩
        else .ok ⟨val, val⟩
  | _ =>
    match json_get_int member with
    | .error e => .error e
    | .ok n => .ok ⟨n, n⟩

/-- The constructor `jmapgen_int::jmapgen_int( JsonObject &jo, const std::string
&tag, const short def_val, const short def_valmax )` on the member found
under `tag`. -/
def jmapgen_int.from_json_default (member : Option json_value) (def_val def_valmax : Int) :
    Except String jmapgen_int :=
  match member with
  | some (.array sparray) =>
    if sparray.length > 2 then .error "invalid data: must be an array of 1 or 2 values"
    else
      let val : Except String Int :=
        if sparray.length ≥ 1 then json_array_get_int sparray 0 else .ok def_val
      let valmax : Except String Int :=
        if sparray.length ≥ 2 then json_array_get_int sparray 1 else .ok def_valmax
      match val, valmax with
      | .error e, _ => .error e
      | .ok _, .error e => .error e
      | .ok v, .ok vm => .ok ⟨v, vm⟩
  | some v =>
    match json_get_int (some v) with
    | .error e => .error e
    | .ok n => .ok ⟨n, n⟩
  | none => .ok ⟨def_val, def_valmax⟩

/-! ## 26. Loading loot entries -/

/-- What the constructor of `jmapgen_loot` reads of one entry of `place_loot`; an
optional member is `none` when the entry does not have it. -/
structure loot_entry where
  group : Option String
  item : Option String
  chance : Option Int
  ammo : Option Int
  magazine : Option Int
  deriving DecidableEq, Repr

/-- The class `jmapgen_loot`: the member `chance`, and what its `result_group`
is built from (the group or item it draws from and the two odds). -/
structure jmapgen_loot where
  group : String
  name : String
  ammo : Int
  magazine : Int
  chance : Int
  deriving DecidableEq, Repr

/-- The constructor `jmapgen_loot( jsi )`: `chance` defaults to 100, and an entry
with both or neither of `group` and `item` is an error.  The deferred error for
an unknown group or item type is left out. -/
def jmapgen_loot.load (jsi : loot_entry) : Except String jmapgen_loot :=
  let group := jsi.group.getD ""
  let name := jsi.item.getD ""
  if group.isEmpty = name.isEmpty then .error "must provide either item or group"
  else .ok ⟨group, name, jsi.ammo.getD 0, jsi.magazine.getD 0, jsi.chance.getD 100⟩

/-- The rescaling in the body of `load_objects<jmapgen_loot>`, between
`make_shared<jmapgen_loot>( jsi )` and `add( where, loot )`; `scale v` is the
product `v * rate` converted to `int`, for the option `ITEM_SPAWNRATE`. -/
def loot_rescale (scale : Int → Int) (where_ : jmapgen_place) (loot : jmapgen_loot) :
    jmapgen_place × jmapgen_loot :=
  if where_.repeat.valmax ≠ 1 then
    ({ where_ with
        «repeat» := ⟨max (scale where_.repeat.val) 1, max (scale where_.repeat.valmax) 1⟩ },
      loot)
  else if loot.chance ≠ 100 then
    (where_, { loot with chance := max (min (scale loot.chance) 100) 1 })
  else (where_, loot)

/-- The specialisation `jmapgen_objects::load_objects<jmapgen_loot>( JsonArray )`
of a collection with the given offsets and sizes; `objects` holds the pairs
that `add` has received.  An entry of the array is the descriptor read by
`jmapgen_place( jsi )` together with the members the loot constructor reads. -/
def load_objects_loot (offset_x offset_y : Int) (mapgensize_x mapgensize_y : Nat)
    (scale : Int → Int) :
    List (jmapgen_place × loot_entry) → List (jmapgen_place × jmapgen_loot) →
      Except String (List (jmapgen_place × jmapgen_loot))
  | [], objects => .ok objects
  | jsi :: parray, objects =>
    let where_ := jsi.1.offset offset_x offset_y
    match common_check_bounds where_.x where_.y (mapgensize_x : Int) (mapgensize_y : Int) with
    | .error e => .error e
    | .ok false =>
      load_objects_loot offset_x offset_y mapgensize_x mapgensize_y scale parray objects
    | .ok true =>
      match jmapgen_loot.load jsi.2 with
      | .error e => .error e
      | .ok loot =>
        load_objects_loot offset_x offset_y mapgensize_x mapgensize_y scale parray
          (objects ++ [loot_rescale scale where_ loot])

/-- The declared loot entries used for evaluation: a repeated entry, an entry
with chance 100, an entry with chance 40, and an entry outside the grid. -/
def recording_loot_entries : List (jmapgen_place × loot_entry) :=
  [ (⟨⟨1, 1⟩, ⟨2, 2⟩, ⟨2, 4⟩⟩, ⟨some "rock", none, some 40, none, none⟩),
    (⟨⟨3, 3⟩, ⟨4, 4⟩, ⟨1, 1⟩⟩, ⟨none, some "stick", none, none, none⟩),
    (⟨⟨5, 5⟩, ⟨6, 6⟩, ⟨1, 1⟩⟩, ⟨some "rock", none, some 40, none, none⟩),
    (⟨⟨30, 30⟩, ⟨6, 6⟩, ⟨1, 1⟩⟩, ⟨some "rock", none, some 40, none, none⟩) ]

/-- The entries of `place_loot` that are accepted: the descriptor, translated
by the offsets, passes the bounds check and the loot constructor succeeds.
Each comes with its translated descriptor and the loot as declared. -/
def accepted_loot (offset_x offset_y : Int) (mapgensize_x mapgensize_y : Nat)
    (parray : List (jmapgen_place × loot_entry)) : List (jmapgen_place × jmapgen_loot) :=
  parray.filterMap (fun jsi =>
    match common_check_bounds (jsi.1.offset offset_x offset_y).x
        (jsi.1.offset offset_x offset_y).y (mapgensize_x : Int) (mapgensize_y : Int),
      jmapgen_loot.load jsi.2 with
    | .ok true, .ok loot => some (jsi.1.offset offset_x offset_y, loot)
    | _, _ => none)

/-! ## 27. Spells: energy and menu letters (`src/magic.cpp`) -/

/-- The enum `energy_type` with the five values that `magic.cpp` names;
`unnamed` stands for any further value of the enum, which a `switch` sends to
its `default` label. -/
inductive energy_type where
  | hp_energy
  | mana_energy
  | stamina_energy
  | bionic_energy
  | none_energy
  | unnamed
  deriving DecidableEq, Repr

/-- What `can_cast` and `has_enough_energy` read of a `spell`: the id and the
energy source of its type, and the value that `energy_cost()` returns. -/
structure spell where
  id : String
  energy_source : energy_type
  energy_cost : Int
  deriving DecidableEq, Repr

/-- The class `known_magic`: the keys of `spellbook`, the map `invlets` and
`mana`. -/
structure known_magic where
  spellbook : List String
  invlets : List (String × Int)
  mana : Int
  deriving DecidableEq, Repr

/-- What `magic.cpp` reads of a `player`; `hp_cur` has `num_hp_parts` elements. -/
structure player where
  magic : known_magic
  stamina : Int
  hp_cur : List Int
  power_level : Int
  deriving DecidableEq, Repr

/-- The method `known_magic::knows_spell( const spell_id & )`. -/
def known_magic.knows_spell (m : known_magic) (sp : String) : Bool :=
  decide (m.spellbook.count sp = 1)

/-- The method `known_magic::available_mana`. -/
def known_magic.available_mana (m : known_magic) : Int :=
  m.mana

/-- The method `spell::can_cast( const player &p )`. -/
def spell.can_cast (sp : spell) (p : player) : Bool :=
  if p.magic.knows_spell sp.id = false then false
  else
    match sp.energy_source with
    | .mana_energy => decide (p.magic.available_mana ≥ sp.energy_cost)
    | .stamina_energy => decide (p.stamina ≥ sp.energy_cost)
    | .hp_energy => p.hp_cur.any (fun hp => decide (sp.energy_cost < hp))
    | .bionic_energy => decide (p.power_level ≥ sp.energy_cost)
    | .none_energy => true
    | .unnamed => true

/-- The method `known_magic::has_enough_energy( const player &p, spell &sp )`. -/
def known_magic.has_enough_energy (m : known_magic) (p : player) (sp : spell) : Bool :=
  let cost := sp.energy_cost
  match sp.energy_source with
  | .mana_energy => decide (m.available_mana ≥ cost)
  | .bionic_energy => decide (p.power_level ≥ cost)
  | .stamina_energy => decide (p.stamina ≥ cost)
  | .hp_energy => p.hp_cur.any (fun hp => decide (hp > cost))
  | .none_energy => true
  | .unnamed => false

/-- The code of a character, as in `int i = 'a'`. -/
def char_code (c : Char) : Int :=
  (c.toNat : Int)

/-- The call `used_invlets.emplace( i )` on a `std::set<int>` kept as the list of
its elements; only membership is ever read. -/
def std_set_emplace (s : List Int) (i : Int) : List Int :=
  if i ∈ s then s else s ++ [i]

/-- One loop `for( int i = lo; i <= hi; i++ )` of `get_invlet`: the first `i` with
`used_invlets.count( i ) == 0`, if any. -/
def first_unused (used_invlets : List Int) (lo hi : Int) : Option Int :=
  (int_range lo hi).find? (fun i => decide (used_invlets.count i = 0))

/-- The method `known_magic::get_invlet( sp, used_invlets )`: the value it returns
and `used_invlets` afterwards. -/
def known_magic.get_invlet (m : known_magic) (sp : String) (used_invlets : List Int) :
    Int × List Int :=
  match std_map_find m.invlets sp with
  | some found => (found, used_invlets)
  | none =>
    let used := m.invlets.foldl (fun acc invlet_pair => std_set_emplace acc invlet_pair.2)
      used_invlets
    match first_unused used (char_code 'a') (char_code 'z') with
    | some i => (i, std_set_emplace used i)
    | none =>
      match first_unused used (char_code 'A') (char_code 'Z') with
      | some i => (i, std_set_emplace used i)
      | none =>
        match first_unused used (char_code '!') (char_code '-') with
        | some i => (i, std_set_emplace used i)
        | none => (0, used)

/-- The loop `for( size_t i = 0; i < known_spells.size(); i++ )` of
`select_spell`: the invlet handed to `addentry` for each spell. -/
def select_spell_loop (m : known_magic) : List String → List Int → List Int
  | [], _ => []
  | sp :: known_spells, used_invlets =>
    (m.get_invlet sp used_invlets).1 ::
      select_spell_loop m known_spells (m.get_invlet sp used_invlets).2

/-- The invlets of the menu of `known_magic::select_spell`, `used_invlets` being
`{ 'I' }` before the loop. -/
def known_magic.select_spell_invlets (m : known_magic) (known_spells : List String) :
    List Int :=
  select_spell_loop m known_spells (std_set_emplace [] (char_code 'I'))

/-- The characters an invlet is chosen from, in the order of the three loops:
`'a'..'z'`, `'A'..'Z'`, `'!'..'-'`. -/
def invlet_order : List Int :=
  int_range (char_code 'a') (char_code 'z') ++ int_range (char_code 'A') (char_code 'Z') ++
    int_range (char_code '!') (char_code '-')

/-- A player who knows four spells, with 10 mana, 20 stamina, 5 bionic power
and the hit points 3, 8 and 4. -/
def recording_player : player :=
  { magic := { spellbook := ["bolt", "heal", "light", "ward"], invlets := [("heal", 97)],
               mana := 10 },
    stamina := 20, hp_cur := [3, 8, 4], power_level := 5 }

/-! ## 28. The slot of a grid cell in `size_t` arithmetic -/

section Slots

variable {M R D : Type}

/-- The length that `setup_common` gives the vector `format` with
`format.resize( mapgensize_x * mapgensize_y )`, a product of `size_t`. -/
def mapgen_function_json_base.format_size (f : mapgen_function_json_base M R D) : Nat :=
  (f.mapgensize_x * f.mapgensize_y) % 2 ^ 64

end Slots

/-- The sizes of a chunk that has passed setup with a grid to index.  Either the
canonical size `SEEX * 2` by `SEEY * 2` that the constructor gives a top-level
or update chunk (the two constants come from game_constants.h and are taken
to be equal).  Or the sizes that `mapgen_function_json_nested::setup_internal`
assigns for a declared pair of `int`, where either the declared number is
positive or `setup_common` has found the array `rows`, of `rows` lines held in
memory, not to be shorter than `mapgensize_y` (a nested chunk has the grid
offset 0); `calc_index` is called only after that test. -/
def validated_chunk_size (SEEX SEEY rows mapgensize_x mapgensize_y : Nat) : Prop :=
  (mapgensize_x = SEEX * 2 ∧ mapgensize_y = SEEY * 2 ∧ SEEX = SEEY ∧ SEEX < 2 ^ 31) ∨
  ∃ a b : Int, -2 ^ 31 ≤ a ∧ a < 2 ^ 31 ∧
    mapgen_function_json_nested.setup_internal (some [a, b])
      = .ok (true, mapgensize_x, mapgensize_y) ∧
    (0 < a ∨ (¬ (rows < mapgensize_y) ∧ rows < 2 ^ 63))

/-- A chunk of the given sizes on the recording surface, and nothing else. -/
def sized_chunk (mapgensize_x mapgensize_y : Nat) :
    mapgen_function_json_base (List map_event) Unit Unit :=
  { do_format := false, format := [], mapgensize_x := mapgensize_x,
    mapgensize_y := mapgensize_y, setmap_points := [],
    objects := { offset_x := 0, offset_y := 0, mapgensize_x := mapgensize_x,
                 mapgensize_y := mapgensize_y, objects := [] } }

/-! # Theorems -/

/-! ### Lemmas on the cumulative index -/

lemma std_map_assign_append (m : weight_index) (k : Int) (v : Nat)
    (h : ∀ e ∈ m, e.1 < k) : std_map_assign m k v = m ++ [(k, v)] := by
  induction m with
  | nil => rfl
  | cons e rest ih =>
    obtain ⟨k', v'⟩ := e
    have hk : k' < k := h (k', v') (List.mem_cons_self _ _)
    have ih' := ih (fun e he => h e (List.mem_cons_of_mem _ he))
    simp only [std_map_assign]
    rw [if_neg (by omega), if_neg (by omega), ih']
    rfl

lemma total_weight_cons (w : Int) (rest : List Int) :
    total_weight (w :: rest) = if w < 1 then total_weight rest else w + total_weight rest := by
  unfold total_weight
  by_cases hw : w < 1
  · rw [if_pos hw, List.filter_cons_of_neg (by simpa using hw)]
  · rw [if_neg hw, List.filter_cons_of_pos (by simpa using hw), List.sum_cons]

lemma total_weight_nonneg (ws : List Int) : 0 ≤ total_weight ws := by
  induction ws with
  | nil => simp [total_weight]
  | cons w rest ih =>
    rw [total_weight_cons]
    split <;> omega

lemma to_int_eq (v : Int) (h0 : -2147483648 ≤ v) (h1 : v ≤ 2147483647) : to_int v = v := by
  unfold to_int
  rw [Int.emod_eq_of_lt (by omega) (by omega)]
  omega

/-- As long as the running total stays within `int`, the index that `wcalc`
builds is the cumulative index. -/
lemma wcalc_eq (ws : List Int) : ∀ (f : Nat) (t : Int) (m : weight_index),
    (∀ e ∈ m, e.1 ≤ t) → 0 ≤ t → t + total_weight ws ≤ 2147483647 →
    wcalc ws f t m = m ++ cumulative ws f t := by
  induction ws with
  | nil => intro f t m _ _ _; simp [wcalc, cumulative]
  | cons w rest ih =>
    intro f t m hm ht hfit
    have hnn := total_weight_nonneg rest
    rw [total_weight_cons] at hfit
    by_cases hw : w < 1
    · rw [if_pos hw] at hfit
      simp only [wcalc, cumulative, if_pos hw]
      exact ih _ _ _ hm ht hfit
    · rw [if_neg hw] at hfit
      simp only [wcalc, cumulative, if_neg hw]
      rw [to_int_eq (t + w) (by omega) (by omega)]
      rw [std_map_assign_append m (t + w) f (fun e he => by have := hm e he; omega)]
      rw [ih (f + 1) (t + w) (m ++ [(t + w, f)]) _ (by omega) (by omega)]
      · simp
      · intro e he
        rcases List.mem_append.mp he with h1 | h1
        · have := hm e h1; omega
        · simp at h1; subst h1; simp

lemma cumulative_mem (ws : List Int) : ∀ (f : Nat) (t : Int) (e : Int × Nat),
    e ∈ cumulative ws f t → t < e.1 ∧ e.1 ≤ t + total_weight ws ∧ f ≤ e.2 := by
  induction ws with
  | nil => intro f t e he; simp [cumulative] at he
  | cons w rest ih =>
    intro f t e he
    have hnn := total_weight_nonneg rest
    rw [total_weight_cons]
    by_cases hw : w < 1
    · simp only [cumulative, if_pos hw] at he
      rw [if_pos hw]
      have := ih _ _ _ he
      omega
    · simp only [cumulative, if_neg hw] at he
      rw [if_neg hw]
      rcases List.mem_cons.mp he with h1 | h1
      · subst h1; simp; omega
      · have := ih _ _ _ h1
        omega

lemma cumulative_last (ws : List Int) : ∀ (f : Nat) (t : Int),
    1 ≤ total_weight ws →
    (rbegin (cumulative ws f t)).map Prod.fst = some (t + total_weight ws) := by
  induction ws with
  | nil => intro f t h; simp [total_weight] at h
  | cons w rest ih =>
    intro f t h
    rw [total_weight_cons] at h ⊢
    by_cases hw : w < 1
    · simp only [cumulative, if_pos hw] at h ⊢
      exact ih _ _ h
    · simp only [cumulative, if_neg hw] at h ⊢
      by_cases hr : 1 ≤ total_weight rest
      · have h2 := ih (f + 1) (t + w) hr
        unfold rbegin at h2 ⊢
        cases hc : cumulative rest (f + 1) (t + w) with
        | nil => rw [hc] at h2; simp at h2
        | cons a l =>
          rw [hc] at h2
          rw [List.getLast?_cons_cons, h2]
          congr 1; omega
      · have h0 : total_weight rest = 0 := by
          have := total_weight_nonneg rest; omega
        have hnil : cumulative rest (f + 1) (t + w) = [] := by
          cases hc : cumulative rest (f + 1) (t + w) with
          | nil => rfl
          | cons a l =>
            have := cumulative_mem rest (f + 1) (t + w) a (by rw [hc]; exact List.mem_cons_self _ _)
            omega
        rw [hnil, h0]
        simp [rbegin]

lemma lower_bound_cons (e : Int × Nat) (m : weight_index) (r : Int) :
    lower_bound (e :: m) r = if r ≤ e.1 then some e else lower_bound m r := by
  unfold lower_bound
  rw [List.find?_cons]
  by_cases h : r ≤ e.1 <;> simp [h]

lemma lower_bound_snd_ge (ws : List Int) (f : Nat) (t : Int) (r : Int) (j : Nat)
    (h : (lower_bound (cumulative ws f t) r).map Prod.snd = some j) : f ≤ j := by
  cases hl : lower_bound (cumulative ws f t) r with
  | none => rw [hl] at h; simp at h
  | some e =>
    rw [hl] at h
    simp at h
    have hmem : e ∈ cumulative ws f t := List.mem_of_find?_eq_some hl
    have := cumulative_mem ws f t e hmem
    omega

lemma cumulative_count (ws : List Int) : ∀ (f : Nat) (t : Int) (i : Nat) (hi : i < ws.length),
    ((Finset.Icc (t + 1) (t + total_weight ws)).filter
      (fun r => (lower_bound (cumulative ws f t) r).map Prod.snd = some (f + i))).card
      = if 1 ≤ ws[i] then (ws[i]).toNat else 0 := by
  induction ws with
  | nil => intro f t i hi; simp at hi
  | cons w rest ih =>
    intro f t i hi
    have hnn := total_weight_nonneg rest
    rw [total_weight_cons]
    by_cases hw : w < 1
    · simp only [cumulative, if_pos hw]
      cases i with
      | zero =>
        simp only [List.getElem_cons_zero, if_neg (not_le.mpr hw), Finset.card_eq_zero]
        apply Finset.filter_eq_empty_iff.mpr
        intro r _ hr
        have := lower_bound_snd_ge rest (f + 1) t r _ hr
        omega
      | succ i' =>
        have hi' : i' < rest.length := by simpa using hi
        have := ih (f + 1) t i' hi'
        simp only [List.getElem_cons_succ]
        rw [← this]
        congr 2
        funext r
        rw [show f + (i' + 1) = f + 1 + i' by omega]
    · simp only [cumulative, if_neg hw]
      cases i with
      | zero =>
        simp only [List.getElem_cons_zero, if_pos (not_lt.mp hw)]
        have : (Finset.Icc (t + 1) (t + (w + total_weight rest))).filter
            (fun r => (lower_bound ((t + w, f) :: cumulative rest (f + 1) (t + w)) r).map Prod.snd
              = some (f + 0)) = Finset.Icc (t + 1) (t + w) := by
          ext r
          simp only [Finset.mem_filter, Finset.mem_Icc, lower_bound_cons]
          constructor
          · rintro ⟨⟨h1, _⟩, h3⟩
            refine ⟨h1, ?_⟩
            by_contra hgt
            rw [if_neg hgt] at h3
            have := lower_bound_snd_ge rest (f + 1) (t + w) r _ h3
            omega
          · rintro ⟨h1, h2⟩
            refine ⟨⟨h1, by omega⟩, ?_⟩
            rw [if_pos h2]; simp
        rw [this, Int.card_Icc]
        congr 1; omega
      | succ i' =>
        have hi' : i' < rest.length := by simpa using hi
        have := ih (f + 1) (t + w) i' hi'
        simp only [List.getElem_cons_succ]
        rw [← this]
        congr 1
        ext r
        simp only [Finset.mem_filter, Finset.mem_Icc, lower_bound_cons]
        constructor
        · rintro ⟨⟨h1, h2⟩, h3⟩
          by_cases hle : r ≤ t + w
          · rw [if_pos hle] at h3
            simp at h3
          · rw [if_neg hle] at h3
            refine ⟨⟨by omega, by omega⟩, ?_⟩
            rw [h3]; congr 1; omega
        · rintro ⟨⟨h1, h2⟩, h3⟩
          refine ⟨⟨by omega, by omega⟩, ?_⟩
          rw [if_neg (by omega), h3]; congr 1; omega

lemma lookup_calculate_mapgen_weights (oter_mapgen : List (String × List Int)) (key : String) :
    (calculate_mapgen_weights oter_mapgen).lookup key
      = (oter_mapgen.lookup key).map (fun ws => wcalc ws 0 0 []) := by
  induction oter_mapgen with
  | nil => rfl
  | cons omw rest ih =>
    obtain ⟨k, ws⟩ := omw
    simp only [calculate_mapgen_weights, List.map_cons, List.lookup_cons] at ih ⊢
    cases hk : (key == k) with
    | true => rfl
    | false => exact ih

/-- C1: after `calculate_mapgen_weights`, for a key whose enabled variants have
total weight `T` with `1 ≤ T ≤ INT_MAX`, so that the `int` running total
never overflows, the roll of `run_mapgen_func` is drawn from `[1, T]`
(`rlast = T`) and, for every variant index `i` of the key, the number of rolls
in `[1, T]` whose `lower_bound` lookup selects `i` is `weight_i` when
`weight_i ≥ 1` and `0` otherwise. -/
theorem weighted_selection_roll_count (oter_mapgen : List (String × List Int))
    (key : String) (ws : List Int) (hk : oter_mapgen.lookup key = some ws)
    (hT : 1 ≤ total_weight ws) (hfit : total_weight ws ≤ 2147483647)
    (i : Nat) (hi : i < ws.length) :
    run_mapgen_func_rlast (calculate_mapgen_weights oter_mapgen) key = some (total_weight ws) ∧
    ((Finset.Icc 1 (total_weight ws)).filter
      (fun roll => run_mapgen_func oter_mapgen (calculate_mapgen_weights oter_mapgen) key roll
        = some i)).card = if 1 ≤ ws[i] then (ws[i]).toNat else 0 := by
  have hidx : wcalc ws 0 0 [] = cumulative ws 0 0 := by
    simpa using wcalc_eq ws 0 0 [] (by simp) (le_refl 0) (by omega)
  have hlook := lookup_calculate_mapgen_weights oter_mapgen key
  rw [hk] at hlook
  simp only [Option.map_some', hidx] at hlook
  constructor
  · unfold run_mapgen_func_rlast
    rw [hlook]
    simpa using cumulative_last ws 0 0 hT
  · have hne : ∃ w rest, ws = w :: rest := by
      cases ws with
      | nil => simp at hi
      | cons w rest => exact ⟨w, rest, rfl⟩
    obtain ⟨w, rest, hws⟩ := hne
    have hcount := cumulative_count ws 0 0 i hi
    simp only [zero_add] at hcount
    rw [← hcount]
    congr 1
    apply Finset.filter_congr
    intro roll _
    unfold run_mapgen_func
    rw [hk, hlook, hws]

/-- C1, witness: a key with weights `3, 0, 2`; variant `0` is selected by exactly
three of the five rolls. -/
theorem weighted_selection_roll_count_witness :
    run_mapgen_func_rlast (calculate_mapgen_weights [("house", [3, 0, 2])]) "house" = some 5 ∧
    ((Finset.Icc 1 (5 : Int)).filter
      (fun roll => run_mapgen_func [("house", [3, 0, 2])]
        (calculate_mapgen_weights [("house", [3, 0, 2])]) "house" roll = some 0)).card = 3 :=
  weighted_selection_roll_count [("house", [3, 0, 2])] "house" [3, 0, 2] rfl (by decide)
    (by decide) 0 (by decide)

/-- C1, counterexample: a key with the weights `INT_MAX` and `1`, total weight
`2147483648`.  The running total wraps to `INT_MIN` at the second variant, the
index is `{ INT_MIN: 1, INT_MAX: 0 }`, the roll is drawn from `[1, INT_MAX]`,
and no roll from 1 to the total weight selects variant 1, whose weight is 1. -/
theorem weighted_selection_overflow :
    total_weight [2147483647, 1] = 2147483648 ∧
    calculate_mapgen_weights [("house", [2147483647, 1])]
      = [("house", [(-2147483648, 1), (2147483647, 0)])] ∧
    run_mapgen_func_rlast (calculate_mapgen_weights [("house", [2147483647, 1])]) "house"
      = some 2147483647 ∧
    ((Finset.Icc 1 (2147483648 : Int)).filter
      (fun roll => run_mapgen_func [("house", [2147483647, 1])]
        (calculate_mapgen_weights [("house", [2147483647, 1])]) "house" roll = some 1)).card
      = 0 := by
  have hidx : calculate_mapgen_weights [("house", [2147483647, 1])]
      = [("house", [(-2147483648, 1), (2147483647, 0)])] := by decide
  refine ⟨by decide, hidx, by rw [hidx]; rfl, ?_⟩
  rw [Finset.card_eq_zero]
  apply Finset.filter_eq_empty_iff.mpr
  intro roll hroll
  rw [hidx]
  have h1 : 1 ≤ roll := (Finset.mem_Icc.mp hroll).1
  have hl : lower_bound [(-2147483648, 1), (2147483647, 0)] roll
      = if roll ≤ 2147483647 then some (2147483647, 0) else none := by
    rw [lower_bound_cons, if_neg (by omega), lower_bound_cons]
    rfl
  have hrun : run_mapgen_func [("house", [2147483647, 1])]
      [("house", [(-2147483648, 1), (2147483647, 0)])] "house" roll
      = (lower_bound [(-2147483648, 1), (2147483647, 0)] roll).map Prod.snd := rfl
  rw [hrun, hl]
  by_cases h : roll ≤ 2147483647
  · rw [if_pos h]; simp
  · rw [if_neg h]; simp

/-! ### Update chunks: vehicles and the setmap loop -/

section UpdateLemmas

variable {M R D : Type}

lemma foldl_invariant {α β : Type} (P : β → Prop) (f : β → α → β) (l : List α) :
    ∀ b : β, P b → (∀ b a, P b → P (f b a)) → P (l.foldl f b) := by
  induction l with
  | nil => intro b hb _; exact hb
  | cons a rest ih => intro b hb hf; exact ih (f b a) (hf b a hb) hf

lemma iterate_invariant {β : Type} (P : β → Prop) (f : β → β) (n : Nat) :
    ∀ b : β, P b → (∀ b, P b → P (f b)) → P (Nat.iterate f n b) := by
  induction n with
  | zero => intro b hb _; exact hb
  | succ k ih => intro b hb hf; exact ih (f b) (hf b hb) hf

lemma jmapgen_int.get_fixed (E : Env M R D) (v : jmapgen_int) (r : R) (h : v.val = v.valmax) :
    v.get E r = (v.val, r) := by
  unfold jmapgen_int.get
  rw [if_pos h]

lemma jmapgen_setmap.apply_op_veh_at (E : Env M R D) (hE : E.keeps_vehicles)
    (s : jmapgen_setmap) (ox oy : Int) (st : M × R) (p : Int × Int) :
    E.veh_at (s.apply_op E ox oy st).1 p = E.veh_at st.1 p := by
  obtain ⟨h1, h2, h3, h4, h5, h6, h7, h8, h9⟩ := hE
  unfold jmapgen_setmap.apply_op
  cases hop : s.op <;> simp only [h1, h2, h3, h4, h5, h6, h7, h8, h9]
  · apply foldl_invariant (fun acc : M × R => E.veh_at acc.1 p = E.veh_at st.1 p)
    · rfl
    · intro b a hb; simp only [h3]; exact hb
  · apply foldl_invariant (fun acc : M × R => E.veh_at acc.1 p = E.veh_at st.1 p)
    · rfl
    · intro b a hb; simp only [h4]; exact hb
  · apply foldl_invariant (fun acc : M × R => E.veh_at acc.1 p = E.veh_at st.1 p)
    · rfl
    · intro b a hb
      apply foldl_invariant (fun acc : M × R => E.veh_at acc.1 p = E.veh_at st.1 p)
      · exact hb
      · intro b2 a2 hb2; simp only [h3]; exact hb2
  · apply foldl_invariant (fun acc : M × R => E.veh_at acc.1 p = E.veh_at st.1 p)
    · rfl
    · intro b a hb
      apply foldl_invariant (fun acc : M × R => E.veh_at acc.1 p = E.veh_at st.1 p)
      · exact hb
      · intro b2 a2 hb2; simp only [h4]; exact hb2

lemma jmapgen_setmap.apply_veh_at (E : Env M R D) (hE : E.keeps_vehicles)
    (s : jmapgen_setmap) (ox oy : Int) (st : M × R) (p : Int × Int) :
    E.veh_at (s.apply E ox oy st).1 p = E.veh_at st.1 p := by
  unfold jmapgen_setmap.apply
  split
  · rfl
  · apply iterate_invariant (fun acc : M × R => E.veh_at acc.1 p = E.veh_at st.1 p)
    · rfl
    · intro b hb
      rw [jmapgen_setmap.apply_op_veh_at E hE]
      exact hb

lemma jmapgen_setmap.collision_of_target (E : Env M R D) (s : jmapgen_setmap) (ox oy : Int)
    (st : M × R) (a b : Int × Int) (hfix : s.fixed) (ht : s.target ox oy = some (a, b))
    (hv : ∃ q ∈ E.points_in_rectangle a b, E.veh_at st.1 q = true) :
    (s.has_vehicle_collision E ox oy st).1 = true := by
  obtain ⟨f1, f2, f3, f4⟩ := hfix
  obtain ⟨q, hq, hvq⟩ := hv
  unfold jmapgen_setmap.target at ht
  unfold jmapgen_setmap.has_vehicle_collision jmapgen_setmap.get_off
  simp only [jmapgen_int.get_fixed E _ _ f1, jmapgen_int.get_fixed E _ _ f2,
    jmapgen_int.get_fixed E _ _ f3, jmapgen_int.get_fixed E _ _ f4]
  cases hop : s.op <;> rw [hop] at ht <;> simp only [Option.some.injEq, Prod.mk.injEq] at ht <;>
    first
    | (obtain ⟨ha, hb⟩ := ht
       subst ha; subst hb
       simp only [List.any_eq_true]
       exact ⟨q, hq, hvq⟩)
    | exact absurd ht (by simp)

end UpdateLemmas

section UpdateTheorems

variable {M R D : Type}

lemma update_map_setmaps_abort (E : Env M R D) (ox oy : Int) (pts : List jmapgen_setmap) :
    ∀ st : M × R, (update_map_setmaps E ox oy true pts st).1 = false →
      ∃ k, k < pts.length ∧
        (update_map_setmaps E ox oy true (pts.take k) st).1 = true ∧
        (update_map_setmaps E ox oy true (pts.take k) st).2.1
          = (update_map_setmaps E ox oy true pts st).2.1 := by
  induction pts with
  | nil => intro st h; simp [update_map_setmaps] at h
  | cons elem rest ih =>
    intro st h
    by_cases hc : (elem.has_vehicle_collision E ox oy st).1 = true
    · refine ⟨0, by simp, ?_, ?_⟩
      · simp [update_map_setmaps]
      · simp [update_map_setmaps, hc]
    · simp only [update_map_setmaps, hc, if_true, if_false] at h
      obtain ⟨k, hk, h1, h2⟩ := ih _ h
      refine ⟨k + 1, by simpa using hk, ?_, ?_⟩
      · simpa [update_map_setmaps, hc] using h1
      · simpa [update_map_setmaps, hc] using h2

lemma update_map_setmaps_collision (E : Env M R D) (hE : E.keeps_vehicles) (ox oy : Int)
    (m0 : M) (pts : List jmapgen_setmap) :
    ∀ (st : M × R) (k : Nat) (hk : k < pts.length) (a b : Int × Int),
      (∀ p, E.veh_at st.1 p = E.veh_at m0 p) →
      (pts[k]).fixed → (pts[k]).target ox oy = some (a, b) →
      (∃ q ∈ E.points_in_rectangle a b, E.veh_at m0 q = true) →
      (update_map_setmaps E ox oy true pts st).1 = false := by
  induction pts with
  | nil => intro st k hk; simp at hk
  | cons elem rest ih =>
    intro st k hk a b hst hfix ht hv
    by_cases hc : (elem.has_vehicle_collision E ox oy st).1 = true
    · simp [update_map_setmaps, hc]
    · simp only [update_map_setmaps, hc, if_true, if_false]
      cases k with
      | zero =>
        exfalso
        apply hc
        obtain ⟨q, hq, hvq⟩ := hv
        exact jmapgen_setmap.collision_of_target E elem ox oy st a b hfix ht
          ⟨q, hq, by rw [hst]; exact hvq⟩
      | succ k' =>
        have hk' : k' < rest.length := by simpa using hk
        refine ih _ k' hk' a b ?_ (by simpa using hfix) (by simpa using ht) hv
        intro p
        rw [jmapgen_setmap.apply_veh_at E hE]
        exact hst p

/-- C2 (amended): when `update_map( md, .., verify = true, rotation )` returns
false, `md.m` is the surface left by checking and applying only the first `k`
setmap operations, for some `k`: no piece has been applied and the surface has
not been rotated back, but the operations before the colliding one have been
applied.  When the first setmap operation is the one that collides, `md.m` is
unchanged. -/
theorem update_map_abort_surface (E : Env M R D) (f : mapgen_function_json_base M R D)
    (st : M × R) (offset_x offset_y : Int) (miss : Option Nat) (rotation : Int)
    (hfalse : (update_mapgen_function_json.update_map E f st offset_x offset_y miss true
      rotation).1 = false) :
    (∃ k, k ≤ f.setmap_points.length ∧
      (update_map_setmaps E offset_x offset_y true (f.setmap_points.take k) st).1 = true ∧
      (update_map_setmaps E offset_x offset_y true (f.setmap_points.take k) st).2.1
        = (update_mapgen_function_json.update_map E f st offset_x offset_y miss true
            rotation).2.1) ∧
    (∀ elem rest, f.setmap_points = elem :: rest →
      (elem.has_vehicle_collision E offset_x offset_y st).1 = true →
      (update_mapgen_function_json.update_map E f st offset_x offset_y miss true
        rotation).2.1 = st.1) := by
  constructor
  · by_cases h1 : (update_map_setmaps E offset_x offset_y true f.setmap_points st).1 = false
    · obtain ⟨k, hk, h2, h3⟩ := update_map_setmaps_abort E offset_x offset_y f.setmap_points st h1
      refine ⟨k, le_of_lt hk, h2, ?_⟩
      rw [h3]
      simp [update_mapgen_function_json.update_map, h1]
    · have h1' : (update_map_setmaps E offset_x offset_y true f.setmap_points st).1 = true := by
        simpa using h1
      refine ⟨f.setmap_points.length, le_refl _, ?_, ?_⟩
      · simpa using h1'
      · simp only [List.take_length]
        by_cases hc : (f.objects.has_vehicle_collision E offset_x offset_y
            (update_map_setmaps E offset_x offset_y true f.setmap_points st).2).1 = true
        · simp [update_mapgen_function_json.update_map, h1', hc]
        · exfalso
          have hc' : (f.objects.has_vehicle_collision E offset_x offset_y
              (update_map_setmaps E offset_x offset_y true f.setmap_points st).2).1 = false := by
            simpa using hc
          by_cases hr : rotation = 0 <;>
            simp [update_mapgen_function_json.update_map, h1', hc', hr] at hfalse
  · intro elem rest hpts hc
    simp [update_mapgen_function_json.update_map, hpts, update_map_setmaps, hc]

/-- C2, witness: two terrain operations, the second on a vehicle cell. -/
theorem update_map_abort_surface_witness :
    (∃ k, k ≤ (recording_chunk [point_setmap .JMAPGEN_SETMAP_TER 0 0 5,
          point_setmap .JMAPGEN_SETMAP_TER 1 1 5] []).setmap_points.length ∧
      (update_map_setmaps (recording_env [(1, 1)]) 0 0 true
        ((recording_chunk [point_setmap .JMAPGEN_SETMAP_TER 0 0 5,
          point_setmap .JMAPGEN_SETMAP_TER 1 1 5] []).setmap_points.take k) ([], ())).1 = true ∧
      (update_map_setmaps (recording_env [(1, 1)]) 0 0 true
        ((recording_chunk [point_setmap .JMAPGEN_SETMAP_TER 0 0 5,
          point_setmap .JMAPGEN_SETMAP_TER 1 1 5] []).setmap_points.take k) ([], ())).2.1
        = (update_mapgen_function_json.update_map (recording_env [(1, 1)])
            (recording_chunk [point_setmap .JMAPGEN_SETMAP_TER 0 0 5,
              point_setmap .JMAPGEN_SETMAP_TER 1 1 5] []) ([], ()) 0 0 none true 0).2.1) ∧
    (∀ elem rest, (recording_chunk [point_setmap .JMAPGEN_SETMAP_TER 0 0 5,
          point_setmap .JMAPGEN_SETMAP_TER 1 1 5] []).setmap_points = elem :: rest →
      (elem.has_vehicle_collision (recording_env [(1, 1)]) 0 0 ([], ())).1 = true →
      (update_mapgen_function_json.update_map (recording_env [(1, 1)])
        (recording_chunk [point_setmap .JMAPGEN_SETMAP_TER 0 0 5,
          point_setmap .JMAPGEN_SETMAP_TER 1 1 5] []) ([], ()) 0 0 none true 0).2.1 = []) :=
  update_map_abort_surface (recording_env [(1, 1)])
    (recording_chunk [point_setmap .JMAPGEN_SETMAP_TER 0 0 5,
      point_setmap .JMAPGEN_SETMAP_TER 1 1 5] []) ([], ()) 0 0 none 0 (by decide)

/-- C2, counterexample: with a terrain operation on a free cell followed by one
on a vehicle cell, the verified update returns false on account of the
collision, yet the first operation has already changed the surface. -/
theorem update_map_abort_not_atomic :
    ((point_setmap .JMAPGEN_SETMAP_TER 1 1 5).has_vehicle_collision (recording_env [(1, 1)])
        0 0 ([map_event.ter_set 0 0 5], ())).1 = true ∧
    (update_mapgen_function_json.update_map (recording_env [(1, 1)])
      (recording_chunk [point_setmap .JMAPGEN_SETMAP_TER 0 0 5,
        point_setmap .JMAPGEN_SETMAP_TER 1 1 5] []) ([], ()) 0 0 none true 0).1 = false ∧
    (update_mapgen_function_json.update_map (recording_env [(1, 1)])
      (recording_chunk [point_setmap .JMAPGEN_SETMAP_TER 0 0 5,
        point_setmap .JMAPGEN_SETMAP_TER 1 1 5] []) ([], ()) 0 0 none true 0).2.1
      = [map_event.ter_set 0 0 5] ∧
    (update_mapgen_function_json.update_map (recording_env [(1, 1)])
      (recording_chunk [point_setmap .JMAPGEN_SETMAP_TER 0 0 5,
        point_setmap .JMAPGEN_SETMAP_TER 1 1 5] []) ([], ()) 0 0 none true 0).2.1 ≠ [] := by
  decide

/-- C3 (amended): if an update chunk contains a terrain, furniture or trap setmap
operation (point, line or square) with fixed coordinates, and one of the cells
`has_vehicle_collision` checks for it is occupied by a vehicle on the loaded
tile as `update_map` sees it (after the rotation correction), then
`update_map( omt_pos, offset_x, offset_y, miss, verify = true )` returns false
and the persisted tile is unchanged, given that the setmap primitives leave
vehicles in place. -/
theorem update_map_omt_collision_not_committed (E : Env M R D) (hE : E.keeps_vehicles)
    (f : mapgen_function_json_base M R D) (stored : M) (r : R) (map_id : String)
    (offset_x offset_y : Int) (miss : Option Nat) (k : Nat) (hk : k < f.setmap_points.length)
    (a b : Int × Int) (hfix : (f.setmap_points[k]).fixed)
    (ht : (f.setmap_points[k]).target offset_x offset_y = some (a, b))
    (hv : ∃ q ∈ E.points_in_rectangle a b,
      E.veh_at (if update_rotation map_id ≠ 0 then E.rotate (update_rotation map_id) stored
        else stored) q = true) :
    (update_mapgen_function_json.update_map_omt E f stored r map_id offset_x offset_y miss
      true).1 = false ∧
    (update_mapgen_function_json.update_map_omt E f stored r map_id offset_x offset_y miss
      true).2.1 = stored := by
  have h := update_map_setmaps_collision E hE offset_x offset_y
    (if update_rotation map_id ≠ 0 then E.rotate (update_rotation map_id) stored else stored)
    f.setmap_points
    (if update_rotation map_id ≠ 0 then E.rotate (update_rotation map_id) stored else stored, r)
    k hk a b (fun _ => rfl) hfix ht hv
  have h2 : (update_mapgen_function_json.update_map E f
      (if update_rotation map_id ≠ 0 then E.rotate (update_rotation map_id) stored else stored, r)
      offset_x offset_y miss true (update_rotation map_id)).1 = false := by
    simp only [update_mapgen_function_json.update_map]
    rw [if_pos h]
  simp only [update_mapgen_function_json.update_map_omt]
  rw [h2]
  exact ⟨rfl, rfl⟩

/-- C3, witness: a terrain operation on the vehicle cell `(1, 1)` of a tile whose
id carries no rotation suffix. -/
theorem update_map_omt_collision_not_committed_witness :
    (update_mapgen_function_json.update_map_omt (recording_env [(1, 1)])
      (recording_chunk [point_setmap .JMAPGEN_SETMAP_TER 1 1 5] []) [] () "house" 0 0 none
      true).1 = false ∧
    (update_mapgen_function_json.update_map_omt (recording_env [(1, 1)])
      (recording_chunk [point_setmap .JMAPGEN_SETMAP_TER 1 1 5] []) [] () "house" 0 0 none
      true).2.1 = [] :=
  update_map_omt_collision_not_committed (recording_env [(1, 1)])
    ⟨fun _ _ _ _ _ => rfl, fun _ _ _ _ _ => rfl, fun _ _ _ _ _ => rfl, fun _ _ _ _ _ => rfl,
      fun _ _ _ _ => rfl, fun _ _ _ _ _ _ _ => rfl, fun _ _ _ _ _ _ _ => rfl,
      fun _ _ _ _ _ _ _ => rfl, fun _ _ _ _ _ _ _ => rfl⟩
    (recording_chunk [point_setmap .JMAPGEN_SETMAP_TER 1 1 5] []) [] () "house" 0 0 none 0
    (by decide) (1, 1) (1, 1) ⟨rfl, rfl, rfl, rfl⟩ rfl ⟨(1, 1), by decide, by decide⟩

/-- C3, counterexample: a radiation operation aimed at the vehicle cell `(1, 1)`
is not treated as a collision; the verified update returns true and the tile
that is saved differs from the persisted one. -/
theorem update_map_omt_radiation_commits :
    (recording_env [(1, 1)]).veh_at [] (1, 1) = true ∧
    (update_mapgen_function_json.update_map_omt (recording_env [(1, 1)])
      (recording_chunk [point_setmap .JMAPGEN_SETMAP_RADIATION 1 1 5] []) [] () "house" 0 0
      none true).1 = true ∧
    (update_mapgen_function_json.update_map_omt (recording_env [(1, 1)])
      (recording_chunk [point_setmap .JMAPGEN_SETMAP_RADIATION 1 1 5] []) [] () "house" 0 0
      none true).2.1 = [map_event.radiation 1 1 5] ∧
    (update_mapgen_function_json.update_map_omt (recording_env [(1, 1)])
      (recording_chunk [point_setmap .JMAPGEN_SETMAP_RADIATION 1 1 5] []) [] () "house" 0 0
      none true).2.1 ≠ [] := by
  decide

end UpdateTheorems

/-! ### Loading placement descriptors -/

section LoadingTheorems

variable {M R D : Type}

lemma common_check_bounds_true (x y : jmapgen_int) (sx sy : Int)
    (h : common_check_bounds x y sx sy = .ok true) : checked_range x sx ∧ checked_range y sy := by
  unfold common_check_bounds at h
  unfold checked_range
  split at h
  · simp at h
  · split at h
    · simp at h
    · split at h
      · simp at h
      · refine ⟨⟨?_, ?_, ?_⟩, ?_, ?_, ?_⟩ <;> omega

/-- C4 (amended): every placement descriptor that `load_objects` accepts into the
objects collection satisfies, after the offset translation,
`0 ≤ x.val ≤ mapgensize_x - 1`, `x.valmax ≤ mapgensize_x - 1` and likewise
for `y`; the collection grows only at its end and keeps its size. -/
theorem load_objects_accepted_in_bounds
    (parray : List (jmapgen_place × Except String (jmapgen_piece M R D)))
    (o o' : jmapgen_objects M R D) (h : o.load_objects parray = .ok o') :
    o'.mapgensize_x = o.mapgensize_x ∧ o'.mapgensize_y = o.mapgensize_y ∧
    ∃ added, o'.objects = o.objects ++ added ∧
      ∀ obj ∈ added, checked_range obj.1.x (o.mapgensize_x : Int) ∧
        checked_range obj.1.y (o.mapgensize_y : Int) := by
  induction parray generalizing o with
  | nil =>
    simp only [jmapgen_objects.load_objects, Except.ok.injEq] at h
    subst h
    exact ⟨rfl, rfl, [], by simp, by simp⟩
  | cons jsi rest ih =>
    simp only [jmapgen_objects.load_objects] at h
    cases hc : o.check_bounds (jsi.1.offset o.offset_x o.offset_y) with
    | error e => rw [hc] at h; simp at h
    | ok b =>
      rw [hc] at h
      cases b with
      | false => exact ih o h
      | true =>
        simp only at h
        cases hp : jsi.2 with
        | error e => rw [hp] at h; simp at h
        | ok piece =>
          rw [hp] at h
          simp only at h
          obtain ⟨hx, hy, added, hadd, hall⟩ := ih _ h
          refine ⟨hx, hy, (jsi.1.offset o.offset_x o.offset_y, piece) :: added, ?_, ?_⟩
          · rw [hadd]; simp [jmapgen_objects.add]
          · intro obj hobj
            rcases List.mem_cons.mp hobj with h1 | h1
            · subst h1
              exact common_check_bounds_true _ _ _ _ hc
            · exact hall obj h1

/-- C4, witness: one descriptor with `x = [3, 5]`, `y = [0, 0]` loaded into the
empty collection of a chunk of size 24 by 24. -/
theorem load_objects_accepted_in_bounds_witness :
    (recording_objects.add ⟨⟨3, 5⟩, ⟨0, 0⟩, ⟨1, 1⟩⟩
      (recording_piece [] 0 false ⟨1, 1⟩)).mapgensize_x = recording_objects.mapgensize_x ∧
    (recording_objects.add ⟨⟨3, 5⟩, ⟨0, 0⟩, ⟨1, 1⟩⟩
      (recording_piece [] 0 false ⟨1, 1⟩)).mapgensize_y = recording_objects.mapgensize_y ∧
    ∃ added, (recording_objects.add ⟨⟨3, 5⟩, ⟨0, 0⟩, ⟨1, 1⟩⟩
        (recording_piece [] 0 false ⟨1, 1⟩)).objects = recording_objects.objects ++ added ∧
      ∀ obj ∈ added, checked_range obj.1.x (recording_objects.mapgensize_x : Int) ∧
        checked_range obj.1.y (recording_objects.mapgensize_y : Int) :=
  load_objects_accepted_in_bounds
    [(⟨⟨3, 5⟩, ⟨0, 0⟩, ⟨1, 1⟩⟩, .ok (recording_piece [] 0 false ⟨1, 1⟩))] recording_objects
    (recording_objects.add ⟨⟨3, 5⟩, ⟨0, 0⟩, ⟨1, 1⟩⟩ (recording_piece [] 0 false ⟨1, 1⟩)) rfl

/-- C4, counterexample: the descriptor with `x = [5, 2]` is accepted although
`x.val ≤ x.valmax` fails. -/
theorem load_objects_accepts_reversed_range :
    loaded_places (recording_objects.load_objects
        [(⟨⟨5, 2⟩, ⟨0, 0⟩, ⟨1, 1⟩⟩, .ok (recording_piece [] 0 false ⟨1, 1⟩))])
      = some [⟨⟨5, 2⟩, ⟨0, 0⟩, ⟨1, 1⟩⟩] ∧
    ¬ ((0 : Int) ≤ 5 ∧ (5 : Int) ≤ 2 ∧ (2 : Int) ≤ 24 - 1) := by
  decide

/-- C5 (amended): what `load_objects` does with the first descriptor of the array,
after the offset translation.  A descriptor whose `val` lies outside the grid
on either axis is dropped without an error; one whose `val` lies inside on
both axes and whose `valmax` exceeds `size - 1` on either axis raises a load
error; every other descriptor is accepted, once its piece has been built. -/
theorem load_objects_head_outcome (o : jmapgen_objects M R D)
    (jsi : jmapgen_place × Except String (jmapgen_piece M R D))
    (parray : List (jmapgen_place × Except String (jmapgen_piece M R D))) :
    ((jsi.1.offset o.offset_x o.offset_y).x.val < 0 ∨
      (jsi.1.offset o.offset_x o.offset_y).x.val > (o.mapgensize_x : Int) - 1 ∨
      (jsi.1.offset o.offset_x o.offset_y).y.val < 0 ∨
      (jsi.1.offset o.offset_x o.offset_y).y.val > (o.mapgensize_y : Int) - 1 →
        o.load_objects (jsi :: parray) = o.load_objects parray) ∧
    (0 ≤ (jsi.1.offset o.offset_x o.offset_y).x.val ∧
      (jsi.1.offset o.offset_x o.offset_y).x.val ≤ (o.mapgensize_x : Int) - 1 ∧
      0 ≤ (jsi.1.offset o.offset_x o.offset_y).y.val ∧
      (jsi.1.offset o.offset_x o.offset_y).y.val ≤ (o.mapgensize_y : Int) - 1 →
      ((jsi.1.offset o.offset_x o.offset_y).x.valmax > (o.mapgensize_x : Int) - 1 ∨
        (jsi.1.offset o.offset_x o.offset_y).y.valmax > (o.mapgensize_y : Int) - 1) →
        ∃ e, o.load_objects (jsi :: parray) = .error e) ∧
    (checked_range (jsi.1.offset o.offset_x o.offset_y).x (o.mapgensize_x : Int) ∧
      checked_range (jsi.1.offset o.offset_x o.offset_y).y (o.mapgensize_y : Int) →
      ∀ piece, jsi.2 = .ok piece →
        o.load_objects (jsi :: parray)
          = (o.add (jsi.1.offset o.offset_x o.offset_y) piece).load_objects parray) := by
  refine ⟨?_, ?_, ?_⟩
  · intro h
    simp only [jmapgen_objects.load_objects, jmapgen_objects.check_bounds, common_check_bounds]
    rw [if_pos h]
  · intro h1 h2
    have hn : ¬ ((jsi.1.offset o.offset_x o.offset_y).x.val < 0 ∨
      (jsi.1.offset o.offset_x o.offset_y).x.val > (o.mapgensize_x : Int) - 1 ∨
      (jsi.1.offset o.offset_x o.offset_y).y.val < 0 ∨
      (jsi.1.offset o.offset_x o.offset_y).y.val > (o.mapgensize_y : Int) - 1) := by omega
    simp only [jmapgen_objects.load_objects, jmapgen_objects.check_bounds, common_check_bounds]
    rw [if_neg hn]
    by_cases hx : (jsi.1.offset o.offset_x o.offset_y).x.valmax > (o.mapgensize_x : Int) - 1
    · rw [if_pos hx]; exact ⟨_, rfl⟩
    · rw [if_neg hx]
      have hy : (jsi.1.offset o.offset_x o.offset_y).y.valmax > (o.mapgensize_y : Int) - 1 := by
        rcases h2 with h2 | h2
        · exact absurd h2 hx
        · exact h2
      rw [if_pos hy]; exact ⟨_, rfl⟩
  · intro h piece hp
    obtain ⟨⟨a1, a2, a3⟩, b1, b2, b3⟩ := h
    have hn : ¬ ((jsi.1.offset o.offset_x o.offset_y).x.val < 0 ∨
      (jsi.1.offset o.offset_x o.offset_y).x.val > (o.mapgensize_x : Int) - 1 ∨
      (jsi.1.offset o.offset_x o.offset_y).y.val < 0 ∨
      (jsi.1.offset o.offset_x o.offset_y).y.val > (o.mapgensize_y : Int) - 1) := by omega
    simp only [jmapgen_objects.load_objects, jmapgen_objects.check_bounds, common_check_bounds]
    rw [if_neg hn, if_neg (by omega), if_neg (by omega)]
    simp only [hp]

/-- C5, witness: in a chunk of size 24 by 24 the descriptor with `x = [3, 30]`
raises a load error, and the one with `x = [3, 5]` is accepted. -/
theorem load_objects_head_outcome_witness :
    (∃ e, recording_objects.load_objects
      [(⟨⟨3, 30⟩, ⟨0, 0⟩, ⟨1, 1⟩⟩, .ok (recording_piece [] 0 false ⟨1, 1⟩))] = .error e) ∧
    recording_objects.load_objects
        [(⟨⟨3, 5⟩, ⟨0, 0⟩, ⟨1, 1⟩⟩, .ok (recording_piece [] 0 false ⟨1, 1⟩))]
      = (recording_objects.add
          ((⟨⟨3, 5⟩, ⟨0, 0⟩, ⟨1, 1⟩⟩ : jmapgen_place).offset recording_objects.offset_x
            recording_objects.offset_y)
          (recording_piece [] 0 false ⟨1, 1⟩)).load_objects [] :=
  ⟨(load_objects_head_outcome recording_objects
      (⟨⟨3, 30⟩, ⟨0, 0⟩, ⟨1, 1⟩⟩, .ok (recording_piece [] 0 false ⟨1, 1⟩)) []).2.1
      (by decide) (by decide),
    (load_objects_head_outcome recording_objects
      (⟨⟨3, 5⟩, ⟨0, 0⟩, ⟨1, 1⟩⟩, .ok (recording_piece [] 0 false ⟨1, 1⟩)) []).2.2
      ⟨⟨by decide, by decide, by decide⟩, ⟨by decide, by decide, by decide⟩⟩ _ rfl⟩

/-- C5, counterexample: in a top-level chunk of size 24 by 24 the descriptor with
`x = [-1, -1]` raises no error; it is dropped and loading goes on. -/
theorem load_objects_drops_out_of_grid :
    loaded_places (recording_objects.load_objects
        [(⟨⟨-1, -1⟩, ⟨0, 0⟩, ⟨1, 1⟩⟩, .ok (recording_piece [] 0 false ⟨1, 1⟩))]) = some [] ∧
    ¬ ((0 : Int) ≤ -1 ∧ (-1 : Int) ≤ -1 ∧ (-1 : Int) ≤ 24 - 1) := by
  decide

end LoadingTheorems

/-! ### The stages of `generate` -/

section StageTheorems

variable {M R D : Type}

/-- C6 (amended): `generate` applies its stages in this order for every chunk:
`fill_ter` over every cell, then the predecessor chunk with the inverse
rotations, then the grid format, the setmap operations in declaration order,
the stairs fallback, the objects collection and the final rotation.  The
order with the predecessor ahead of the fill gives the same result whenever
the chunk has no fill terrain or no predecessor. -/
theorem generate_stage_order (E : Env M R D) (f : mapgen_function_json M R D)
    (terrain_type : oter_t) (d : D) (st : M × R) :
    f.generate E terrain_type d st = generate_fill_first E f terrain_type d st ∧
    (f.fill_ter = E.t_null ∨ f.predecessor_mapgen = none →
      f.generate E terrain_type d st = generate_predecessor_first E f terrain_type d st) := by
  have h1 : f.generate E terrain_type d st = generate_fill_first E f terrain_type d st := by
    unfold mapgen_function_json.generate generate_fill_first generate_rotate generate_objects
      generate_setmaps generate_format generate_predecessor generate_fill
    cases hp : f.predecessor_mapgen <;> by_cases hr : terrain_type.is_rotatable = true <;>
      simp [hr]
  refine ⟨h1, ?_⟩
  intro h
  rw [h1]
  unfold generate_fill_first generate_predecessor_first
  rcases h with h | h
  · have hf : ∀ s : M × R, generate_fill E f s = s := by
      intro s; unfold generate_fill; rw [if_neg (by simpa using h)]
    rw [hf, hf]
  · have hp : ∀ s : M × R, generate_predecessor E f terrain_type d s = s := by
      intro s; unfold generate_predecessor; rw [h]
    rw [hp, hp]

/-- C6, counterexample: for a chunk with fill terrain 7 and predecessor `field`
the fill is drawn first and the predecessor is generated over it, which is
not what the order with the predecessor first produces. -/
theorem generate_fill_precedes_predecessor :
    ((recording_mapgen 7 (some "field") 0).generate (recording_env []) ⟨false, 0⟩ ()
        ([], ())).1
      = [map_event.fill 7, map_event.predecessor "field", map_event.rotate 0,
          map_event.stairs, map_event.rotate 0] ∧
    (generate_predecessor_first (recording_env []) (recording_mapgen 7 (some "field") 0)
        ⟨false, 0⟩ () ([], ())).1
      = [map_event.predecessor "field", map_event.rotate 0, map_event.fill 7,
          map_event.stairs, map_event.rotate 0] ∧
    (recording_mapgen 7 (some "field") 0).generate (recording_env []) ⟨false, 0⟩ () ([], ())
      ≠ generate_predecessor_first (recording_env []) (recording_mapgen 7 (some "field") 0)
          ⟨false, 0⟩ () ([], ()) := by
  decide

/-- C7: for every fixed chunk rotation `r` and intrinsic direction `d` in
`{0, 1, 2, 3}` the inverse turns `( -r + 4 ) % 4` and `( -d + 4 ) % 4` that
`generate` applies after the predecessor lie in `{0, 1, 2, 3}` and cancel the
later forward turns: each pair sums to a multiple of four, and so do all
four turns together.  On the recording surface the turns appear in exactly
this order: predecessor, the two inverse turns, the chunk's own content, the
two forward turns. -/
theorem inverse_turns_cancel (r d : Int) (hr : 0 ≤ r ∧ r ≤ 3) (hd : 0 ≤ d ∧ d ≤ 3) :
    (0 ≤ inverse_turns r ∧ inverse_turns r ≤ 3) ∧
    (0 ≤ inverse_turns d ∧ inverse_turns d ≤ 3) ∧
    Int.tmod (inverse_turns r + r) 4 = 0 ∧
    Int.tmod (inverse_turns d + d) 4 = 0 ∧
    Int.tmod (inverse_turns r + inverse_turns d + r + d) 4 = 0 ∧
    ((recording_mapgen 0 (some "field") r).generate (recording_env []) ⟨true, d⟩ ()
        ([], ())).1
      = [map_event.predecessor "field", map_event.rotate (inverse_turns r),
          map_event.rotate (inverse_turns d), map_event.stairs, map_event.rotate r,
          map_event.mapgen_rotate d] := by
  obtain ⟨hr0, hr3⟩ := hr
  obtain ⟨hd0, hd3⟩ := hd
  interval_cases r <;> interval_cases d <;> decide

/-- C7, witness: rotation 1 and direction 3. -/
theorem inverse_turns_cancel_witness :
    (0 ≤ inverse_turns 1 ∧ inverse_turns 1 ≤ 3) ∧
    (0 ≤ inverse_turns 3 ∧ inverse_turns 3 ≤ 3) ∧
    Int.tmod (inverse_turns 1 + 1) 4 = 0 ∧
    Int.tmod (inverse_turns 3 + 3) 4 = 0 ∧
    Int.tmod (inverse_turns 1 + inverse_turns 3 + 1 + 3) 4 = 0 ∧
    ((recording_mapgen 0 (some "field") 1).generate (recording_env []) ⟨true, 3⟩ ()
        ([], ())).1
      = [map_event.predecessor "field", map_event.rotate (inverse_turns 1),
          map_event.rotate (inverse_turns 3), map_event.stairs, map_event.rotate 1,
          map_event.mapgen_rotate 3] :=
  inverse_turns_cancel 1 3 (by decide) (by decide)

end StageTheorems

/-! ### Rotating a tile -/

section RotateTheorems

variable {S : Type}

lemma map_rotate_one_cw (prot : Int → point → point → point) (srot : Int → S → S)
    (empty : S) (g : submap_grid S)
    (hp : ∀ p ∈ grid_cells, prot 1 p ⟨2, 2⟩ = ⟨1 - p.y, p.x⟩) :
    map_rotate prot srot empty 1 g
      = { sm00 := srot 1 g.sm01, sm10 := srot 1 g.sm00, sm01 := srot 1 g.sm11,
          sm11 := srot 1 g.sm10 } := by
  have h00 := hp ⟨0, 0⟩ (by decide)
  have h10 := hp ⟨1, 0⟩ (by decide)
  have h01 := hp ⟨0, 1⟩ (by decide)
  have h11 := hp ⟨1, 1⟩ (by decide)
  simp only [sub_zero, sub_self] at h00 h10 h01 h11
  have ht : Int.tmod 1 4 = 1 := by decide
  simp [map_rotate, ht, rotate_step, swap_with_tmp, submap_grid.get, submap_grid.put, h00, h10,
    h01, h11, point.sub, Function.iterate_succ]

lemma map_rotate_one_ccw (prot : Int → point → point → point) (srot : Int → S → S)
    (empty : S) (g : submap_grid S)
    (hp : ∀ p ∈ grid_cells, prot 1 p ⟨2, 2⟩ = ⟨p.y, 1 - p.x⟩) :
    map_rotate prot srot empty 1 g
      = { sm00 := srot 1 g.sm10, sm10 := srot 1 g.sm11, sm01 := srot 1 g.sm00,
          sm11 := srot 1 g.sm01 } := by
  have h00 := hp ⟨0, 0⟩ (by decide)
  have h10 := hp ⟨1, 0⟩ (by decide)
  have h01 := hp ⟨0, 1⟩ (by decide)
  have h11 := hp ⟨1, 1⟩ (by decide)
  simp only [sub_zero, sub_self] at h00 h10 h01 h11
  have ht : Int.tmod 1 4 = 1 := by decide
  simp [map_rotate, ht, rotate_step, swap_with_tmp, submap_grid.get, submap_grid.put, h00, h10,
    h01, h11, point.sub, Function.iterate_succ]

/-- C8: `map::rotate( 4 )` leaves the submaps of a tile unchanged, and four
successive calls `map::rotate( 1 )` return every submap to its original
quadrant and orientation, given that `point::rotate( 1, {2, 2} )` is a quarter
turn of the grid (in either sense) and that four calls of
`submap::rotate( 1 )` restore a submap. -/
theorem map_rotate_round_trip (prot : Int → point → point → point) (srot : Int → S → S)
    (empty : S) (g : submap_grid S)
    (hp : (∀ p ∈ grid_cells, prot 1 p ⟨2, 2⟩ = ⟨1 - p.y, p.x⟩) ∨
      (∀ p ∈ grid_cells, prot 1 p ⟨2, 2⟩ = ⟨p.y, 1 - p.x⟩))
    (hs : ∀ s, srot 1 (srot 1 (srot 1 (srot 1 s))) = s) :
    map_rotate prot srot empty 4 g = g ∧
    map_rotate prot srot empty 1 (map_rotate prot srot empty 1
      (map_rotate prot srot empty 1 (map_rotate prot srot empty 1 g))) = g := by
  constructor
  · have ht : Int.tmod 4 4 = 0 := by decide
    simp [map_rotate, ht]
  · rcases hp with hp | hp
    · simp only [map_rotate_one_cw prot srot empty _ hp, hs]
    · simp only [map_rotate_one_ccw prot srot empty _ hp, hs]

/-- C8, witness: a tile whose four submaps are the vectors `(1, 0)`, `(2, 0)`,
`(3, 0)` and `(4, 0)`. -/
theorem map_rotate_round_trip_witness :
    map_rotate quarter_turns vector_turn (0, 0) 4 ⟨(1, 0), (2, 0), (3, 0), (4, 0)⟩
      = ⟨(1, 0), (2, 0), (3, 0), (4, 0)⟩ ∧
    map_rotate quarter_turns vector_turn (0, 0) 1 (map_rotate quarter_turns vector_turn (0, 0) 1
      (map_rotate quarter_turns vector_turn (0, 0) 1 (map_rotate quarter_turns vector_turn (0, 0) 1
        ⟨(1, 0), (2, 0), (3, 0), (4, 0)⟩))) = ⟨(1, 0), (2, 0), (3, 0), (4, 0)⟩ :=
  map_rotate_round_trip quarter_turns vector_turn (0, 0) ⟨(1, 0), (2, 0), (3, 0), (4, 0)⟩
    (Or.inl (by decide)) (fun s => by simp [vector_turn])

end RotateTheorems

/-! ### Nested chunks -/

section NestedTheorems

variable {M R D : Type}

lemma foldl_flatMap_map {α β γ : Type} (f : γ → β → γ) (g : α → List β) (l : List α) :
    ∀ init : γ, (l.flatMap g).foldl f init = l.foldl (fun acc a => (g a).foldl f acc) init := by
  induction l with
  | nil => intro init; rfl
  | cons a rest ih =>
    intro init
    simp only [List.flatMap_cons, List.foldl_append, List.foldl_cons]
    exact ih _

lemma formatted_set_eq_cells (E : Env M R D) (f : mapgen_function_json_base M R D)
    (ox oy : Int) (m : M) :
    f.formatted_set_incredibly_simple E m ox oy
      = (grid_cells_of f.mapgensize_x f.mapgensize_y).foldl
        (fun m c => write_ter_furn E (f.format.getD (c.2 * f.mapgensize_y + c.1)
          ⟨E.t_null, E.f_null⟩) ((c.1 : Int) + ox) ((c.2 : Int) + oy) m) m := by
  unfold mapgen_function_json_base.formatted_set_incredibly_simple grid_cells_of
  rw [foldl_flatMap_map]
  congr 1
  funext acc y
  rw [List.foldl_map]
  rfl

lemma apply_offset_eq_translated (E : Env M R D) (o : jmapgen_objects M R D) (ox oy : Int)
    (density : D) (miss : Option Nat) (st : M × R) :
    o.apply_offset E ox oy density miss st
      = o.objects.foldl
        (fun acc obj => jmapgen_objects.apply_obj E
          ⟨obj.1.x.translate ox, obj.1.y.translate oy, obj.1.repeat⟩ obj.2 density miss acc)
        st := by
  unfold jmapgen_objects.apply_offset
  by_cases h : ox = 0 ∧ oy = 0
  · rw [if_pos h]
    obtain ⟨hx, hy⟩ := h
    subst hx; subst hy
    unfold jmapgen_objects.apply
    congr 1
    funext acc obj
    simp [jmapgen_int.translate]
  · rw [if_neg h]
    congr 1
    funext acc obj
    simp [jmapgen_place.offset, jmapgen_int.translate]

lemma cells_written_rectangle (E : Env M R D) (s : jmapgen_setmap) (layer : setmap_layer)
    (a b : Int × Int) (st : M × R) :
    cells_written E s layer (rectangle_cells a b) st
      = (int_range a.1 b.1).foldl
          (fun acc tx => (int_range a.2 b.2).foldl
            (fun acc2 ty =>
              (put_cell E layer tx ty (s.val.get E acc2.2).1 acc2.1, (s.val.get E acc2.2).2)) acc)
          st := by
  unfold cells_written rectangle_cells
  rw [foldl_flatMap_map]
  congr 1
  funext acc tx
  rw [List.foldl_map]

/-- One pass of the switch of `jmapgen_setmap::apply` is the translated pass of
the specification. -/
lemma apply_op_eq_translated (E : Env M R D) (s : jmapgen_setmap) (ox oy : Int) (st : M × R) :
    s.apply_op E ox oy st = setmap_pass_translated E s ox oy st := by
  unfold jmapgen_setmap.apply_op setmap_pass_translated
  cases s.op <;>
    simp only [jmapgen_setmap.get_off, point_translated, cell_translated, corners_translated,
      cells_written_rectangle, put_cell] <;> rfl

/-- The method `jmapgen_setmap::apply` is the translated operation of the
specification. -/
lemma setmap_apply_eq_translated (E : Env M R D) (s : jmapgen_setmap) (ox oy : Int)
    (st : M × R) : s.apply E ox oy st = setmap_translated E s ox oy st := by
  have hop : jmapgen_setmap.apply_op E s ox oy = setmap_pass_translated E s ox oy :=
    funext (apply_op_eq_translated E s ox oy)
  unfold jmapgen_setmap.apply setmap_translated
  rw [hop]
  by_cases hc : s.chance = 1
  · simp [hc]
  · cases hr : (E.one_in s.chance st.2).1 with
    | true => simp [hc, hr]
    | false => simp [hc, hr]

/-- C9: `nest( dat, ox, oy, density )` applies the nested chunk translated by
`(ox, oy)`: grid cell `(x, y)` is written at map cell `(x + ox, y + oy)`,
every setmap coordinate is its drawn value plus the offset, every object is
applied with the ranges `[min + ox, max + ox]` and `[min + oy, max + oy]` and
an unchanged `repeat`; and no rotation takes part: the result is the same
whatever `rotate` and `mapgen_rotate` do.  The translated application
`nest_translated` is written from the specification, without the methods of
the code.  On the recording surface, at the offset `(10, 20)`, a terrain point
at `(1, 2)` is set at `(11, 22)`, a square of traps from `(0, 0)` to `(1, 0)`
covers `(10, 20)` and `(11, 20)`, and an object with the ranges `[3, 4]` and
`[5, 5]` is applied with `[13, 14]` and `[25, 25]`. -/
theorem nest_is_translation (E : Env M R D) (f : mapgen_function_json_base M R D)
    (ox oy : Int) (density : D) (st : M × R) :
    mapgen_function_json_nested.nest E f ox oy density st = nest_translated E f ox oy density st ∧
    (∀ (rot : Int → M → M) (mrot : oter_t → Bool → M → M),
      mapgen_function_json_nested.nest { E with rotate := rot, mapgen_rotate := mrot } f ox oy
        density st = mapgen_function_json_nested.nest E f ox oy density st) ∧
    mapgen_function_json_nested.nest (recording_env [])
        (recording_chunk [point_setmap .JMAPGEN_SETMAP_TER 1 2 7,
            { point_setmap .JMAPGEN_SETMAP_SQUARE_TRAP 0 0 9 with x2 := ⟨1, 1⟩, y2 := ⟨0, 0⟩ }]
          [(⟨⟨3, 4⟩, ⟨5, 5⟩, ⟨1, 1⟩⟩, recording_piece [] 0 false ⟨1, 1⟩)]) 10 20 () ([], ())
      = ([map_event.ter_set 11 22 7, map_event.trap_set 10 20 9, map_event.trap_set 11 20 9,
          map_event.piece 0 ⟨13, 14⟩ ⟨25, 25⟩], ()) := by
  refine ⟨?_, ?_, by decide⟩
  · unfold mapgen_function_json_nested.nest nest_translated apply_setmap_points
    simp only [apply_offset_eq_translated, formatted_set_eq_cells]
    have h1 : (fun (acc : M × R) (elem : jmapgen_setmap) => elem.apply E ox oy acc)
        = (fun acc elem => setmap_translated E elem ox oy acc) := by
      funext acc elem
      exact setmap_apply_eq_translated E elem ox oy acc
    rw [h1]
    rfl
  · intro rot mrot
    rfl

end NestedTheorems

/-! ### Palettes -/

section PaletteTheorems

variable {K V P : Type} [LinearOrder K]

lemma std_map_find_cons (e : K × V) (m : List (K × V)) (c : K) :
    std_map_find (e :: m) c = if e.1 = c then some e.2 else std_map_find m c := by
  unfold std_map_find
  rw [List.find?_cons]
  by_cases h : e.1 = c <;> simp [h]

lemma std_map_find_assign (m : List (K × V)) (k : K) (v : V) (c : K) :
    std_map_find (std_map_assign m k v) c = if k = c then some v else std_map_find m c := by
  induction m with
  | nil => simp [std_map_assign, std_map_find_cons, std_map_find]
  | cons e rest ih =>
    obtain ⟨k', v'⟩ := e
    simp only [std_map_assign]
    by_cases h1 : k < k'
    · rw [if_pos h1, std_map_find_cons]
    · rw [if_neg h1]
      by_cases h2 : k = k'
      · rw [if_pos h2, std_map_find_cons, std_map_find_cons]
        subst h2
        by_cases h3 : k = c <;> simp [h3]
      · rw [if_neg h2, std_map_find_cons, std_map_find_cons, ih]
        by_cases h3 : k' = c
        · have : k ≠ c := by rw [← h3]; exact h2
          simp [h3, this]
        · simp [h3]

lemma std_map_find_none_of_lt (m : List (K × V)) (k : K)
    (h : ∀ a ∈ m.map Prod.fst, k < a) : std_map_find m k = none := by
  induction m with
  | nil => simp [std_map_find]
  | cons e rest ih =>
    rw [std_map_find_cons]
    have h1 : k < e.1 := h e.1 (by simp)
    rw [if_neg (ne_of_gt h1)]
    exact ih (fun a ha => h a (by simp at ha ⊢; exact Or.inr ha))

lemma std_map_find_merge (rh : List (K × V)) (hrh : std_map_ok rh) :
    ∀ (lhs : List (K × V)) (c : K),
      std_map_find (std_map_merge lhs rh) c
        = override_entry (std_map_find lhs c) (std_map_find rh c) := by
  induction rh with
  | nil => intro lhs c; simp [std_map_merge, std_map_find, override_entry]
  | cons e rest ih =>
    intro lhs c
    unfold std_map_ok at hrh
    rw [List.map_cons, List.pairwise_cons] at hrh
    have ih' := ih hrh.2 (std_map_assign lhs e.1 e.2) c
    unfold std_map_merge at ih' ⊢
    rw [List.foldl_cons, ih', std_map_find_assign, std_map_find_cons]
    by_cases h : e.1 = c
    · subst h
      rw [if_pos rfl, if_pos rfl, std_map_find_none_of_lt rest e.1 hrh.1]
      rfl
    · rw [if_neg h, if_neg h]

lemma std_map_assign_mem (m : List (K × V)) (k : K) (v : V) (a : K)
    (h : a ∈ (std_map_assign m k v).map Prod.fst) : a = k ∨ a ∈ m.map Prod.fst := by
  induction m with
  | nil => simp [std_map_assign] at h; exact Or.inl h
  | cons e rest ih =>
    obtain ⟨k', v'⟩ := e
    simp only [std_map_assign] at h
    by_cases h1 : k < k'
    · rw [if_pos h1] at h
      simp at h ⊢
      tauto
    · rw [if_neg h1] at h
      by_cases h2 : k = k'
      · rw [if_pos h2] at h
        simp at h ⊢
        tauto
      · rw [if_neg h2] at h
        simp only [List.map_cons, List.mem_cons] at h ⊢
        rcases h with h | h
        · exact Or.inr (Or.inl h)
        · rcases ih h with h3 | h3
          · exact Or.inl h3
          · exact Or.inr (Or.inr h3)

lemma std_map_assign_ok (m : List (K × V)) (k : K) (v : V) (hm : std_map_ok m) :
    std_map_ok (std_map_assign m k v) := by
  induction m with
  | nil => simp [std_map_assign, std_map_ok]
  | cons e rest ih =>
    obtain ⟨k', v'⟩ := e
    unfold std_map_ok at hm ih ⊢
    rw [List.map_cons, List.pairwise_cons] at hm
    simp only [std_map_assign]
    by_cases h1 : k < k'
    · rw [if_pos h1]
      simp only [List.map_cons, List.pairwise_cons]
      refine ⟨?_, hm.1, hm.2⟩
      intro a ha
      rcases List.mem_cons.mp ha with h | h
      · rw [h]; exact h1
      · exact lt_trans h1 (hm.1 a h)
    · rw [if_neg h1]
      by_cases h2 : k = k'
      · rw [if_pos h2]
        simp only [List.map_cons, List.pairwise_cons]
        subst h2
        exact hm
      · rw [if_neg h2]
        simp only [List.map_cons, List.pairwise_cons]
        refine ⟨?_, ih hm.2⟩
        intro a ha
        rcases std_map_assign_mem rest k v a ha with h | h
        · rw [h]
          exact lt_of_le_of_ne (not_lt.mp h1) (Ne.symm h2)
        · exact hm.1 a h

lemma std_map_merge_ok (rh : List (K × V)) :
    ∀ lhs : List (K × V), std_map_ok lhs → std_map_ok (std_map_merge lhs rh) := by
  induction rh with
  | nil => intro lhs h; exact h
  | cons e rest ih =>
    intro lhs h
    unfold std_map_merge
    rw [List.foldl_cons]
    exact ih _ (std_map_assign_ok lhs e.1 e.2 h)

lemma std_map_assign_self (m : List (K × V)) (k : K) (v : V) (hm : std_map_ok m)
    (hf : std_map_find m k = some v) : std_map_assign m k v = m := by
  induction m with
  | nil => simp [std_map_find] at hf
  | cons e rest ih =>
    obtain ⟨k', v'⟩ := e
    unfold std_map_ok at hm ih
    rw [List.map_cons, List.pairwise_cons] at hm
    rw [std_map_find_cons] at hf
    simp only [std_map_assign]
    by_cases h2 : k' = k
    · simp only [h2, if_true] at hf
      rw [if_neg (by rw [h2]; exact lt_irrefl k), if_pos h2.symm]
      simp only [Option.some.injEq] at hf
      rw [h2, hf]
    · simp only [h2, if_false] at hf
      have hk : ¬ k < k' := by
        intro hlt
        have := std_map_find_none_of_lt rest k (fun a ha => lt_trans hlt (hm.1 a ha))
        rw [this] at hf
        exact absurd hf (by simp)
      rw [if_neg hk, if_neg (Ne.symm h2), ih hm.2 hf]

lemma std_map_merge_self (rh : List (K × V)) :
    ∀ m : List (K × V), std_map_ok m → (∀ e ∈ rh, std_map_find m e.1 = some e.2) →
      std_map_merge m rh = m := by
  induction rh with
  | nil => intro m _ _; rfl
  | cons e rest ih =>
    intro m hm h
    unfold std_map_merge
    rw [List.foldl_cons, std_map_assign_self m e.1 e.2 hm (h e (List.mem_cons_self _ _))]
    exact ih m hm (fun e' he' => h e' (List.mem_cons_of_mem _ he'))

lemma std_map_find_mem (rh : List (K × V)) (hrh : std_map_ok rh) :
    ∀ e ∈ rh, std_map_find rh e.1 = some e.2 := by
  induction rh with
  | nil => intro e he; simp at he
  | cons a rest ih =>
    intro e he
    unfold std_map_ok at hrh ih
    rw [List.map_cons, List.pairwise_cons] at hrh
    rw [std_map_find_cons]
    rcases List.mem_cons.mp he with h | h
    · subst h; rw [if_pos rfl]
    · have hlt : a.1 < e.1 := hrh.1 e.1 (List.mem_map_of_mem _ h)
      rw [if_neg (ne_of_lt hlt)]
      exact ih hrh.2 e h

lemma std_map_merge_twice (lhs rh : List (K × V)) (hl : std_map_ok lhs) (hr : std_map_ok rh) :
    std_map_merge (std_map_merge lhs rh) rh = std_map_merge lhs rh := by
  apply std_map_merge_self rh _ (std_map_merge_ok rh lhs hl)
  intro e he
  rw [std_map_find_merge rh hr, std_map_find_mem rh hr e he]
  rfl

end PaletteTheorems

section PaletteClaim

variable {P : Type}

/-- C10: after palette `A` merges palette `B` (`mapgen_palette::add`), each of the
three maps holds, for every character `c`, the entry of `B` when `B` defines
`c` and the previous entry of `A` otherwise; merging `B` a second time
changes nothing; and the maps stay well-formed. -/
theorem palette_add_overrides (A B : mapgen_palette P) (hA : A.ok) (hB : B.ok) :
    (∀ c, std_map_find (A.add B).format_terrain c
      = override_entry (std_map_find A.format_terrain c) (std_map_find B.format_terrain c)) ∧
    (∀ c, std_map_find (A.add B).format_furniture c
      = override_entry (std_map_find A.format_furniture c)
          (std_map_find B.format_furniture c)) ∧
    (∀ c, std_map_find (A.add B).format_placings c
      = override_entry (std_map_find A.format_placings c)
          (std_map_find B.format_placings c)) ∧
    (A.add B).add B = A.add B ∧ (A.add B).ok := by
  obtain ⟨a1, a2, a3⟩ := hA
  obtain ⟨b1, b2, b3⟩ := hB
  refine ⟨fun c => std_map_find_merge _ b1 _ c, fun c => std_map_find_merge _ b2 _ c,
    fun c => std_map_find_merge _ b3 _ c, ?_, ?_⟩
  · simp only [mapgen_palette.add, std_map_merge_twice _ _ a1 b1, std_map_merge_twice _ _ a2 b2,
      std_map_merge_twice _ _ a3 b3]
  · exact ⟨std_map_merge_ok _ _ a1, std_map_merge_ok _ _ a2, std_map_merge_ok _ _ a3⟩

/-- C10, witness: a palette defining `a` and `b` merges one that redefines `b`. -/
theorem palette_add_overrides_witness :
    (∀ c, std_map_find (palette_included.add palette_overriding).format_terrain c
      = override_entry (std_map_find palette_included.format_terrain c)
          (std_map_find palette_overriding.format_terrain c)) ∧
    (∀ c, std_map_find (palette_included.add palette_overriding).format_furniture c
      = override_entry (std_map_find palette_included.format_furniture c)
          (std_map_find palette_overriding.format_furniture c)) ∧
    (∀ c, std_map_find (palette_included.add palette_overriding).format_placings c
      = override_entry (std_map_find palette_included.format_placings c)
          (std_map_find palette_overriding.format_placings c)) ∧
    (palette_included.add palette_overriding).add palette_overriding
      = palette_included.add palette_overriding ∧
    (palette_included.add palette_overriding).ok :=
  palette_add_overrides palette_included palette_overriding
    (by unfold mapgen_palette.ok std_map_ok; decide)
    (by unfold mapgen_palette.ok std_map_ok; decide)

end PaletteClaim


/-! ### Setting up a chunk: grid characters without a terrain -/

section SetupTheorems

variable {M R D : Type}

lemma setup_rows_cell_sizes (qualifies : Bool) (palette : mapgen_palette (jmapgen_piece M R D))
    (t_null f_null : Int) (x_offset y_offset c i : Nat) (tmpkey : Char)
    (f f1 : mapgen_function_json_base M R D)
    (h : setup_rows_cell qualifies palette t_null f_null x_offset y_offset c i tmpkey f = .ok f1) :
    f1.mapgensize_x = f.mapgensize_x ∧ f1.mapgensize_y = f.mapgensize_y := by
  unfold setup_rows_cell at h
  cases ht : std_map_find palette.format_terrain tmpkey <;>
    cases hf : std_map_find palette.format_furniture tmpkey <;>
    cases hp : std_map_find palette.format_placings tmpkey <;>
    cases qualifies <;>
    simp [ht, hf, hp] at h <;>
    (subst h; exact ⟨rfl, rfl⟩)

lemma setup_rows_cell_qualified (palette : mapgen_palette (jmapgen_piece M R D))
    (t_null f_null : Int) (x_offset y_offset c i : Nat) (tmpkey : Char)
    (f : mapgen_function_json_base M R D) :
    ∃ f1, setup_rows_cell true palette t_null f_null x_offset y_offset c i tmpkey f = .ok f1 := by
  unfold setup_rows_cell
  cases ht : std_map_find palette.format_terrain tmpkey <;>
    cases hf : std_map_find palette.format_furniture tmpkey <;>
    cases hp : std_map_find palette.format_placings tmpkey <;>
    simp

lemma setup_rows_cell_unmapped (palette : mapgen_palette (jmapgen_piece M R D))
    (t_null f_null : Int) (x_offset y_offset c i : Nat) (tmpkey : Char)
    (f : mapgen_function_json_base M R D)
    (h : std_map_find palette.format_terrain tmpkey = none) :
    threw (setup_rows_cell false palette t_null f_null x_offset y_offset c i tmpkey f) = true := by
  unfold setup_rows_cell
  simp [h, threw]

lemma setup_rows_columns_sizes (qualifies : Bool)
    (palette : mapgen_palette (jmapgen_piece M R D)) (t_null f_null : Int)
    (x_offset y_offset c : Nat) (tmpval : List Char) (cols : List Nat) :
    ∀ (f f1 : mapgen_function_json_base M R D),
      setup_rows_columns qualifies palette t_null f_null x_offset y_offset c tmpval cols f
        = .ok f1 →
      f1.mapgensize_x = f.mapgensize_x ∧ f1.mapgensize_y = f.mapgensize_y := by
  induction cols with
  | nil =>
    intro f f1 h
    simp only [setup_rows_columns, Except.ok.injEq] at h
    subst h; exact ⟨rfl, rfl⟩
  | cons i rest ih =>
    intro f f1 h
    simp only [setup_rows_columns] at h
    cases hc : setup_rows_cell qualifies palette t_null f_null x_offset y_offset c i
        (tmpval.getD i ' ') f with
    | error e => rw [hc] at h; simp at h
    | ok f2 =>
      rw [hc] at h
      have h1 := setup_rows_cell_sizes _ _ _ _ _ _ _ _ _ _ _ hc
      have h2 := ih f2 f1 h
      exact ⟨h2.1.trans h1.1, h2.2.trans h1.2⟩

lemma setup_rows_columns_qualified (palette : mapgen_palette (jmapgen_piece M R D))
    (t_null f_null : Int) (x_offset y_offset c : Nat) (tmpval : List Char) (cols : List Nat) :
    ∀ f : mapgen_function_json_base M R D,
      ∃ f1, setup_rows_columns true palette t_null f_null x_offset y_offset c tmpval cols f
        = .ok f1 := by
  induction cols with
  | nil => intro f; exact ⟨f, rfl⟩
  | cons i rest ih =>
    intro f
    obtain ⟨f2, hc⟩ := setup_rows_cell_qualified palette t_null f_null x_offset y_offset c i
      (tmpval.getD i ' ') f
    obtain ⟨f1, h1⟩ := ih f2
    exact ⟨f1, by simp only [setup_rows_columns, hc, h1]⟩

lemma setup_rows_columns_unmapped (palette : mapgen_palette (jmapgen_piece M R D))
    (t_null f_null : Int) (x_offset y_offset c : Nat) (tmpval : List Char) (cols : List Nat)
    (i0 : Nat) (hi : i0 ∈ cols)
    (hu : std_map_find palette.format_terrain (tmpval.getD i0 ' ') = none) :
    ∀ f : mapgen_function_json_base M R D,
      threw (setup_rows_columns false palette t_null f_null x_offset y_offset c tmpval cols f)
        = true := by
  induction cols with
  | nil => simp at hi
  | cons i rest ih =>
    intro f
    simp only [setup_rows_columns]
    cases hc : setup_rows_cell false palette t_null f_null x_offset y_offset c i
        (tmpval.getD i ' ') f with
    | error e => rfl
    | ok f2 =>
      rcases List.mem_cons.mp hi with h | h
      · subst h
        have := setup_rows_cell_unmapped palette t_null f_null x_offset y_offset c i0
          (tmpval.getD i0 ' ') f hu
        rw [hc] at this
        simp [threw] at this
      · exact ih h f2

lemma setup_rows_lines_qualified (palette : mapgen_palette (jmapgen_piece M R D))
    (t_null f_null : Int) (x_offset y_offset : Nat) (parray : List (List Char))
    (rows : List Nat) (X : Nat)
    (hcols : ∀ c ∈ rows, X + x_offset ≤ (parray.getD c []).length) :
    ∀ f : mapgen_function_json_base M R D, f.mapgensize_x = X →
      ∃ f1, setup_rows_lines true palette t_null f_null x_offset y_offset parray rows f
        = .ok f1 := by
  induction rows with
  | nil => intro f _; exact ⟨f, rfl⟩
  | cons c rest ih =>
    intro f hX
    have hlen : ¬ (parray.getD c []).length < f.mapgensize_x + x_offset := by
      have := hcols c (List.mem_cons_self _ _)
      omega
    obtain ⟨f2, h2⟩ := setup_rows_columns_qualified palette t_null f_null x_offset y_offset c
      (parray.getD c []) (List.range' x_offset f.mapgensize_x) f
    have hs := setup_rows_columns_sizes _ _ _ _ _ _ _ _ _ _ _ h2
    obtain ⟨f1, h1⟩ := ih (fun c' hc' => hcols c' (List.mem_cons_of_mem _ hc')) f2
      (hs.1.trans hX)
    exact ⟨f1, by simp only [setup_rows_lines, if_neg hlen, h2, h1]⟩

lemma setup_rows_lines_unmapped (palette : mapgen_palette (jmapgen_piece M R D))
    (t_null f_null : Int) (x_offset y_offset : Nat) (parray : List (List Char))
    (rows : List Nat) (X c0 i0 : Nat) (hc0 : c0 ∈ rows) (hi0 : i0 ∈ List.range' x_offset X)
    (hu : std_map_find palette.format_terrain ((parray.getD c0 []).getD i0 ' ') = none) :
    ∀ f : mapgen_function_json_base M R D, f.mapgensize_x = X →
      threw (setup_rows_lines false palette t_null f_null x_offset y_offset parray rows f)
        = true := by
  induction rows with
  | nil => simp at hc0
  | cons c rest ih =>
    intro f hX
    simp only [setup_rows_lines]
    split
    · rfl
    · cases h2 : setup_rows_columns false palette t_null f_null x_offset y_offset c
          (parray.getD c []) (List.range' x_offset f.mapgensize_x) f with
      | error e => rfl
      | ok f2 =>
        have hs := setup_rows_columns_sizes _ _ _ _ _ _ _ _ _ _ _ h2
        rcases List.mem_cons.mp hc0 with h | h
        · subst h
          have := setup_rows_columns_unmapped palette t_null f_null x_offset y_offset c0
            (parray.getD c0 []) (List.range' x_offset f.mapgensize_x) i0 (by rw [hX]; exact hi0)
            hu f
          rw [h2] at this
          simp [threw] at this
        · exact ih h f2 (hs.1.trans hX)

end SetupTheorems

section SetupClaim

variable {M R D : Type}

/-- C11 (amended): for a top-level chunk whose `rows` grid has at least the
required number of rows and columns.  If `fill_ter` (or a predecessor) is set
and the palette maps at least one character to a terrain, the grid is loaded
whatever its characters are, and setup fails exactly when the remaining part
of the body fails.  If neither `fill_ter` nor a predecessor is set, setup
fails whenever some character inside the chunk's window has no terrain
mapping. -/
theorem setup_unmapped_characters (t_null f_null : Int) (x_offset y_offset : Nat)
    (jo : mapgen_document M R D) (f : mapgen_function_json M R D)
    (parray : List (List Char)) (palette : mapgen_palette (jmapgen_piece M R D))
    (hms : jo.mapgensize = none) (hrows : jo.rows = some parray)
    (hpal : jo.palette = .ok palette)
    (hlen : f.mapgensize_y + y_offset ≤ parray.length)
    (hcols : ∀ c ∈ List.range' y_offset f.mapgensize_y,
      f.mapgensize_x + x_offset ≤ (parray.getD c []).length) :
    (((∃ t, jo.fill_ter = some t ∧ t ≠ t_null) ∨ jo.predecessor_mapgen ≠ none) →
      palette.format_terrain ≠ [] →
      ∃ b, setup_rows_lines true palette t_null f_null x_offset y_offset parray
            (List.range' y_offset f.mapgensize_y)
            { f.tomapgen_function_json_base with
              format := vector_resize f.format (f.mapgensize_x * f.mapgensize_y)
                ⟨t_null, f_null⟩ } = .ok b ∧
        threw (f.setup t_null f_null x_offset y_offset jo)
          = threw (jo.remainder { b with do_format := true })) ∧
    (jo.fill_ter = none → f.fill_ter = t_null → jo.predecessor_mapgen = none →
      (∃ c ∈ List.range' y_offset f.mapgensize_y, ∃ i ∈ List.range' x_offset f.mapgensize_x,
        std_map_find palette.format_terrain ((parray.getD c []).getD i ' ') = none) →
      threw (f.setup t_null f_null x_offset y_offset jo) = true) := by
  constructor
  · intro hq hne
    have hqual : (decide ((match jo.fill_ter with
        | some t => t
        | none => f.fill_ter) ≠ t_null) || jo.predecessor_mapgen.isSome) = true := by
      rcases hq with ⟨t, ht, hne'⟩ | hp
      · simp [ht, hne']
      · cases hpm : jo.predecessor_mapgen with
        | none => exact absurd hpm hp
        | some v => simp
    obtain ⟨b, hb⟩ := setup_rows_lines_qualified palette t_null f_null x_offset y_offset parray
      (List.range' y_offset f.mapgensize_y) f.mapgensize_x hcols
      { f.tomapgen_function_json_base with
        format := vector_resize f.format (f.mapgensize_x * f.mapgensize_y) ⟨t_null, f_null⟩ }
      rfl
    refine ⟨b, hb, ?_⟩
    have hemp : palette.format_terrain.isEmpty = false := by
      cases hft : palette.format_terrain with
      | nil => exact absurd hft hne
      | cons a l => rfl
    simp only [mapgen_function_json.setup, mapgen_function_json.setup_internal, hms,
      Option.isSome_none, Bool.false_eq_true, if_false, hqual,
      mapgen_function_json_base.setup_common_body, hrows, hpal, hemp,
      if_neg (Nat.not_lt.mpr hlen), hb]
    cases hrem : jo.remainder { b with do_format := true } <;> simp [threw]
  · intro hfill hf hpred hex
    obtain ⟨c, hc, i, hi, hu⟩ := hex
    have hqual : (decide ((match jo.fill_ter with
        | some t => t
        | none => f.fill_ter) ≠ t_null) || jo.predecessor_mapgen.isSome) = false := by
      simp [hfill, hf, hpred]
    have hthrow := setup_rows_lines_unmapped palette t_null f_null x_offset y_offset parray
      (List.range' y_offset f.mapgensize_y) f.mapgensize_x c i hc hi hu
      { f.tomapgen_function_json_base with
        format := vector_resize f.format (f.mapgensize_x * f.mapgensize_y) ⟨t_null, f_null⟩ }
      rfl
    simp only [mapgen_function_json.setup, mapgen_function_json.setup_internal, hms,
      Option.isSome_none, Bool.false_eq_true, if_false, hqual,
      mapgen_function_json_base.setup_common_body, hrows, hpal,
      if_neg (Nat.not_lt.mpr hlen)]
    cases hemp : palette.format_terrain.isEmpty
    · simp only [Bool.false_eq_true, if_false]
      cases hl : setup_rows_lines false palette t_null f_null x_offset y_offset parray
          (List.range' y_offset f.mapgensize_y)
          { f.tomapgen_function_json_base with
            format := vector_resize f.format (f.mapgensize_x * f.mapgensize_y)
              ⟨t_null, f_null⟩ } with
      | error e => rfl
      | ok b =>
        rw [hl] at hthrow
        simp [threw] at hthrow
    · rfl

/-- C11, witness: a grid whose first character `b` has no terrain, in a chunk with
fill terrain 7 and in one without. -/
theorem setup_unmapped_characters_witness :
    (∃ b, setup_rows_lines true
          ({ format_terrain := [('a', 1)], format_furniture := [], format_placings := [] } :
            mapgen_palette (jmapgen_piece (List map_event) Unit Unit))
          0 0 0 0 (recording_rows 'b') (List.range' 0 24)
          { (recording_mapgen 0 none 0).tomapgen_function_json_base with
            format := vector_resize (recording_mapgen 0 none 0).format (24 * 24) ⟨0, 0⟩ }
          = .ok b ∧
        threw ((recording_mapgen 0 none 0).setup 0 0 0 0
          (recording_document (some 7) (some (recording_rows 'b')) [('a', 1)]))
          = threw ((recording_document (some 7) (some (recording_rows 'b')) [('a', 1)]).remainder
              { b with do_format := true })) ∧
    threw ((recording_mapgen 0 none 0).setup 0 0 0 0
      (recording_document none (some (recording_rows 'b')) [('a', 1)])) = true :=
  ⟨(setup_unmapped_characters 0 0 0 0
      (recording_document (some 7) (some (recording_rows 'b')) [('a', 1)])
      (recording_mapgen 0 none 0) (recording_rows 'b') _ rfl rfl rfl (by decide)
      (by decide)).1 (Or.inl ⟨7, rfl, by decide⟩) (by simp),
    (setup_unmapped_characters 0 0 0 0
      (recording_document none (some (recording_rows 'b')) [('a', 1)])
      (recording_mapgen 0 none 0) (recording_rows 'b') _ rfl rfl rfl (by decide)
      (by decide)).2 rfl rfl rfl ⟨0, by decide, 0, by decide, by decide⟩⟩

/-- C11, counterexample: a top-level chunk with fill terrain 7 and a full grid
whose palette maps no character to a terrain fails to load with
`format: no terrain map`, although nothing after the grid can fail. -/
theorem setup_fill_with_empty_terrain_map_fails :
    (recording_document (some 7) (some (recording_rows 'a')) []).fill_ter = some 7 ∧
    (7 : Int) ≠ (recording_env []).t_null ∧
    (recording_rows 'a').length = 24 ∧
    (∀ row ∈ recording_rows 'a', row.length = 24) ∧
    thrown_message ((recording_mapgen 0 none 0).setup 0 0 0 0
      (recording_document (some 7) (some (recording_rows 'a')) []))
      = some "format: no terrain map" := by
  decide

end SetupClaim

/-- C12: the code at the failing input.  `mapgen_function_json_nested::setup_internal`
accepts the size `[-3, -3]`: the test `mapgensize_x == 0 || mapgensize_x !=
mapgensize_y` lets a pair of equal negative numbers through, and the members
end up as the value of `-3` converted to `size_t`.  A missing size, the size
`[0, 0]` and the size `[5, 4]` are load errors. -/
theorem nested_setup_internal_negative_size :
    mapgen_function_json_nested.setup_internal (some [-3, -3])
      = .ok (true, 18446744073709551613, 18446744073709551613) ∧
    thrown_message (mapgen_function_json_nested.setup_internal (some [0, 0]))
      = some "mapgensize must be an array of two identical, positive numbers" ∧
    thrown_message (mapgen_function_json_nested.setup_internal (some [5, 4]))
      = some "mapgensize must be an array of two identical, positive numbers" ∧
    thrown_message (mapgen_function_json_nested.setup_internal none)
      = some "Nested mapgen must have mapgensize set" := by
  refine ⟨by rfl, by rfl, by rfl, by rfl⟩

/-! ### Registering chunks -/

lemma mapgen_registry.variants_at_key (reg : mapgen_registry) (key k : String) :
    (reg.at_key key).variants k = reg.variants k := by
  unfold mapgen_registry.at_key
  split
  · rfl
  · rename_i h
    unfold mapgen_registry.variants
    simp only [std_map_find_assign]
    by_cases hk : key = k
    · subst hk
      cases hf : std_map_find reg.oter_mapgen key with
      | none => simp
      | some v => rw [hf] at h; simp at h
    · rw [if_neg hk]

lemma mapgen_registry.functions_at_key (reg : mapgen_registry) (key : String) :
    (reg.at_key key).functions = reg.functions := by
  unfold mapgen_registry.at_key
  split <;> rfl

lemma mapgen_registry.at_key_of_variant (reg : mapgen_registry) (key : String) (i ptr : Nat)
    (h : (reg.variants key).get? i = some ptr) : reg.at_key key = reg := by
  unfold mapgen_registry.at_key
  unfold mapgen_registry.variants at h
  cases hf : std_map_find reg.oter_mapgen key with
  | none => rw [hf] at h; simp at h
  | some v => simp

lemma mapgen_registry.zero_weight_variants (reg : mapgen_registry) (key : String) (idx : Int)
    (k : String) : (reg.zero_weight key idx).variants k = reg.variants k := by
  unfold mapgen_registry.zero_weight
  split
  · exact reg.variants_at_key key k
  · split
    · exact reg.variants_at_key key k
    · split
      · exact reg.variants_at_key key k
      · exact reg.variants_at_key key k

lemma mapgen_registry.zero_weight_length (reg : mapgen_registry) (key : String) (idx : Int) :
    (reg.zero_weight key idx).functions.length = reg.functions.length := by
  unfold mapgen_registry.zero_weight
  split
  · rw [reg.functions_at_key]
  · split
    · rw [reg.functions_at_key]
    · split
      · rw [reg.functions_at_key]
      · simp

/-- C13 (amended): `load_mapgen_function` called on a document with `weight <= 0`
or `disabled = true`.  Without a `method` string the call throws.  With one
it returns no chunk and adds no variant to any key and no object to the
registry; unless `default_idx` is not -1, the method is `builtin` and the
document's name equals the key, the registry is left as it was; and in that
case it sets the weight of the object that variant `default_idx` of the key
points to to 0 and changes nothing else. -/
theorem load_mapgen_function_disabled (cfunctions : String → Bool) (reg : mapgen_registry)
    (jio : mapgen_entry) (id_base : String) (default_idx : Int) (x_offset y_offset : Int)
    (hd : jio.weight.getD 1000 ≤ 0 ∨ jio.disabled.getD false = true) :
    (jio.method = none →
      threw (load_mapgen_function cfunctions reg jio id_base default_idx x_offset y_offset)
        = true) ∧
    (∀ mgtype, jio.method = some mgtype →
      ∃ reg', load_mapgen_function cfunctions reg jio id_base default_idx x_offset y_offset
          = .ok (none, reg') ∧
        (∀ key, reg'.variants key = reg.variants key) ∧
        reg'.functions.length = reg.functions.length ∧
        (¬ (default_idx ≠ -1 ∧ mgtype = "builtin" ∧ jio.name = some id_base) → reg' = reg) ∧
        (default_idx ≠ -1 → mgtype = "builtin" → jio.name = some id_base →
          ∀ ptr fn, 0 ≤ default_idx →
            (reg.variants id_base).get? default_idx.toNat = some ptr →
            reg.functions.get? ptr = some fn →
            reg'.oter_mapgen = reg.oter_mapgen ∧
            reg'.functions = reg.functions.set ptr { fn with weight := 0 })) := by
  constructor
  · intro hm
    simp only [load_mapgen_function, if_pos hd, hm, threw]
  · intro mgtype hm
    by_cases hc : default_idx ≠ -1 ∧ mgtype = "builtin"
    · cases hn : jio.name with
      | none =>
        refine ⟨reg, ?_, fun _ => rfl, rfl, fun _ => rfl, ?_⟩
        · simp only [load_mapgen_function, if_pos hd, hm, if_pos hc, hn]
        · intro _ _ h; simp at h
      | some mgname =>
        by_cases he : mgname = id_base
        · subst he
          refine ⟨reg.zero_weight mgname default_idx, ?_, ?_, ?_, ?_, ?_⟩
          · simp only [load_mapgen_function, if_pos hd, hm, if_pos hc, hn, if_true]
          · exact fun key => reg.zero_weight_variants mgname default_idx key
          · exact reg.zero_weight_length mgname default_idx
          · intro hneg
            exact absurd ⟨hc.1, hc.2, rfl⟩ hneg
          · intro _ _ _ ptr fn h0 hp hf
            unfold mapgen_registry.zero_weight
            rw [if_neg (not_lt.mpr h0), hp]
            have hf' : reg.functions[ptr]? = some fn := by simpa using hf
            simp [hf', reg.at_key_of_variant mgname _ ptr hp]
        · refine ⟨reg, ?_, fun _ => rfl, rfl, fun _ => rfl, ?_⟩
          · simp only [load_mapgen_function, if_pos hd, hm, if_pos hc, hn, if_neg he]
          · intro _ _ h
            simp only [Option.some.injEq] at h
            exact absurd h he
    · refine ⟨reg, ?_, fun _ => rfl, rfl, fun _ => rfl, ?_⟩
      · simp only [load_mapgen_function, if_pos hd, hm, if_neg hc]
      · intro h1 h2 _
        exact absurd ⟨h1, h2⟩ hc

/-- C13, witness: the key `house` holds a built-in generator of weight 1000 and a
JSON chunk; a document of weight 0 naming the built-in zeroes its weight. -/
theorem load_mapgen_function_disabled_witness :
    load_mapgen_function (fun _ => true)
        ⟨[⟨1000, .builtin "house"⟩, ⟨500, .json "{}" 0 0⟩], [("house", [0, 1])]⟩
        ⟨some 0, none, some "builtin", some "house", none⟩ "house" 0 0 0
      = .ok (none, ⟨[⟨0, .builtin "house"⟩, ⟨500, .json "{}" 0 0⟩], [("house", [0, 1])]⟩) := by
  obtain ⟨reg', h1, _, _, _, h5⟩ :=
    (load_mapgen_function_disabled (fun _ => true)
      ⟨[⟨1000, .builtin "house"⟩, ⟨500, .json "{}" 0 0⟩], [("house", [0, 1])]⟩
      ⟨some 0, none, some "builtin", some "house", none⟩ "house" 0 0 0
      (Or.inl (by decide))).2 "builtin" rfl
  obtain ⟨h6, h7⟩ := h5 (by decide) rfl rfl 0 ⟨1000, .builtin "house"⟩ (by decide)
    (by simp [mapgen_registry.variants, std_map_find]) rfl
  rw [h1]
  cases reg'
  simp only at h6 h7
  subst h6; subst h7
  rfl

/-- C13, counterexample: a document with weight 0 and no `method` member makes
`load_mapgen_function` throw instead of returning no chunk. -/
theorem load_mapgen_function_disabled_without_method_throws :
    (⟨some 0, none, none, none, none⟩ : mapgen_entry).weight.getD 1000 ≤ 0 ∧
    thrown_message (load_mapgen_function (fun _ => true) ⟨[], []⟩
      ⟨some 0, none, none, none, none⟩ "house" (-1) 0 0) = some "member method not found" := by
  decide

/-- C14 (amended): after `reset_mapgens()` the top-level, the nested and the
update registry are empty; the index `oter_mapgen_weights` and the table
`palettes` are left as they were. -/
theorem reset_mapgens_clears_chunk_registries {F N U P : Type} (g : mapgen_globals F N U P) :
    (reset_mapgens g).oter_mapgen = [] ∧ (reset_mapgens g).nested_mapgen = [] ∧
    (reset_mapgens g).update_mapgen = [] ∧
    (reset_mapgens g).oter_mapgen_weights = g.oter_mapgen_weights ∧
    (reset_mapgens g).palettes = g.palettes :=
  ⟨rfl, rfl, rfl, rfl, rfl⟩

/-- C14, counterexample: after a load and a reset the index still has the entry
of `house` and the palette table still holds `standard`. -/
theorem reset_mapgens_keeps_index_and_palettes :
    (reset_mapgens loaded_globals).oter_mapgen_weights = [("house", [(3, 0)])] ∧
    (reset_mapgens loaded_globals).palettes.map Prod.fst = ["standard"] ∧
    (reset_mapgens loaded_globals).oter_mapgen_weights ≠ [] ∧
    (reset_mapgens loaded_globals).palettes.length ≠ 0 := by
  decide

/-! ### Running the generator of a key -/

section RunningTheorems

variable {M R D : Type}

/-- C15: `run_mapgen_func` on a key that has no registered variants (the key is
absent, or its vector is empty) returns false and leaves the tile and the
random generator as they were, whatever generators are registered. -/
theorem run_mapgen_func_not_found (E : Env M R D)
    (oter_mapgen : List (String × List (mapgen_variant M R D)))
    (oter_mapgen_weights : List (String × weight_index))
    (mapgen_id : String) (terrain_type : oter_t) (density : D) (st : M × R)
    (h : oter_mapgen.lookup mapgen_id = none ∨ oter_mapgen.lookup mapgen_id = some []) :
    run_mapgen_func_generate E oter_mapgen oter_mapgen_weights mapgen_id terrain_type density st
      = some (false, st) := by
  unfold run_mapgen_func_generate
  rcases h with h | h <;> rw [h]

/-- C15, witness: the registry holds a generator for `house` only; `field` is
absent and `cellar` has an empty vector. -/
theorem run_mapgen_func_not_found_witness :
    run_mapgen_func_generate (recording_env [])
        [("house", [recording_variant 1000 "house"]), ("cellar", [])]
        [("house", [(1000, 0)]), ("cellar", [])] "field" ⟨false, 0⟩ () ([], ())
      = some (false, ([], ())) ∧
    run_mapgen_func_generate (recording_env [])
        [("house", [recording_variant 1000 "house"]), ("cellar", [])]
        [("house", [(1000, 0)]), ("cellar", [])] "cellar" ⟨false, 0⟩ () ([], ())
      = some (false, ([], ())) :=
  ⟨run_mapgen_func_not_found (recording_env [])
      [("house", [recording_variant 1000 "house"]), ("cellar", [])]
      [("house", [(1000, 0)]), ("cellar", [])] "field" ⟨false, 0⟩ () ([], ()) (Or.inl (by rfl)),
    run_mapgen_func_not_found (recording_env [])
      [("house", [recording_variant 1000 "house"]), ("cellar", [])]
      [("house", [(1000, 0)]), ("cellar", [])] "cellar" ⟨false, 0⟩ () ([], ())
      (Or.inr (by rfl))⟩

end RunningTheorems


/-! ### Calls made by the objects collection -/

section CallsTheorems

variable {M R D : Type}

lemma logging_piece_iterate (tag : Nat) (rep x y : jmapgen_int) (d : D) (miss : Option Nat)
    (n : Nat) : ∀ (log : List map_event) (r : R),
    Nat.iterate ((logging_piece tag rep : jmapgen_piece (List map_event) R D).apply x y d miss) n
        (log, r)
      = (log ++ List.replicate n (map_event.piece tag x y), r) := by
  induction n with
  | zero => intro log r; simp
  | succ k ih =>
    intro log r
    rw [Function.iterate_succ_apply]
    simp only [logging_piece] at ih ⊢
    rw [ih]
    simp [List.replicate_succ]

lemma apply_obj_logging (E : Env (List map_event) R D) (where_ : jmapgen_place) (tag : Nat)
    (rep : jmapgen_int) (d : D) (miss : Option Nat) (log : List map_event) (r : R) :
    jmapgen_objects.apply_obj E where_ (logging_piece tag rep) d miss (log, r)
      = (log ++ List.replicate
            (max (where_.repeat.get E r).1 (rep.get E (where_.repeat.get E r).2).1).toNat
            (map_event.piece tag where_.x where_.y),
          (rep.get E (where_.repeat.get E r).2).2) := by
  simp only [jmapgen_objects.apply_obj]
  have hrep : (logging_piece tag rep : jmapgen_piece (List map_event) R D).repeat = rep := rfl
  rw [hrep, logging_piece_iterate]

lemma logging_objects_foldl (E : Env (List map_event) R D) (d : D) (miss : Option Nat)
    (entries : List (jmapgen_place × Nat × jmapgen_int)) :
    ∀ (log : List map_event) (r : R),
      ((logging_objects entries).foldl
        (fun acc obj => jmapgen_objects.apply_obj E obj.1 obj.2 d miss acc) (log, r)).1
        = log ++ expected_calls E entries r := by
  induction entries with
  | nil => intro log r; simp [logging_objects, expected_calls]
  | cons e rest ih =>
    intro log r
    unfold logging_objects at ih ⊢
    rw [List.map_cons, List.foldl_cons, apply_obj_logging, ih]
    simp [expected_calls]

/-- C16: `jmapgen_objects::apply` visits the pairs in declaration order and calls
each piece's `apply` exactly `max( descriptor.repeat.get(), piece.repeat.get() )`
times with the descriptor's `x` and `y` ranges: for a collection of logging
pieces and any random generator the log grows by exactly the expected calls,
without an offset and (with the ranges translated) with one; and a pair whose
maximum is not positive makes no call at all, whatever the piece. -/
theorem objects_apply_calls (E : Env (List map_event) R D) (o : jmapgen_objects (List map_event) R D)
    (entries : List (jmapgen_place × Nat × jmapgen_int)) (ho : o.objects = logging_objects entries)
    (ox oy : Int) (d : D) (miss : Option Nat) (log : List map_event) (r : R) :
    (o.apply E d miss (log, r)).1 = log ++ expected_calls E entries r ∧
    (o.apply_offset E ox oy d miss (log, r)).1
      = log ++ expected_calls E (translated_entries ox oy entries) r ∧
    (∀ (where_ : jmapgen_place) (what : jmapgen_piece (List map_event) R D),
      max (where_.repeat.get E r).1 (what.repeat.get E (where_.repeat.get E r).2).1 ≤ 0 →
      (jmapgen_objects.apply_obj E where_ what d miss (log, r)).1 = log) := by
  refine ⟨?_, ?_, ?_⟩
  · unfold jmapgen_objects.apply
    rw [ho]
    exact logging_objects_foldl E d miss entries log r
  · rw [apply_offset_eq_translated, ho]
    have h := logging_objects_foldl E d miss (translated_entries ox oy entries) log r
    rw [← h]
    simp only [logging_objects, translated_entries, List.foldl_map]
  · intro where_ what hle
    simp only [jmapgen_objects.apply_obj]
    rw [Int.toNat_of_nonpos hle]
    rfl

/-- C16, witness: two entries on the recording surface, the first with
`repeat` 2 on the descriptor and 1 on the piece, the second with both
`repeat`s not positive. -/
theorem objects_apply_calls_witness :
    ((⟨0, 0, 24, 24, logging_objects [(⟨⟨0, 1⟩, ⟨2, 2⟩, ⟨2, 3⟩⟩, 7, ⟨1, 1⟩),
          (⟨⟨4, 4⟩, ⟨5, 5⟩, ⟨0, 0⟩⟩, 8, ⟨-1, -1⟩)]⟩ :
        jmapgen_objects (List map_event) Unit Unit).apply (recording_env []) () none
        ([], ())).1
      = [map_event.piece 7 ⟨0, 1⟩ ⟨2, 2⟩, map_event.piece 7 ⟨0, 1⟩ ⟨2, 2⟩] ∧
    ((⟨0, 0, 24, 24, logging_objects [(⟨⟨0, 1⟩, ⟨2, 2⟩, ⟨2, 3⟩⟩, 7, ⟨1, 1⟩),
          (⟨⟨4, 4⟩, ⟨5, 5⟩, ⟨0, 0⟩⟩, 8, ⟨-1, -1⟩)]⟩ :
        jmapgen_objects (List map_event) Unit Unit).apply_offset (recording_env []) 10 20 ()
        none ([], ())).1
      = [map_event.piece 7 ⟨10, 11⟩ ⟨22, 22⟩, map_event.piece 7 ⟨10, 11⟩ ⟨22, 22⟩] :=
  ⟨(objects_apply_calls (recording_env [])
      ⟨0, 0, 24, 24, logging_objects [(⟨⟨0, 1⟩, ⟨2, 2⟩, ⟨2, 3⟩⟩, 7, ⟨1, 1⟩),
        (⟨⟨4, 4⟩, ⟨5, 5⟩, ⟨0, 0⟩⟩, 8, ⟨-1, -1⟩)]⟩ _ rfl 10 20 () none [] ()).1,
    (objects_apply_calls (recording_env [])
      ⟨0, 0, 24, 24, logging_objects [(⟨⟨0, 1⟩, ⟨2, 2⟩, ⟨2, 3⟩⟩, 7, ⟨1, 1⟩),
        (⟨⟨4, 4⟩, ⟨5, 5⟩, ⟨0, 0⟩⟩, 8, ⟨-1, -1⟩)]⟩ _ rfl 10 20 () none [] ()).2.1⟩

end CallsTheorems

/-! ### Spawning items and monsters -/

section SpawningTheorems

variable {M R D : Type}

/-- C17: whatever the item spawn rate, an entry `x: [a, a], y: [b, b],
repeat: [1, 1]` (or no `repeat`) of `place_item` with the default chance and
amount makes `jmapgen_objects::apply`, without or with a zero offset, perform
exactly one call `spawn_item( a, b, type, 1 )` and nothing else, the random
generator left untouched. -/
theorem single_item_spawned_once (E : Env M R D) (S : spawn_env M R D) (a b : Int)
    (type : String) (ox oy : Int) (sx sy : Nat) (d : D) (miss : Option Nat) (st : M × R) :
    (∀ rep, rep = none ∨ rep = some (⟨1, 1⟩ : jmapgen_int) →
      (⟨ox, oy, sx, sy,
          [(jmapgen_place.load ⟨⟨a, a⟩, ⟨b, b⟩, rep, type, none, none⟩,
            (jmapgen_spawn_item.load ⟨⟨a, a⟩, ⟨b, b⟩, rep, type, none, none⟩).to_piece E S)]⟩ :
          jmapgen_objects M R D).apply E d miss st = S.spawn_item a b type 1 st ∧
      (⟨ox, oy, sx, sy,
          [(jmapgen_place.load ⟨⟨a, a⟩, ⟨b, b⟩, rep, type, none, none⟩,
            (jmapgen_spawn_item.load ⟨⟨a, a⟩, ⟨b, b⟩, rep, type, none, none⟩).to_piece E S)]⟩ :
          jmapgen_objects M R D).apply_offset E 0 0 d miss st = S.spawn_item a b type 1 st) := by
  intro rep hrep
  have h1 : (⟨ox, oy, sx, sy,
          [(jmapgen_place.load ⟨⟨a, a⟩, ⟨b, b⟩, rep, type, none, none⟩,
            (jmapgen_spawn_item.load ⟨⟨a, a⟩, ⟨b, b⟩, rep, type, none, none⟩).to_piece E S)]⟩ :
          jmapgen_objects M R D).apply E d miss st = S.spawn_item a b type 1 st := by
    rcases hrep with h | h <;> subst h <;>
      simp [jmapgen_objects.apply, jmapgen_objects.apply_obj, jmapgen_place.load,
        jmapgen_spawn_item.load, jmapgen_spawn_item.to_piece, jmapgen_spawn_item.apply,
        jmapgen_spawn_item.spawn_once, jmapgen_int.get]
  refine ⟨h1, ?_⟩
  unfold jmapgen_objects.apply_offset
  rw [if_pos ⟨rfl, rfl⟩]
  exact h1

/-- C17, evaluation on the recording surface: one `rock` at the cell `(1, 1)`. -/
theorem single_item_spawned_once_witness :
    (⟨0, 0, 24, 24,
        [(jmapgen_place.load ⟨⟨1, 1⟩, ⟨1, 1⟩, some ⟨1, 1⟩, "rock", none, none⟩,
          (jmapgen_spawn_item.load ⟨⟨1, 1⟩, ⟨1, 1⟩, some ⟨1, 1⟩, "rock", none, none⟩).to_piece
            (recording_env []) recording_spawn_env)]⟩ :
        jmapgen_objects (List map_event) Unit Unit).apply (recording_env []) () none ([], ())
      = ([map_event.spawn_item 1 1 "rock" 1], ()) :=
  ((single_item_spawned_once (recording_env []) recording_spawn_env 1 1 "rock" 0 0 24 24 () none
    ([], ())) (some ⟨1, 1⟩) (Or.inr rfl)).1

/-- C18: a placement that names unknown content is skipped and leaves the tile
and the random generator as they were, the call returning normally:
`map::place_spawns` with an invalid monster group adds no spawn (for any
bound on the rounds of its loop), and `map::place_items` with a chance
outside `1..100` or with an undefined item group places nothing and returns
an empty list. -/
theorem invalid_content_is_skipped (E : Env M R D) (S : spawn_env M R D) (st : M × R) :
    (∀ (fuel : Nat) (group : String) (chance x1 y1 x2 y2 : Int) (density : D)
        (individual friendly : Bool), S.group_is_valid group = false →
      place_spawns E S fuel group chance x1 y1 x2 y2 density individual friendly st = some st) ∧
    (∀ (loc : String) (chance x1 y1 x2 y2 : Int) (ongrass : Bool) (turn magazine ammo : Int),
      (chance > 100 ∨ chance ≤ 0) ∨ S.group_is_defined loc = false →
      place_items E S loc chance x1 y1 x2 y2 ongrass turn magazine ammo st = ([], st)) := by
  constructor
  · intro fuel group chance x1 y1 x2 y2 density individual friendly h
    simp only [place_spawns, h, if_true]
  · intro loc chance x1 y1 x2 y2 ongrass turn magazine ammo h
    unfold place_items
    rcases h with h | h
    · rw [if_pos h]
    · by_cases hc : chance > 100 ∨ chance ≤ 0
      · rw [if_pos hc]
      · rw [if_neg hc, if_pos h]

/-- C18, evaluation on the recording surface, where `forest` is the only monster
group and `rock` the only item group: the unknown group `nowhere` and the
chances 0 and 101 place nothing, the known ones do. -/
theorem invalid_content_is_skipped_witness :
    place_spawns (recording_env []) recording_spawn_env 5 "nowhere" 1 0 0 23 23 () false false
        ([], ()) = some ([], ()) ∧
    place_items (recording_env []) recording_spawn_env "nowhere" 100 0 0 23 23 false 0 0 0
        ([], ()) = ([], ([], ())) ∧
    place_items (recording_env []) recording_spawn_env "rock" 0 0 0 23 23 false 0 0 0
        ([], ()) = ([], ([], ())) ∧
    place_items (recording_env []) recording_spawn_env "rock" 101 0 0 23 23 false 0 0 0
        ([], ()) = ([], ([], ())) ∧
    place_spawns (recording_env []) recording_spawn_env 5 "forest" 1 0 0 23 23 () true false
        ([], ()) = some ([map_event.add_spawn "forest" 1 0 0 false], ()) ∧
    place_items (recording_env []) recording_spawn_env "rock" 100 0 0 23 23 false 0 0 0
        ([], ()) = ([0, 0], ([map_event.put_items "rock" 0 0, map_event.put_items "rock" 0 0], ())) :=
  ⟨(invalid_content_is_skipped (recording_env []) recording_spawn_env ([], ())).1 5 "nowhere" 1 0
      0 23 23 () false false (by decide),
    (invalid_content_is_skipped (recording_env []) recording_spawn_env ([], ())).2 "nowhere" 100
      0 0 23 23 false 0 0 0 (Or.inr (by decide)),
    (invalid_content_is_skipped (recording_env []) recording_spawn_env ([], ())).2 "rock" 0
      0 0 23 23 false 0 0 0 (Or.inl (Or.inr (by decide))),
    (invalid_content_is_skipped (recording_env []) recording_spawn_env ([], ())).2 "rock" 101
      0 0 23 23 false 0 0 0 (Or.inl (Or.inl (by decide))),
    by decide, by decide⟩

end SpawningTheorems

/-! ### The neighbourhood test of a nested chunk -/

lemma any_subtype_acc (f : String → String → Bool) (id : String) (allowed : List String) :
    ∀ acc : Bool,
      allowed.foldl (fun acc a => acc || f a id) acc = true
        ↔ acc = true ∨ ∃ a ∈ allowed, f a id = true := by
  induction allowed with
  | nil => intro acc; simp
  | cons a rest ih =>
    intro acc
    rw [List.foldl_cons, ih]
    simp only [Bool.or_eq_true, List.mem_cons, exists_eq_or_imp]
    tauto

lemma any_subtype_iff (f : String → String → Bool) (allowed : List String) (id : String) :
    any_subtype f allowed id = true ↔ ∃ a ∈ allowed, f a id = true := by
  unfold any_subtype
  rw [any_subtype_acc]
  simp

lemma directions_match_iff (g : Nat × List String → Bool) (l : List (List String)) :
    ∀ (n : Nat) (acc : Bool),
      (l.enumFrom n).foldl (fun acc dir => if dir.2.isEmpty then acc else acc && g dir) acc
          = true
        ↔ acc = true ∧ ∀ i (h : i < l.length), l[i] ≠ [] → g (n + i, l[i]) = true := by
  induction l with
  | nil => intro n acc; simp
  | cons s rest ih =>
    intro n acc
    rw [List.enumFrom_cons, List.foldl_cons, ih]
    constructor
    · rintro ⟨h1, h2⟩
      by_cases hs : s = []
      · subst hs
        simp only [List.isEmpty_nil, if_true] at h1
        refine ⟨h1, ?_⟩
        intro i hi hne
        cases i with
        | zero => exact absurd rfl hne
        | succ j =>
          have := h2 j (by simpa using hi) (by simpa using hne)
          simpa [Nat.add_assoc, Nat.add_comm 1 j] using this
      · have hemp : s.isEmpty = false := by
          cases s with
          | nil => exact absurd rfl hs
          | cons a l => rfl
        simp only [hemp, Bool.false_eq_true, if_false, Bool.and_eq_true] at h1
        refine ⟨h1.1, ?_⟩
        intro i hi hne
        cases i with
        | zero => simpa using h1.2
        | succ j =>
          have := h2 j (by simpa using hi) (by simpa using hne)
          simpa [Nat.add_assoc, Nat.add_comm 1 j] using this
    · rintro ⟨h1, h2⟩
      constructor
      · by_cases hs : s = []
        · subst hs; simpa using h1
        · have hemp : s.isEmpty = false := by
            cases s with
            | nil => exact absurd rfl hs
            | cons a l => rfl
          have h0 := h2 0 (by simp) (by simpa using hs)
          simp only [hemp, Bool.false_eq_true, if_false, Bool.and_eq_true]
          exact ⟨h1, by simpa using h0⟩
      · intro i hi hne
        have := h2 (i + 1) (by simpa using hi) (by simpa using hne)
        simpa [Nat.add_assoc, Nat.add_comm 1 i] using this

lemma load_direction_neighbors (above_tags : List String) (l : List (List String)) :
    ∀ (n : Nat) (c : neighborhood_check),
      ((l.enumFrom n).foldl (neighborhood_check.load_direction above_tags) c).neighbors
        = (l.enumFrom n).foldl (fun acc dir => acc.set dir.1 dir.2) c.neighbors := by
  induction l with
  | nil => intro n c; rfl
  | cons s rest ih =>
    intro n c
    rw [List.enumFrom_cons, List.foldl_cons, List.foldl_cons, ih]
    rfl

lemma set_enumFrom (l : List (List String)) :
    ∀ (pre junk post : List (List String)), junk.length = l.length →
      (l.enumFrom pre.length).foldl (fun acc dir => acc.set dir.1 dir.2) (pre ++ junk ++ post)
        = pre ++ l ++ post := by
  induction l with
  | nil =>
    intro pre junk post h
    have : junk = [] := List.length_eq_zero.mp h
    subst this; rfl
  | cons s rest ih =>
    intro pre junk post h
    cases junk with
    | nil => simp at h
    | cons j js =>
      rw [List.enumFrom_cons, List.foldl_cons]
      have hset : (pre ++ j :: js ++ post).set pre.length s = (pre ++ [s]) ++ js ++ post := by
        simp [List.set_append]
      have hlen : pre.length + 1 = (pre ++ [s]).length := by simp
      simp only [hset, hlen]
      rw [ih (pre ++ [s]) js post (by simpa using h)]
      simp

lemma load_neighbors (tags : List (List String)) (above_tags : List String) :
    (neighborhood_check.load tags above_tags).neighbors = tags := by
  unfold neighborhood_check.load List.enum
  rw [load_direction_neighbors]
  have := set_enumFrom tags [] (List.replicate tags.length []) [] (by simp)
  simpa using this

lemma load_above (tags : List (List String)) (above_tags : List String) (h : tags ≠ []) :
    (neighborhood_check.load tags above_tags).above = above_tags := by
  unfold neighborhood_check.load
  have hl : tags.enum ≠ [] := by
    cases tags with
    | nil => exact absurd rfl h
    | cons a l => simp [List.enum, List.enumFrom_cons]
  rw [← List.dropLast_append_getLast hl, List.foldl_append]
  rfl

lemma load_has_any (tags : List (List String)) (above_tags : List String) :
    (neighborhood_check.load tags above_tags).has_any = false →
      (∀ s ∈ (neighborhood_check.load tags above_tags).neighbors, s = []) ∧
      (neighborhood_check.load tags above_tags).above = [] := by
  unfold neighborhood_check.load
  apply foldl_invariant
    (fun c : neighborhood_check => c.has_any = false → (∀ s ∈ c.neighbors, s = []) ∧ c.above = [])
  · intro _
    exact ⟨fun s hs => (List.mem_replicate.mp hs).2, rfl⟩
  · intro c dir ih hfalse
    simp only [neighborhood_check.load_direction, Bool.or_eq_false_iff, Bool.not_eq_false',
      List.isEmpty_iff] at hfalse
    obtain ⟨⟨h1, h2⟩, h3⟩ := hfalse
    obtain ⟨i1, _⟩ := ih h1
    refine ⟨?_, h3⟩
    intro s hs
    simp only [neighborhood_check.load_direction] at hs
    rcases List.mem_or_eq_of_mem_set hs with h | h
    · exact i1 s h
    · rw [h, h2]
lemma neighborhood_check.test_iff (is_ot_subtype : String → String → Bool)
    (c : neighborhood_check) (neighbor_at : Nat → String) (above_id : String)
    (hc : c.has_any = false → (∀ s ∈ c.neighbors, s = []) ∧ c.above = []) :
    c.test is_ot_subtype neighbor_at above_id = true ↔
      (∀ i (h : i < c.neighbors.length), c.neighbors[i] ≠ [] →
        ∃ a ∈ c.neighbors[i], is_ot_subtype a (neighbor_at i) = true) ∧
      (c.above ≠ [] → ∃ a ∈ c.above, is_ot_subtype a above_id = true) := by
  unfold neighborhood_check.test
  cases hany : c.has_any with
  | false =>
    obtain ⟨h1, h2⟩ := hc hany
    simp only [Bool.not_false, if_true, true_iff]
    refine ⟨?_, fun hne => absurd h2 hne⟩
    intro i hi hne
    exact absurd (h1 _ (List.getElem_mem _)) hne
  | true =>
    simp only [Bool.not_true, Bool.false_eq_true, if_false]
    have hdir := directions_match_iff
      (fun dir => any_subtype is_ot_subtype dir.2 (neighbor_at dir.1)) c.neighbors 0 true
    simp only [Nat.zero_add, true_and, any_subtype_iff] at hdir
    by_cases ha : c.above = []
    · simp only [ha, List.isEmpty_nil, Bool.not_true, Bool.false_eq_true, if_false]
      unfold List.enum
      rw [hdir]
      simp
    · have hemp : c.above.isEmpty = false := by
        cases hab : c.above with
        | nil => exact absurd hab ha
        | cons a l => rfl
      simp only [hemp, Bool.not_false, if_true, Bool.and_eq_true, any_subtype_iff]
      unfold List.enum
      rw [hdir]
      simp [ha]

/-- C19: for a check built by the constructor, `neighborhood_check::test` returns
true if and only if, for every direction whose allowed set is not empty, the
neighbour in that direction matches at least one allowed pattern, and, when
the `above` set is not empty, the tile above matches at least one of its
patterns; with no constraint at all it returns true.  The sets of the check
are the tags the constructor read. -/
theorem neighborhood_test_iff (is_ot_subtype : String → String → Bool)
    (tags : List (List String)) (above_tags : List String) (neighbor_at : Nat → String)
    (above_id : String) :
    (neighborhood_check.load tags above_tags).neighbors = tags ∧
    (tags ≠ [] → (neighborhood_check.load tags above_tags).above = above_tags) ∧
    ((neighborhood_check.load tags above_tags).test is_ot_subtype neighbor_at above_id = true ↔
      (∀ i (h : i < (neighborhood_check.load tags above_tags).neighbors.length),
        (neighborhood_check.load tags above_tags).neighbors[i] ≠ [] →
        ∃ a ∈ (neighborhood_check.load tags above_tags).neighbors[i],
          is_ot_subtype a (neighbor_at i) = true) ∧
      ((neighborhood_check.load tags above_tags).above ≠ [] →
        ∃ a ∈ (neighborhood_check.load tags above_tags).above,
          is_ot_subtype a above_id = true)) ∧
    ((∀ s ∈ tags, s = []) → above_tags = [] →
      (neighborhood_check.load tags above_tags).test is_ot_subtype neighbor_at above_id
        = true) := by
  have hiff := neighborhood_check.test_iff is_ot_subtype (neighborhood_check.load tags above_tags)
    neighbor_at above_id (load_has_any tags above_tags)
  refine ⟨load_neighbors tags above_tags, load_above tags above_tags, hiff, ?_⟩
  intro hall habove
  rw [hiff]
  constructor
  · intro i hi hne
    exfalso
    apply hne
    have hmem : ∀ s ∈ (neighborhood_check.load tags above_tags).neighbors, s = [] := by
      rw [load_neighbors]; exact hall
    exact hmem _ (List.getElem_mem hi)
  · intro hne
    exfalso
    apply hne
    by_cases ht : tags = []
    · subst ht; rfl
    · rw [load_above tags above_tags ht]; exact habove

/-- C19, evaluation: with the four directions constrained as `road` to the north
and `house` or `shop` to the south, a tile between a road and a shop passes and
one between a field and a shop does not. -/
theorem neighborhood_test_iff_witness :
    (neighborhood_check.load [["road"], [], ["house", "shop"], []] []).test prefix_subtype
        (fun i => if i = 0 then "road_ns" else if i = 2 then "shop_east" else "field") "open_air"
      = true ∧
    (neighborhood_check.load [["road"], [], ["house", "shop"], []] []).test prefix_subtype
        (fun i => if i = 2 then "shop_east" else "field") "open_air" = false ∧
    (neighborhood_check.load [[], [], [], []] ["roof"]).test prefix_subtype
        (fun _ => "field") "open_air" = false ∧
    (neighborhood_check.load [[], [], [], []] []).test prefix_subtype
        (fun _ => "field") "open_air" = true := by
  refine ⟨by rfl, by rfl, by rfl,
    (neighborhood_test_iff prefix_subtype [[], [], [], []] [] (fun _ => "field") "open_air").2.2.2
      (by simp) rfl⟩

/-! ### The grid format writes its own cells only -/

section FrameTheorems

variable {M R D : Type}

lemma grid_cells_of_mem (w h : Nat) (c : Nat × Nat) :
    c ∈ grid_cells_of w h ↔ c.1 < w ∧ c.2 < h := by
  obtain ⟨x, y⟩ := c
  simp only [grid_cells_of, List.mem_flatMap, List.mem_map, List.mem_range, Prod.mk.injEq]
  constructor
  · rintro ⟨y', hy', x', hx', h1, h2⟩
    subst h1; subst h2
    exact ⟨hx', hy'⟩
  · rintro ⟨hx, hy⟩
    exact ⟨y, hy, x, hx, rfl, rfl⟩

lemma grid_cells_of_nodup (w h : Nat) : (grid_cells_of w h).Nodup := by
  unfold grid_cells_of
  rw [List.nodup_flatMap]
  constructor
  · intro y _
    apply List.Nodup.map
    · intro a b hab
      simpa using hab
    · exact List.nodup_range w
  · apply List.Pairwise.imp_of_mem _ (List.nodup_range h)
    intro y1 y2 _ _ hne
    simp only [Function.onFun, List.Disjoint]
    intro c h1 h2
    simp only [List.mem_map, List.mem_range] at h1 h2
    obtain ⟨x1, _, e1⟩ := h1
    obtain ⟨x2, _, e2⟩ := h2
    rw [← e2] at e1
    simp only [Prod.mk.injEq] at e1
    exact hne e1.2

lemma write_ter_furn_read (E : Env M R D) (ter furn : M → Int → Int → Int)
    (hE : E.cell_setters ter furn) (td : ter_furn_id) (X0 Y0 : Int) (m : M) (X Y : Int) :
    ter (write_ter_furn E td X0 Y0 m) X Y
      = (if (X = X0 ∧ Y = Y0) ∧ td.ter ≠ E.t_null then td.ter else ter m X Y) ∧
    furn (write_ter_furn E td X0 Y0 m) X Y
      = (if (X = X0 ∧ Y = Y0) ∧ td.furn ≠ E.f_null then td.furn else furn m X Y) := by
  obtain ⟨h1, h2, h3, h4, h5, h6⟩ := hE
  unfold write_ter_furn
  by_cases hf : td.furn = E.f_null <;> by_cases ht : td.ter = E.t_null <;>
    by_cases hxy : X = X0 ∧ Y = Y0 <;>
    simp [hf, ht, hxy, h1, h2, h3, h4, h5, h6]

lemma foldl_write_elsewhere (E : Env M R D) (ter furn : M → Int → Int → Int)
    (hE : E.cell_setters ter furn) (td : Nat × Nat → ter_furn_id) (ox oy X Y : Int)
    (cs : List (Nat × Nat)) (h : ∀ c ∈ cs, ¬ (X = (c.1 : Int) + ox ∧ Y = (c.2 : Int) + oy)) :
    ∀ m : M,
      ter (cs.foldl (fun m c => write_ter_furn E (td c) ((c.1 : Int) + ox) ((c.2 : Int) + oy) m)
        m) X Y = ter m X Y ∧
      furn (cs.foldl (fun m c => write_ter_furn E (td c) ((c.1 : Int) + ox) ((c.2 : Int) + oy) m)
        m) X Y = furn m X Y := by
  induction cs with
  | nil => intro m; exact ⟨rfl, rfl⟩
  | cons c rest ih =>
    intro m
    rw [List.foldl_cons]
    have hrest := ih (fun c' hc' => h c' (List.mem_cons_of_mem _ hc'))
      (write_ter_furn E (td c) ((c.1 : Int) + ox) ((c.2 : Int) + oy) m)
    have hw := write_ter_furn_read E ter furn hE (td c) ((c.1 : Int) + ox) ((c.2 : Int) + oy) m
      X Y
    have hc := h c (List.mem_cons_self _ _)
    rw [hrest.1, hrest.2, hw.1, hw.2]
    simp [hc]

lemma foldl_write_at (E : Env M R D) (ter furn : M → Int → Int → Int)
    (hE : E.cell_setters ter furn) (td : Nat × Nat → ter_furn_id) (ox oy : Int)
    (c0 : Nat × Nat) (cs : List (Nat × Nat)) (hnd : cs.Nodup) (hc0 : c0 ∈ cs) :
    ∀ m : M,
      ter (cs.foldl (fun m c => write_ter_furn E (td c) ((c.1 : Int) + ox) ((c.2 : Int) + oy) m)
        m) ((c0.1 : Int) + ox) ((c0.2 : Int) + oy)
        = (if (td c0).ter ≠ E.t_null then (td c0).ter
            else ter m ((c0.1 : Int) + ox) ((c0.2 : Int) + oy)) ∧
      furn (cs.foldl (fun m c => write_ter_furn E (td c) ((c.1 : Int) + ox) ((c.2 : Int) + oy) m)
        m) ((c0.1 : Int) + ox) ((c0.2 : Int) + oy)
        = (if (td c0).furn ≠ E.f_null then (td c0).furn
            else furn m ((c0.1 : Int) + ox) ((c0.2 : Int) + oy)) := by
  induction cs with
  | nil => simp at hc0
  | cons c rest ih =>
    intro m
    rw [List.nodup_cons] at hnd
    rw [List.foldl_cons]
    have hw := write_ter_furn_read E ter furn hE (td c) ((c.1 : Int) + ox) ((c.2 : Int) + oy) m
      ((c0.1 : Int) + ox) ((c0.2 : Int) + oy)
    rcases List.mem_cons.mp hc0 with h | h
    · subst h
      have hrest := foldl_write_elsewhere E ter furn hE td ox oy ((c0.1 : Int) + ox)
        ((c0.2 : Int) + oy) rest
        (by
          intro c' hc' heq
          have h1 : c'.1 = c0.1 := by have := heq.1; omega
          have h2 : c'.2 = c0.2 := by have := heq.2; omega
          have : c' = c0 := Prod.ext h1 h2
          rw [this] at hc'
          exact hnd.1 hc')
        (write_ter_furn E (td c0) ((c0.1 : Int) + ox) ((c0.2 : Int) + oy) m)
      rw [hrest.1, hrest.2, hw.1, hw.2]
      simp
    · have hne : ¬ ((c0.1 : Int) + ox = (c.1 : Int) + ox ∧ (c0.2 : Int) + oy = (c.2 : Int) + oy) := by
        intro heq
        have h1 : c0.1 = c.1 := by have := heq.1; omega
        have h2 : c0.2 = c.2 := by have := heq.2; omega
        have : c0 = c := Prod.ext h1 h2
        rw [this] at h
        exact hnd.1 h
      have hrest := ih hnd.2 h
        (write_ter_furn E (td c) ((c.1 : Int) + ox) ((c.2 : Int) + oy) m)
      have e1 := hw.1
      have e2 := hw.2
      rw [if_neg (fun hh => hne hh.1)] at e1 e2
      rw [hrest.1, hrest.2, e1, e2]
      exact ⟨rfl, rfl⟩

/-- C20: `formatted_set_incredibly_simple( m, ox, oy )` changes, for each grid
cell `(x, y)` with `x < mapgensize_x` and `y < mapgensize_y`, only the map
cell `(x + ox, y + oy)`: its terrain becomes the grid terrain when that is not
null and stays as it was otherwise, its furniture becomes the grid furniture
when that is not null and stays as it was otherwise; every map cell outside
that rectangle keeps its terrain and furniture.  The setters of the surface
are taken to be cell assignments. -/
theorem formatted_set_frame (E : Env M R D) (ter furn : M → Int → Int → Int)
    (hE : E.cell_setters ter furn) (f : mapgen_function_json_base M R D) (m : M)
    (ox oy : Int) :
    (∀ x y, x < f.mapgensize_x → y < f.mapgensize_y →
      ter (f.formatted_set_incredibly_simple E m ox oy) ((x : Int) + ox) ((y : Int) + oy)
        = (if (f.grid_at E x y).ter ≠ E.t_null then (f.grid_at E x y).ter
            else ter m ((x : Int) + ox) ((y : Int) + oy)) ∧
      furn (f.formatted_set_incredibly_simple E m ox oy) ((x : Int) + ox) ((y : Int) + oy)
        = (if (f.grid_at E x y).furn ≠ E.f_null then (f.grid_at E x y).furn
            else furn m ((x : Int) + ox) ((y : Int) + oy))) ∧
    (∀ X Y, (∀ x y, x < f.mapgensize_x → y < f.mapgensize_y →
        ¬ (X = (x : Int) + ox ∧ Y = (y : Int) + oy)) →
      ter (f.formatted_set_incredibly_simple E m ox oy) X Y = ter m X Y ∧
      furn (f.formatted_set_incredibly_simple E m ox oy) X Y = furn m X Y) := by
  rw [formatted_set_eq_cells]
  constructor
  · intro x y hx hy
    exact foldl_write_at E ter furn hE
      (fun c => f.format.getD (c.2 * f.mapgensize_y + c.1) ⟨E.t_null, E.f_null⟩) ox oy (x, y)
      (grid_cells_of f.mapgensize_x f.mapgensize_y) (grid_cells_of_nodup _ _)
      ((grid_cells_of_mem _ _ _).mpr ⟨hx, hy⟩) m
  · intro X Y hout
    exact foldl_write_elsewhere E ter furn hE
      (fun c => f.format.getD (c.2 * f.mapgensize_y + c.1) ⟨E.t_null, E.f_null⟩) ox oy X Y
      (grid_cells_of f.mapgensize_x f.mapgensize_y)
      (fun c hc => hout c.1 c.2 ((grid_cells_of_mem _ _ _).mp hc).1
        ((grid_cells_of_mem _ _ _).mp hc).2) m

lemma recording_env_cell_setters (vehicles : List (Int × Int)) :
    (recording_env vehicles).cell_setters recorded_ter recorded_furn := by
  refine ⟨?_, ?_, ?_, ?_, ?_, ?_⟩ <;> intros <;>
    simp [recording_env, recorded_ter, recorded_furn, List.foldl_append]

/-- C20, witness: the two by two grid of the recording surface written at the
offset `(10, 20)` of an empty tile. -/
theorem formatted_set_frame_witness :
    (∀ x y, x < recording_grid_chunk.mapgensize_x → y < recording_grid_chunk.mapgensize_y →
      recorded_ter (recording_grid_chunk.formatted_set_incredibly_simple (recording_env []) []
          10 20) ((x : Int) + 10) ((y : Int) + 20)
        = (if (recording_grid_chunk.grid_at (recording_env []) x y).ter ≠ (recording_env []).t_null
            then (recording_grid_chunk.grid_at (recording_env []) x y).ter
            else recorded_ter [] ((x : Int) + 10) ((y : Int) + 20)) ∧
      recorded_furn (recording_grid_chunk.formatted_set_incredibly_simple (recording_env []) []
          10 20) ((x : Int) + 10) ((y : Int) + 20)
        = (if (recording_grid_chunk.grid_at (recording_env []) x y).furn
              ≠ (recording_env []).f_null
            then (recording_grid_chunk.grid_at (recording_env []) x y).furn
            else recorded_furn [] ((x : Int) + 10) ((y : Int) + 20))) ∧
    (∀ X Y, (∀ x y, x < recording_grid_chunk.mapgensize_x →
        y < recording_grid_chunk.mapgensize_y → ¬ (X = (x : Int) + 10 ∧ Y = (y : Int) + 20)) →
      recorded_ter (recording_grid_chunk.formatted_set_incredibly_simple (recording_env []) []
          10 20) X Y = recorded_ter [] X Y ∧
      recorded_furn (recording_grid_chunk.formatted_set_incredibly_simple (recording_env []) []
          10 20) X Y = recorded_furn [] X Y) :=
  formatted_set_frame (recording_env []) recorded_ter recorded_furn
    (recording_env_cell_setters []) recording_grid_chunk [] 10 20

end FrameTheorems


/-! ### The single-monster piece -/

section MonsterTheorems

variable {M R D : Type}

/-- C21: `jmapgen_monster::apply` for a piece whose chance is 100.  The odds handed
to `x_in_y` are the density-scaled odds capped at 100, so below density 1 the
roll can fail: then `apply` returns before the line that raises the count to
at least 1 and the tile is left as it was, no spawn registered.  When the roll
succeeds the spawn registered has a count of at least 1 times the pack size. -/
theorem single_monster_full_chance (E : Env M R D) (S : monster_env M R D) (p : jmapgen_monster)
    (x y : jmapgen_int) (miss : Option Nat) (st : M × R)
    (hc : p.chance = ⟨100, 100⟩) :
    ((S.x_in_y (min (S.density_odds 100) 100) 100 st.2).1 = false →
      p.apply E S x y miss st = (st.1, (S.x_in_y (min (S.density_odds 100) 100) 100 st.2).2)) ∧
    ((S.x_in_y (min (S.density_odds 100) 100) 100 st.2).1 = true →
      ∃ (n : Int) (id : String) (pack a b mission_id : Int) (r : R), 1 ≤ n ∧
        p.apply E S x y miss st
          = (S.add_spawn id (n * pack) a b p.friendly (-1) mission_id p.name st.1, r)) := by
  have hget : p.chance.get E st.2 = (100, st.2) := by
    rw [hc]; simp [jmapgen_int.get]
  have hodds : (if S.density_odds 100 > 100 - Int.tdiv (100 - 100) 2
      then 100 - Int.tdiv (100 - 100) 2 else S.density_odds 100)
      = min (S.density_odds 100) 100 := by
    have h0 : (100 : Int) - Int.tdiv (100 - 100) 2 = 100 := by decide
    rw [h0]
    by_cases h : S.density_odds 100 > 100
    · rw [if_pos h, min_eq_right (le_of_lt h)]
    · rw [if_neg h, min_eq_left (not_lt.mp h)]
  constructor
  · intro hfail
    simp only [jmapgen_monster.apply, hget, hodds, hfail, if_true]
  · intro hpass
    simp only [jmapgen_monster.apply, hget, hodds, hpass, if_true]
    simp only [Bool.true_eq_false, if_false]
    exact ⟨_, _, _, _, _, _, _, le_max_right _ _, rfl⟩

/-- C21, at density one half with the draw of `x_in_y` at three quarters: the
piece with chance 100 registers no spawn. -/
theorem single_monster_full_chance_witness :
    jmapgen_monster.apply (recording_env []) (recording_monster_env 50 75) recording_monster
      ⟨3, 3⟩ ⟨4, 4⟩ none ([], ()) = ([], ()) :=
  (single_monster_full_chance (recording_env []) (recording_monster_env 50 75) recording_monster
    ⟨3, 3⟩ ⟨4, 4⟩ none ([], ()) rfl).1 (by decide)

end MonsterTheorems

/-! ### The selection of `run_mapgen_func` after `calculate_mapgen_weights` -/

lemma cumulative_snd_lt (ws : List Int) : ∀ (f : Nat) (t : Int) (e : Int × Nat),
    e ∈ cumulative ws f t → e.2 < f + ws.length := by
  induction ws with
  | nil => intro f t e he; simp [cumulative] at he
  | cons w rest ih =>
    intro f t e he
    by_cases hw : w < 1
    · simp only [cumulative, if_pos hw] at he
      have := ih _ _ _ he
      simp only [List.length_cons]; omega
    · simp only [cumulative, if_neg hw] at he
      rcases List.mem_cons.mp he with h1 | h1
      · subst h1; simp
      · have := ih _ _ _ h1
        simp only [List.length_cons]; omega

/-- For a key with a variant of weight at least 1 and a total weight within
`int` the selection is defined: the index is not empty, every roll from 1 to
the last key has a `lower_bound`, and the index found is a position of the
vector. -/
lemma selection_defined_of_enabled (ws : List Int) (hT : 1 ≤ total_weight ws)
    (hfit : total_weight ws ≤ 2147483647) (roll : Int) (hroll : roll ≤ total_weight ws) :
    (rbegin (wcalc ws 0 0 [])).map Prod.fst = some (total_weight ws) ∧
    ∃ e, lower_bound (wcalc ws 0 0 []) roll = some e ∧ e.2 < ws.length := by
  have hidx : wcalc ws 0 0 [] = cumulative ws 0 0 := by
    simpa using wcalc_eq ws 0 0 [] (by simp) (le_refl 0) (by omega)
  have hlast := cumulative_last ws 0 0 hT
  rw [zero_add] at hlast
  rw [hidx]
  refine ⟨hlast, ?_⟩
  cases hl : lower_bound (cumulative ws 0 0) roll with
  | some e =>
    refine ⟨e, rfl, ?_⟩
    have := cumulative_snd_lt ws 0 0 e (List.mem_of_find?_eq_some hl)
    omega
  | none =>
    exfalso
    unfold lower_bound at hl
    rw [List.find?_eq_none] at hl
    unfold rbegin at hlast
    cases hg : (cumulative ws 0 0).getLast? with
    | none => rw [hg] at hlast; simp at hlast
    | some a =>
      rw [hg] at hlast
      simp only [Option.map_some', Option.some.injEq] at hlast
      have hmem : a ∈ cumulative ws 0 0 := List.mem_of_getLast?_eq_some hg
      have := hl a hmem
      simp only [decide_eq_true_eq] at this
      omega

/-- C22: the code at the failing input.  The key `house` has its built-in
generator as only variant; loading the document `{ "method": "builtin",
"name": "house", "weight": 0 }` for that key with `default_idx = 0` sets the
weight of that variant to 0.  `calculate_mapgen_weights` then leaves the
cumulative index of the key empty, and `run_mapgen_func`, which only tests that
the vector of variants is not empty, reads `rbegin()` of the empty index: the
selection is undefined. -/
theorem run_mapgen_func_all_variants_disabled :
    ∃ reg : mapgen_registry,
      load_mapgen_function (fun _ => true) house_registry disabling_entry "house" 0 0 0
        = .ok (none, reg) ∧
      reg.weights = [("house", [0])] ∧
      calculate_mapgen_weights reg.weights = [("house", [])] ∧
      run_mapgen_func_rlast (calculate_mapgen_weights reg.weights) "house" = none ∧
      run_mapgen_func_generate (recording_env []) (reg.generators recording_generate)
        (calculate_mapgen_weights reg.weights) "house" ⟨false, 0⟩ () ([], ()) = none := by
  refine ⟨{ functions := [⟨0, .builtin "house"⟩], oter_mapgen := [("house", [0])] },
    ?_, by rfl, by rfl, by rfl, by rfl⟩
  simp [load_mapgen_function, disabling_entry, house_registry, mapgen_registry.zero_weight,
    mapgen_registry.variants, mapgen_registry.at_key, std_map_find]

/-! ### Loading a standalone mapgen document -/

/-- C23: the code at the failing input.  For the document `{ "om_terrain": [
"house", "shed" ], "method": "json", "object": {}, "weight": 100 }` loaded into
empty tables, `load_mapgen_function` pushes the chunk into the vector of
`house` and `load_mapgen` pushes it again into the vector of every key of the
list: `house` holds it twice and `shed` once.  With rows of keys, `[ [ "house",
"shed" ] ]`, every key holds its chunk twice.  With the single key `"house"`
the chunk is registered once. -/
theorem load_mapgen_registers_twice :
    loaded_weights (load_mapgen (fun _ => true) empty_tables
      (chunk_document (.list ["house", "shed"]))) "house" = some [100, 100] ∧
    loaded_weights (load_mapgen (fun _ => true) empty_tables
      (chunk_document (.list ["house", "shed"]))) "shed" = some [100] ∧
    loaded_weights (load_mapgen (fun _ => true) empty_tables
      (chunk_document (.rows [["house", "shed"]]))) "house" = some [100, 100] ∧
    loaded_weights (load_mapgen (fun _ => true) empty_tables
      (chunk_document (.rows [["house", "shed"]]))) "shed" = some [100, 100] ∧
    loaded_weights (load_mapgen (fun _ => true) empty_tables
      (chunk_document (.string "house"))) "house" = some [100] := by
  have h : ¬ (['s', 'h', 'e', 'd'] < ['h', 'o', 'u', 's', 'e']) := by decide
  refine ⟨?_, ?_, ?_, ?_, ?_⟩ <;>
    simp [loaded_weights, load_mapgen, load_mapgen_rows, load_mapgen_row, chunk_document,
      empty_tables, load_mapgen_function, mapgen_registry.make_and_push,
      mapgen_registry.push_back, mapgen_registry.variants, std_map_find, std_map_assign,
      mapgen_registry.weights, h]

/-! ### Two draws of one range -/

/-- C24: the code at the failing input.  A chunk with the predecessor `field` and
the rotation range `[0, 3]`, the random generator drawing 1 and then 2:
`generate` calls `rotation.get()` once for the turns it undoes after the
predecessor, `( -1 + 4 ) % 4 = 3`, and once more for the final rotation, 2.
The two numbers of quarter turns come from different draws and their sum, 5,
is not a multiple of 4. -/
theorem generate_draws_rotation_twice :
    (scripted_mapgen (some "field") ⟨0, 3⟩).generate (scripted_env []) ⟨false, 0⟩ ()
        ([], [1, 2])
      = ([map_event.predecessor "field", map_event.rotate 3, map_event.stairs,
          map_event.rotate 2], []) ∧
    inverse_turns 1 = 3 ∧ Int.tmod (3 + 2) 4 ≠ 0 := by
  decide

/-- C25: the code at the failing input.  An update chunk places a furniture with
the descriptor `x: [0, 1], y: 0` on a tile with a vehicle on the cell `(1, 0)`,
the random generator drawing 0 and then 1.  With `verify = true`,
`jmapgen_objects::has_vehicle_collision` draws the cell `(0, 0)` and finds no
vehicle, the update proceeds, and `apply` draws again: the furniture is set on
the cell `(1, 0)`, where the vehicle stands. -/
theorem update_map_checks_another_cell :
    update_mapgen_function_json.update_map (scripted_env [(1, 0)])
        (scripted_update [(1, 0)] ⟨⟨0, 1⟩, ⟨0, 0⟩, ⟨1, 1⟩⟩ 5) ([], [0, 1]) 0 0 none true 0
      = (true, ([map_event.furn_set 1 0 5], [])) ∧
    (scripted_env [(1, 0)]).veh_at [] (1, 0) = true ∧
    (scripted_env [(1, 0)]).veh_at [] (0, 0) = false := by
  decide

/-! ### Reading a range from a document -/

/-- C26: the two JSON constructors of `jmapgen_int` on a member that is present.
A number `n` gives `(n, n)` and an array `[a, b]` gives `(a, b)` with both.  On
the array `[n]` they differ: the mandatory constructor sets `valmax = val` and
gives `(n, n)`, the constructor with default values assigns `val` only and
gives `(n, def_valmax)`.  Read with the defaults `(100, 100)`, the member `[50]`
is the range `(50, 100)`. -/
theorem jmapgen_int_one_element_array (n a b def_val def_valmax : Int) :
    jmapgen_int.from_json (some (.number n)) = .ok ⟨n, n⟩ ∧
    jmapgen_int.from_json_default (some (.number n)) def_val def_valmax = .ok ⟨n, n⟩ ∧
    jmapgen_int.from_json (some (.array [some a, some b])) = .ok ⟨a, b⟩ ∧
    jmapgen_int.from_json_default (some (.array [some a, some b])) def_val def_valmax
      = .ok ⟨a, b⟩ ∧
    jmapgen_int.from_json (some (.array [some n])) = .ok ⟨n, n⟩ ∧
    jmapgen_int.from_json_default (some (.array [some n])) def_val def_valmax
      = .ok ⟨n, def_valmax⟩ ∧
    jmapgen_int.from_json_default (some (.array [some 50])) 100 100 = .ok ⟨50, 100⟩ ∧
    jmapgen_int.from_json (some (.array [some 50])) = .ok ⟨50, 50⟩ := by
  refine ⟨rfl, rfl, ?_, ?_, ?_, ?_, ?_, ?_⟩ <;>
    simp [jmapgen_int.from_json, jmapgen_int.from_json_default, json_array_get_int]

/-! ### Loading loot entries -/

lemma loot_rescale_spec (scale : Int → Int) (w : jmapgen_place) (l : jmapgen_loot) :
    (loot_rescale scale w l).1.x = w.x ∧ (loot_rescale scale w l).1.y = w.y ∧
    (w.repeat.valmax ≠ 1 →
      (loot_rescale scale w l).1.repeat
          = ⟨max (scale w.repeat.val) 1, max (scale w.repeat.valmax) 1⟩ ∧
        1 ≤ (loot_rescale scale w l).1.repeat.val ∧
        1 ≤ (loot_rescale scale w l).1.repeat.valmax ∧
        (loot_rescale scale w l).2 = l) ∧
    (w.repeat.valmax = 1 →
      (loot_rescale scale w l).1.repeat = w.repeat ∧
        (l.chance = 100 → (loot_rescale scale w l).2 = l) ∧
        (l.chance ≠ 100 →
          (loot_rescale scale w l).2 = { l with chance := max (min (scale l.chance) 100) 1 } ∧
            1 ≤ (loot_rescale scale w l).2.chance ∧ (loot_rescale scale w l).2.chance ≤ 100)) := by
  unfold loot_rescale
  by_cases h1 : w.repeat.valmax ≠ 1
  · rw [if_pos h1]
    refine ⟨rfl, rfl, fun _ => ⟨rfl, le_max_right _ _, le_max_right _ _, rfl⟩, fun h => ?_⟩
    exact absurd h h1
  · rw [if_neg h1]
    by_cases h2 : l.chance ≠ 100
    · rw [if_pos h2]
      refine ⟨rfl, rfl, fun h => absurd h h1, fun _ => ⟨rfl, fun h => absurd h h2, fun _ => ?_⟩⟩
      refine ⟨rfl, le_max_right _ _, ?_⟩
      exact max_le (min_le_right _ _) (by decide)
    · rw [if_neg h2]
      exact ⟨rfl, rfl, fun h => absurd h h1, fun _ => ⟨rfl, fun _ => rfl, fun h => absurd h h2⟩⟩

lemma load_objects_loot_eq (ox oy : Int) (sx sy : Nat) (scale : Int → Int) :
    ∀ (parray : List (jmapgen_place × loot_entry))
      (objects res : List (jmapgen_place × jmapgen_loot)),
      load_objects_loot ox oy sx sy scale parray objects = .ok res →
      res = objects ++ (accepted_loot ox oy sx sy parray).map
        (fun e => loot_rescale scale e.1 e.2) := by
  intro parray
  induction parray with
  | nil =>
    intro objects res h
    simp only [load_objects_loot, Except.ok.injEq] at h
    simp [accepted_loot, h]
  | cons jsi parray ih =>
    intro objects res h
    simp only [load_objects_loot] at h
    cases hb : common_check_bounds (jsi.1.offset ox oy).x (jsi.1.offset ox oy).y (sx : Int)
        (sy : Int) with
    | error e => rw [hb] at h; simp at h
    | ok b =>
      rw [hb] at h
      cases b with
      | false =>
        simp only at h
        rw [ih objects res h]
        simp [accepted_loot, hb]
      | true =>
        simp only at h
        cases hl : jmapgen_loot.load jsi.2 with
        | error e => rw [hl] at h; simp at h
        | ok loot =>
          rw [hl] at h
          simp only at h
          rw [ih _ res h]
          simp [accepted_loot, hb, hl]

/-- C27: after `load_objects<jmapgen_loot>`, whatever the item spawn rate (`scale
v` stands for `v * rate` converted to `int`), the collection holds one pair for
every accepted entry, in order.  If the declared repeat maximum is not 1, both
repeat bounds are rescaled to `max( scale, 1 )`, so they are at least 1, and
the loot with its chance is as declared.  Otherwise the repeat is as declared,
a chance of exactly 100 stays 100, and any other chance becomes
`max( min( scale, 100 ), 1 )`, a value from 1 to 100.  The cell ranges are
never changed. -/
theorem load_objects_loot_rescaled (ox oy : Int) (sx sy : Nat) (scale : Int → Int)
    (parray : List (jmapgen_place × loot_entry)) (res : List (jmapgen_place × jmapgen_loot))
    (h : load_objects_loot ox oy sx sy scale parray [] = .ok res) :
    res = (accepted_loot ox oy sx sy parray).map (fun e => loot_rescale scale e.1 e.2) ∧
    ∀ e ∈ accepted_loot ox oy sx sy parray,
      (loot_rescale scale e.1 e.2).1.x = e.1.x ∧ (loot_rescale scale e.1 e.2).1.y = e.1.y ∧
      (e.1.repeat.valmax ≠ 1 →
        (loot_rescale scale e.1 e.2).1.repeat
            = ⟨max (scale e.1.repeat.val) 1, max (scale e.1.repeat.valmax) 1⟩ ∧
          1 ≤ (loot_rescale scale e.1 e.2).1.repeat.val ∧
          1 ≤ (loot_rescale scale e.1 e.2).1.repeat.valmax ∧
          (loot_rescale scale e.1 e.2).2 = e.2) ∧
      (e.1.repeat.valmax = 1 →
        (loot_rescale scale e.1 e.2).1.repeat = e.1.repeat ∧
          (e.2.chance = 100 → (loot_rescale scale e.1 e.2).2 = e.2) ∧
          (e.2.chance ≠ 100 →
            (loot_rescale scale e.1 e.2).2
                = { e.2 with chance := max (min (scale e.2.chance) 100) 1 } ∧
              1 ≤ (loot_rescale scale e.1 e.2).2.chance ∧
              (loot_rescale scale e.1 e.2).2.chance ≤ 100)) := by
  refine ⟨?_, fun e _ => loot_rescale_spec scale e.1 e.2⟩
  simpa using load_objects_loot_eq ox oy sx sy scale parray [] res h

/-- C27, witness: four declared entries at a spawn rate of one tenth.  The
repeat `[2, 4]` becomes `[1, 1]` with the chance 40 kept, the chance 100 stays,
the chance 40 of an entry that does not repeat becomes 4, and the entry outside
the grid is dropped. -/
theorem load_objects_loot_rescaled_witness :
    load_objects_loot 0 0 24 24 (fun v => Int.tdiv v 10) recording_loot_entries []
      = .ok [ (⟨⟨1, 1⟩, ⟨2, 2⟩, ⟨1, 1⟩⟩, ⟨"rock", "", 0, 0, 40⟩),
              (⟨⟨3, 3⟩, ⟨4, 4⟩, ⟨1, 1⟩⟩, ⟨"", "stick", 0, 0, 100⟩),
              (⟨⟨5, 5⟩, ⟨6, 6⟩, ⟨1, 1⟩⟩, ⟨"rock", "", 0, 0, 4⟩) ] ∧
    [ ((⟨⟨1, 1⟩, ⟨2, 2⟩, ⟨1, 1⟩⟩ : jmapgen_place), (⟨"rock", "", 0, 0, 40⟩ : jmapgen_loot)),
      (⟨⟨3, 3⟩, ⟨4, 4⟩, ⟨1, 1⟩⟩, ⟨"", "stick", 0, 0, 100⟩),
      (⟨⟨5, 5⟩, ⟨6, 6⟩, ⟨1, 1⟩⟩, ⟨"rock", "", 0, 0, 4⟩) ]
      = (accepted_loot 0 0 24 24 recording_loot_entries).map
          (fun e => loot_rescale (fun v => Int.tdiv v 10) e.1 e.2) :=
  have h : load_objects_loot 0 0 24 24 (fun v => Int.tdiv v 10) recording_loot_entries []
      = .ok [ (⟨⟨1, 1⟩, ⟨2, 2⟩, ⟨1, 1⟩⟩, ⟨"rock", "", 0, 0, 40⟩),
              (⟨⟨3, 3⟩, ⟨4, 4⟩, ⟨1, 1⟩⟩, ⟨"", "stick", 0, 0, 100⟩),
              (⟨⟨5, 5⟩, ⟨6, 6⟩, ⟨1, 1⟩⟩, ⟨"rock", "", 0, 0, 4⟩) ] := by rfl
  ⟨h, (load_objects_loot_rescaled 0 0 24 24 (fun v => Int.tdiv v 10) recording_loot_entries _ h).1⟩

/-! ### Spells: the two energy tests -/

/-- C28: for a player `p` who knows the spell and each of the five energy sources
that `magic.cpp` names, `spell::can_cast( p )` and
`p.magic.has_enough_energy( p, spell )` return the same boolean: mana, stamina
and bionic power must be at least the energy cost, hit points need some body
part with more than the cost, and the source `none` always succeeds. -/
theorem can_cast_eq_has_enough_energy (p : player) (sp : spell)
    (hk : p.magic.knows_spell sp.id = true) (hs : sp.energy_source ≠ .unnamed) :
    sp.can_cast p = p.magic.has_enough_energy p sp ∧
    (sp.energy_source = .mana_energy →
      (sp.can_cast p = true ↔ p.magic.mana ≥ sp.energy_cost)) ∧
    (sp.energy_source = .stamina_energy →
      (sp.can_cast p = true ↔ p.stamina ≥ sp.energy_cost)) ∧
    (sp.energy_source = .bionic_energy →
      (sp.can_cast p = true ↔ p.power_level ≥ sp.energy_cost)) ∧
    (sp.energy_source = .hp_energy →
      (sp.can_cast p = true ↔ ∃ hp ∈ p.hp_cur, hp > sp.energy_cost)) ∧
    (sp.energy_source = .none_energy → sp.can_cast p = true) := by
  unfold spell.can_cast known_magic.has_enough_energy known_magic.available_mana
  rw [hk]
  cases he : sp.energy_source with
  | hp_energy => simp
  | mana_energy => simp
  | stamina_energy => simp
  | bionic_energy => simp
  | none_energy => simp
  | unnamed => exact absurd he hs

/-- C28, witness: the player of the example and a spell that costs 7 hit points;
the body part with 8 hit points pays for it. -/
theorem can_cast_eq_has_enough_energy_witness :
    spell.can_cast ⟨"bolt", .hp_energy, 7⟩ recording_player
      = recording_player.magic.has_enough_energy recording_player ⟨"bolt", .hp_energy, 7⟩ ∧
    spell.can_cast ⟨"bolt", .hp_energy, 7⟩ recording_player = true ∧
    spell.can_cast ⟨"bolt", .hp_energy, 8⟩ recording_player = false :=
  ⟨(can_cast_eq_has_enough_energy recording_player ⟨"bolt", .hp_energy, 7⟩ (by decide)
    (by decide)).1, by decide, by decide⟩

/-! ### Spells: the letters of the menu -/

lemma mem_std_set_emplace (s : List Int) (i c : Int) :
    c ∈ std_set_emplace s i ↔ c ∈ s ∨ c = i := by
  unfold std_set_emplace
  by_cases h : i ∈ s
  · rw [if_pos h]
    constructor
    · exact fun hc => Or.inl hc
    · rintro (hc | hc)
      · exact hc
      · rw [hc]; exact h
  · rw [if_neg h]; simp

lemma mem_foldl_emplace (pairs : List (String × Int)) : ∀ (s : List Int) (c : Int),
    c ∈ pairs.foldl (fun acc invlet_pair => std_set_emplace acc invlet_pair.2) s
      ↔ c ∈ s ∨ c ∈ pairs.map Prod.snd := by
  induction pairs with
  | nil => intro s c; simp
  | cons e rest ih =>
    intro s c
    rw [List.foldl_cons, ih, mem_std_set_emplace, List.map_cons, List.mem_cons]
    tauto

lemma first_unused_eq (used : List Int) (lo hi : Int) :
    first_unused used lo hi = (int_range lo hi).find? (fun i => decide (i ∉ used)) := by
  unfold first_unused
  congr 1
  funext i
  simp [List.count_eq_zero]

/-- The three loops of `get_invlet` are one search along `invlet_order`. -/
lemma get_invlet_auto (m : known_magic) (sp : String) (used_invlets : List Int)
    (h : std_map_find m.invlets sp = none) :
    m.get_invlet sp used_invlets
      = match invlet_order.find? (fun i => decide (i ∉ m.invlets.foldl
            (fun acc invlet_pair => std_set_emplace acc invlet_pair.2) used_invlets)) with
        | some i => (i, std_set_emplace (m.invlets.foldl
            (fun acc invlet_pair => std_set_emplace acc invlet_pair.2) used_invlets) i)
        | none => (0, m.invlets.foldl
            (fun acc invlet_pair => std_set_emplace acc invlet_pair.2) used_invlets) := by
  unfold known_magic.get_invlet invlet_order
  rw [h]
  simp only [first_unused_eq, List.find?_append]
  cases h1 : (int_range (char_code 'a') (char_code 'z')).find? (fun i => decide (i ∉ m.invlets.foldl
      (fun acc invlet_pair => std_set_emplace acc invlet_pair.2) used_invlets)) with
  | some i => simp
  | none =>
    cases h2 : (int_range (char_code 'A') (char_code 'Z')).find? (fun i => decide (i ∉ m.invlets.foldl
        (fun acc invlet_pair => std_set_emplace acc invlet_pair.2) used_invlets)) with
    | some i => simp
    | none =>
      cases h3 : (int_range (char_code '!') (char_code '-')).find? (fun i => decide (i ∉ m.invlets.foldl
          (fun acc invlet_pair => std_set_emplace acc invlet_pair.2) used_invlets)) with
      | some i => simp
      | none => simp

lemma find_free_eq (m : known_magic) (used_invlets : List Int) :
    invlet_order.find? (fun i => decide (i ∉ m.invlets.foldl
        (fun acc invlet_pair => std_set_emplace acc invlet_pair.2) used_invlets))
      = invlet_order.find?
          (fun c => decide (c ∉ used_invlets ∧ c ∉ m.invlets.map Prod.snd)) := by
  congr 1
  funext i
  have := mem_foldl_emplace m.invlets used_invlets i
  by_cases h : i ∈ used_invlets <;> by_cases h2 : i ∈ m.invlets.map Prod.snd <;>
    simp [this, h, h2]

lemma zero_not_mem_invlet_order : (0 : Int) ∉ invlet_order := by decide

lemma get_invlet_value (m : known_magic) (sp : String) (used_invlets : List Int)
    (h : std_map_find m.invlets sp = none) :
    (m.get_invlet sp used_invlets).1
        = (invlet_order.find?
            (fun c => decide (c ∉ used_invlets ∧ c ∉ m.invlets.map Prod.snd))).getD 0 ∧
    ∀ c, c ∈ (m.get_invlet sp used_invlets).2 ↔
      c ∈ used_invlets ∨ c ∈ m.invlets.map Prod.snd ∨
        invlet_order.find?
          (fun c => decide (c ∉ used_invlets ∧ c ∉ m.invlets.map Prod.snd)) = some c := by
  rw [get_invlet_auto m sp used_invlets h, find_free_eq]
  cases hf : invlet_order.find?
      (fun c => decide (c ∉ used_invlets ∧ c ∉ m.invlets.map Prod.snd)) with
  | some i =>
    refine ⟨rfl, fun c => ?_⟩
    simp only [mem_std_set_emplace, mem_foldl_emplace, Option.some.injEq]
    constructor
    · rintro ((h1 | h1) | h1)
      · exact Or.inl h1
      · exact Or.inr (Or.inl h1)
      · exact Or.inr (Or.inr h1.symm)
    · rintro (h1 | h1 | h1)
      · exact Or.inl (Or.inl h1)
      · exact Or.inl (Or.inr h1)
      · exact Or.inr h1.symm
  | none =>
    refine ⟨rfl, fun c => ?_⟩
    simp only [mem_foldl_emplace]
    constructor
    · rintro (h1 | h1)
      · exact Or.inl h1
      · exact Or.inr (Or.inl h1)
    · rintro (h1 | h1 | h1)
      · exact Or.inl h1
      · exact Or.inr h1
      · exact absurd h1 (by simp)

lemma get_invlet_used_mono (m : known_magic) (sp : String) (used_invlets : List Int) (c : Int)
    (hc : c ∈ used_invlets) : c ∈ (m.get_invlet sp used_invlets).2 := by
  cases h : std_map_find m.invlets sp with
  | some found =>
    unfold known_magic.get_invlet
    rw [h]
    exact hc
  | none => exact ((get_invlet_value m sp used_invlets h).2 c).mpr (Or.inl hc)

lemma get_invlet_fresh (m : known_magic) (sp : String) (used_invlets : List Int)
    (h : std_map_find m.invlets sp = none) (hne : (m.get_invlet sp used_invlets).1 ≠ 0) :
    (m.get_invlet sp used_invlets).1 ∈ invlet_order ∧
    (m.get_invlet sp used_invlets).1 ∉ used_invlets ∧
    (m.get_invlet sp used_invlets).1 ∉ m.invlets.map Prod.snd ∧
    (m.get_invlet sp used_invlets).1 ∈ (m.get_invlet sp used_invlets).2 := by
  obtain ⟨hv, hm⟩ := get_invlet_value m sp used_invlets h
  cases hf : invlet_order.find?
      (fun c => decide (c ∉ used_invlets ∧ c ∉ m.invlets.map Prod.snd)) with
  | none => rw [hf] at hv; exact absurd hv hne
  | some i =>
    rw [hf] at hv
    simp only [Option.getD_some] at hv
    have hp := List.find?_some hf
    have hi := List.mem_of_find?_eq_some hf
    simp only [decide_eq_true_eq] at hp
    rw [hv]
    refine ⟨hi, hp.1, hp.2, ?_⟩
    rw [← hv]
    exact (hm _).mpr (Or.inr (Or.inr (by rw [hf, hv])))

lemma select_spell_loop_fresh (m : known_magic) : ∀ (known_spells : List String)
    (used_invlets : List Int) (b : String × Int),
    b ∈ known_spells.zip (select_spell_loop m known_spells used_invlets) →
    std_map_find m.invlets b.1 = none → b.2 ≠ 0 →
    b.2 ∈ invlet_order ∧ b.2 ∉ used_invlets ∧ b.2 ∉ m.invlets.map Prod.snd := by
  intro known_spells
  induction known_spells with
  | nil => intro used b hb; simp [select_spell_loop] at hb
  | cons sp rest ih =>
    intro used b hb hauto hne
    simp only [select_spell_loop, List.zip_cons_cons, List.mem_cons] at hb
    rcases hb with hb | hb
    · subst hb
      have := get_invlet_fresh m sp used hauto hne
      exact ⟨this.1, this.2.1, this.2.2.1⟩
    · have := ih _ b hb hauto hne
      exact ⟨this.1, fun hc => this.2.1 (get_invlet_used_mono m sp used _ hc), this.2.2⟩

lemma select_spell_loop_pairwise (m : known_magic) : ∀ (known_spells : List String)
    (used_invlets : List Int),
    List.Pairwise (fun a b : String × Int =>
        std_map_find m.invlets a.1 = none → std_map_find m.invlets b.1 = none →
          (a.2 ≠ 0 ∨ b.2 ≠ 0) → a.2 ≠ b.2)
      (known_spells.zip (select_spell_loop m known_spells used_invlets)) := by
  intro known_spells
  induction known_spells with
  | nil => intro used; simp [select_spell_loop]
  | cons sp rest ih =>
    intro used
    simp only [select_spell_loop, List.zip_cons_cons]
    refine List.Pairwise.cons ?_ (ih _)
    intro b hb ha hbauto hnz heq
    simp only at ha heq hnz
    by_cases h0 : (m.get_invlet sp used).1 = 0
    · rcases hnz with h1 | h1
      · exact h1 h0
      · exact h1 (by rw [← heq, h0])
    · have hin := (get_invlet_fresh m sp used ha h0).2.2.2
      have hb0 : b.2 ≠ 0 := by rw [← heq]; exact h0
      have := (select_spell_loop_fresh m rest _ b hb hbauto hb0).2.1
      rw [← heq] at this
      exact this hin

/-- C29: `known_magic::get_invlet` returns the stored invlet of the spell when
there is one and leaves `used_invlets` as it was.  Otherwise it returns the
first character of `'a'..'z'`, `'A'..'Z'`, `'!'..'-'`, in this order, that is
neither in `used_invlets` nor the invlet of any spell in `invlets`, and
afterwards `used_invlets` holds it together with what it held before and the
stored invlets; it returns 0 exactly when all of those characters are taken.
Hence in the menu of `select_spell` the invlets assigned to spells without a
stored invlet differ from one another (0, returned when no character is left,
is no invlet), and none is `'I'` or the stored invlet of a spell. -/
theorem get_invlet_assigns_free_letter (m : known_magic) :
    (∀ (sp : String) (used_invlets : List Int) (found : Int),
      std_map_find m.invlets sp = some found →
        m.get_invlet sp used_invlets = (found, used_invlets)) ∧
    (∀ (sp : String) (used_invlets : List Int), std_map_find m.invlets sp = none →
      (m.get_invlet sp used_invlets).1
          = (invlet_order.find?
              (fun c => decide (c ∉ used_invlets ∧ c ∉ m.invlets.map Prod.snd))).getD 0 ∧
        (∀ c, c ∈ (m.get_invlet sp used_invlets).2 ↔
          c ∈ used_invlets ∨ c ∈ m.invlets.map Prod.snd ∨
            invlet_order.find?
              (fun c => decide (c ∉ used_invlets ∧ c ∉ m.invlets.map Prod.snd)) = some c) ∧
        ((m.get_invlet sp used_invlets).1 = 0 ↔
          ∀ c ∈ invlet_order, c ∈ used_invlets ∨ c ∈ m.invlets.map Prod.snd)) ∧
    (∀ known_spells : List String,
      List.Pairwise (fun a b : String × Int =>
          std_map_find m.invlets a.1 = none → std_map_find m.invlets b.1 = none →
            (a.2 ≠ 0 ∨ b.2 ≠ 0) → a.2 ≠ b.2)
        (known_spells.zip (m.select_spell_invlets known_spells)) ∧
      ∀ b ∈ known_spells.zip (m.select_spell_invlets known_spells),
        std_map_find m.invlets b.1 = none →
          b.2 ≠ char_code 'I' ∧ (b.2 ≠ 0 → b.2 ∈ invlet_order ∧ b.2 ∉ m.invlets.map Prod.snd)) := by
  refine ⟨?_, ?_, ?_⟩
  · intro sp used found h
    unfold known_magic.get_invlet
    rw [h]
  · intro sp used h
    obtain ⟨hv, hm⟩ := get_invlet_value m sp used h
    refine ⟨hv, hm, ?_⟩
    rw [hv]
    cases hf : invlet_order.find?
        (fun c => decide (c ∉ used ∧ c ∉ m.invlets.map Prod.snd)) with
    | none =>
      simp only [Option.getD_none, true_iff]
      intro c hc
      have := List.find?_eq_none.mp hf c hc
      simp only [decide_eq_true_eq] at this
      by_contra hcon
      push_neg at hcon
      exact this hcon
    | some i =>
      simp only [Option.getD_some]
      have hi := List.mem_of_find?_eq_some hf
      have hp := List.find?_some hf
      simp only [decide_eq_true_eq] at hp
      constructor
      · intro h0
        rw [h0] at hi
        exact absurd hi zero_not_mem_invlet_order
      · intro hall
        rcases hall i hi with h1 | h1
        · exact absurd h1 hp.1
        · exact absurd h1 hp.2
  · intro known_spells
    refine ⟨select_spell_loop_pairwise m known_spells _, fun b hb hauto => ?_⟩
    by_cases h0 : b.2 = 0
    · refine ⟨?_, fun h => absurd h0 h⟩
      rw [h0]; decide
    · have := select_spell_loop_fresh m known_spells _ b hb hauto h0
      refine ⟨fun heq => this.2.1 ?_, fun _ => ⟨this.1, this.2.2⟩⟩
      rw [heq]
      simp [std_set_emplace]

/-! ### The slot of a grid cell -/

section SlotTheorems

variable {M R D : Type}

/-- What `setup_internal` has checked when it accepts a declared pair: the
sizes are the declared numbers converted to `size_t`, equal and not zero. -/
lemma nested_setup_internal_ok (a b : Int) (sx sy : Nat)
    (h : mapgen_function_json_nested.setup_internal (some [a, b]) = .ok (true, sx, sy)) :
    sx = to_size_t a ∧ sy = to_size_t a ∧ to_size_t a ≠ 0 := by
  simp only [mapgen_function_json_nested.setup_internal, List.get?_cons_zero,
    List.get?_cons_succ] at h
  by_cases hc : to_size_t a = 0 ∨ to_size_t a ≠ to_size_t b
  · rw [if_pos hc] at h
    simp at h
  · rw [if_neg hc] at h
    simp only [Except.ok.injEq, Prod.mk.injEq, true_and] at h
    have hab : to_size_t a = to_size_t b := by
      by_contra hne
      exact hc (Or.inr hne)
    exact ⟨h.1.symm, by rw [← h.2, ← hab], fun h0 => hc (Or.inl h0)⟩

lemma to_size_t_of_nonneg (a : Int) (h0 : 0 ≤ a) (h1 : a < 2 ^ 31) : to_size_t a = a.toNat := by
  unfold to_size_t
  rw [Int.emod_eq_of_lt h0 (by omega)]

lemma to_size_t_of_neg (a : Int) (h0 : a < 0) (h1 : -2 ^ 31 ≤ a) :
    2 ^ 63 ≤ to_size_t a := by
  unfold to_size_t
  have e : a % 2 ^ 64 = a + 2 ^ 64 := by
    rw [← Int.add_mul_emod_self_left a (2 ^ 64) 1, mul_one]
    exact Int.emod_eq_of_lt (by omega) (by omega)
  rw [e]
  omega

/-- A validated size is square and its cell count fits `size_t`. -/
lemma chunk_size_square_fits (SEEX SEEY rows sx sy : Nat)
    (hsize : validated_chunk_size SEEX SEEY rows sx sy) :
    ∃ n, sx = n ∧ sy = n ∧ n * n < 2 ^ 64 := by
  have hfit : ∀ n : Nat, n < 2 ^ 32 → n * n < 2 ^ 64 := by
    intro n hn
    calc n * n < 2 ^ 32 * 2 ^ 32 := Nat.mul_lt_mul'' hn hn
      _ = 2 ^ 64 := by norm_num
  rcases hsize with ⟨hx, hy, he, hlt⟩ | ⟨a, b, hlo, hhi, h, hpos⟩
  · exact ⟨SEEX * 2, hx, by rw [hy, he], hfit _ (by omega)⟩
  · obtain ⟨e1, e2, e3⟩ := nested_setup_internal_ok a b sx sy h
    have ha : 0 < a := by
      rcases hpos with hp | ⟨hrows, hmem⟩
      · exact hp
      · by_contra hn
        rcases lt_or_eq_of_le (not_lt.mp hn) with hneg | hzero
        · have := to_size_t_of_neg a hneg hlo
          omega
        · rw [hzero] at e3
          exact e3 (by decide)
    have hs := to_size_t_of_nonneg a (le_of_lt ha) hhi
    exact ⟨a.toNat, by rw [e1, hs], by rw [e2, hs], hfit _ (by omega)⟩

end SlotTheorems

/-- The nested size `[-3, -3]`, which the test of `setup_internal` lets through,
is not among the sizes above: no array `rows` is that long, so that the chunk
never has a grid and `calc_index` is never computed for it.  Its sizes are
the value of `-3` converted to `size_t`, and their product wraps to 9. -/
lemma negative_size_has_no_grid (SEEX SEEY rows : Nat) :
    mapgen_function_json_nested.setup_internal (some [-3, -3])
      = .ok (true, 18446744073709551613, 18446744073709551613) ∧
    (sized_chunk 18446744073709551613 18446744073709551613).format_size = 9 ∧
    ¬ validated_chunk_size SEEX SEEY rows 18446744073709551613 18446744073709551613 := by
  refine ⟨by rfl, by rfl, fun h => ?_⟩
  obtain ⟨n, hx, _, hn⟩ := chunk_size_square_fits SEEX SEEY rows _ _ h
  rw [← hx] at hn
  exact absurd hn (by norm_num)

/-! ### Two excluded cases in general -/

section GapLemmas

variable {M R D : Type}

/-- A setmap operation that is not a terrain, furniture or trap operation never
reports a vehicle collision, whatever the tile holds. -/
lemma has_vehicle_collision_of_other_layer (E : Env M R D) (s : jmapgen_setmap)
    (ox oy : Int) (st : M × R)
    (h : s.op = .JMAPGEN_SETMAP_RADIATION ∨ s.op = .JMAPGEN_SETMAP_BASH ∨
      s.op = .JMAPGEN_SETMAP_LINE_RADIATION ∨ s.op = .JMAPGEN_SETMAP_SQUARE_RADIATION ∨
      s.op = .JMAPGEN_SETMAP_OTHER) :
    (s.has_vehicle_collision E ox oy st).1 = false := by
  unfold jmapgen_setmap.has_vehicle_collision
  rcases h with h | h | h | h | h <;> rw [h]

/-- A top-level chunk whose document has `rows` and a palette without any
terrain fails to load with `format: no terrain map`, whatever else it sets. -/
lemma setup_empty_terrain_map (t_null f_null : Int) (x_offset y_offset : Nat)
    (jo : mapgen_document M R D) (f : mapgen_function_json M R D)
    (parray : List (List Char)) (palette : mapgen_palette (jmapgen_piece M R D))
    (q : Bool) (f1 : mapgen_function_json M R D)
    (hint : f.setup_internal t_null jo = .ok (q, f1))
    (hrows : jo.rows = some parray) (hpal : jo.palette = .ok palette)
    (hempty : palette.format_terrain.isEmpty = true) :
    f.setup t_null f_null x_offset y_offset jo = .error "format: no terrain map" := by
  unfold mapgen_function_json.setup
  rw [hint]
  simp only [mapgen_function_json_base.setup_common_body, hrows, hpal, hempty, if_true]

end GapLemmas

end Mapgen
